import Mathlib

/-!
Single-triangle rasterization kernel.

A shallow embedding of `gold/rasterizer.c` (submission_216993263) and theorems
about it.  The functions of the other submissions that differ from it
(submission_217004269, 217703526, 217160821, 217052547, 216981761, 216537555,
217019684) are embedded in namespaces `S<number>` and compared with it.

Conventions of the embedding.

* A C `int` is a Lean `Int`; every arithmetic operation that can leave the
  32-bit range is followed by `wrap32`, the two's-complement reduction, and
  the 64-bit arithmetic of the cull by `wrap64`.  Theorems carry the range
  facts they need as hypotheses.
* `>>` on a signed value is the arithmetic shift, `Int` floor division by a
  power of two; `<<` is multiplication by a power of two followed by the wrap;
  `%` is the truncating remainder `Int.tmod` and `/` the truncating `Int.tdiv`.
* The records of `rasterizer.h` take their fields from the uses in
  `rasterizer.c`: every coordinate and colour channel is an `int`.
* `long` is 64 bits wide and memory is little-endian.  `jitter_sample` stores a
  `long` through a pointer into a five-byte array and reads five bytes back: the
  store writes three bytes past the array.  `jitter_sample` is the value when
  these bytes do not land in the other array's bytes; `jitter_sample_frame`
  takes the placement of the two arrays as a parameter.
* The two `for` loops of `rasterize_triangle` carry fuel: a run that exhausts
  its fuel is `none`.
* The z-buffer is an abstract type `ZBuff`; `process_fragment`, defined outside
  the kernel, is a parameter `pf`.  A state records the buffer, the calls made
  to `process_fragment` in order, and the samples handed to `sample_test`.
-/

namespace Rasterizer

/-! ## Machine integers -/

/-- Two's-complement reduction of an integer to the range of a 32-bit `int`. -/
def wrap32 (x : Int) : Int := (x + 2 ^ 31) % 2 ^ 32 - 2 ^ 31

/-- Two's-complement reduction of an integer to the range of `int64_t`. -/
def wrap64 (x : Int) : Int := (x + 2 ^ 63) % 2 ^ 64 - 2 ^ 63

/-- The value is representable as a 32-bit `int`. -/
def InInt32 (x : Int) : Prop := -2 ^ 31 ≤ x ∧ x < 2 ^ 31

instance (x : Int) : Decidable (InInt32 x) := by unfold InInt32; infer_instance

/-- Arithmetic right shift of a signed value: `x >> n`. -/
def shr (x : Int) (n : Nat) : Int := x / 2 ^ n

/-- Left shift of an `int`: `x << n`, reduced to 32 bits. -/
def shl32 (x : Int) (n : Nat) : Int := wrap32 (x * 2 ^ n)

/-- Conversion of an `int` to `unsigned`: the residue modulo `2^32`. -/
def toUnsigned (x : Int) : Nat := (x % 2 ^ 32).toNat

/-- Bit pattern of a `long`: the residue modulo `2^64`. -/
def toU64 (x : Int) : Nat := (x % 2 ^ 64).toNat

/-! ## Data model (uses of `rasterizer.h` in `rasterizer.c`) -/

/-- Vertex of a triangle: `x`, `y`, `z` and the colour channels. -/
structure Vertex where
  x : Int
  y : Int
  z : Int
  R : Int
  G : Int
  B : Int
  deriving DecidableEq, Repr

/-- Triangle: the array `v[3]`, as the three entries `v[0]`, `v[1]`, `v[2]`. -/
structure Triangle where
  v0 : Vertex
  v1 : Vertex
  v2 : Vertex
  deriving DecidableEq, Repr

/-- Point of the plane: `Vertex2D`, also used under the name `Sample`. -/
structure Sample where
  x : Int
  y : Int
  deriving DecidableEq, Repr

/-- Screen: clipping bounds. -/
structure Screen where
  width : Int
  height : Int
  deriving DecidableEq, Repr

/-- Config: the fields read by the kernel. -/
structure Config where
  r_shift : Int
  ss_w_lg2 : Int
  ss_i : Int
  deriving DecidableEq, Repr

/-- BoundingBox: two corners and the validity flag. -/
structure BoundingBox where
  lower_left : Sample
  upper_right : Sample
  valid : Bool
  deriving DecidableEq, Repr

/-- Fragment: depth and colour handed to `process_fragment`. -/
structure Fragment where
  z : Int
  R : Int
  G : Int
  B : Int
  deriving DecidableEq, Repr

/-! ## Utility functions -/

/-- Source `min`: `(a < b) ? a : b`. -/
def min (a b : Int) : Int := if a < b then a else b

/-- Source `max`: `(a > b) ? a : b`. -/
def max (a b : Int) : Int := if a > b then a else b

/-- Source `floor_ss`: `shamt = r_shift - ss_w_lg2` as `unsigned`, then
`(val >> shamt) << shamt`. -/
def floor_ss (val r_shift ss_w_lg2 : Int) : Int :=
  let shamt : Nat := toUnsigned (r_shift - ss_w_lg2)
  shl32 (shr val shamt) shamt

/-! ## Bounding box -/

/-- Source `get_bounding_box`: extent of the three vertices, rounded down to
the subsample grid, clipped to the screen, then the corner check and the
backface cull on the 64-bit cross product. -/
def get_bounding_box (triangle : Triangle) (screen : Screen) (config : Config) :
    BoundingBox :=
  -- initialise with v[0], then expand with v[1] and v[2]
  let llx0 := min (min triangle.v0.x triangle.v1.x) triangle.v2.x
  let lly0 := min (min triangle.v0.y triangle.v1.y) triangle.v2.y
  let urx0 := max (max triangle.v0.x triangle.v1.x) triangle.v2.x
  let ury0 := max (max triangle.v0.y triangle.v1.y) triangle.v2.y
  -- round down the entire bounding box to the subsample grid
  let llx1 := floor_ss llx0 config.r_shift config.ss_w_lg2
  let lly1 := floor_ss lly0 config.r_shift config.ss_w_lg2
  let urx1 := floor_ss urx0 config.r_shift config.ss_w_lg2
  let ury1 := floor_ss ury0 config.r_shift config.ss_w_lg2
  -- clip each corner to the screen
  let llx := max 0 llx1
  let lly := max 0 lly1
  let urx := min screen.width urx1
  let ury := min screen.height ury1
  let valid0 : Bool := decide (llx ≤ urx) && decide (lly ≤ ury)
  -- backface culling
  let ux := wrap32 (triangle.v1.x - triangle.v0.x)
  let uy := wrap32 (triangle.v1.y - triangle.v0.y)
  let vx := wrap32 (triangle.v2.x - triangle.v0.x)
  let vy := wrap32 (triangle.v2.y - triangle.v0.y)
  let cross := wrap64 (wrap64 (ux * vy) - wrap64 (uy * vx))
  let valid : Bool := if cross ≥ 0 then false else valid0
  { lower_left := ⟨llx, lly⟩, upper_right := ⟨urx, ury⟩, valid := valid }

/-! ## Coverage test -/

/-- Source `sample_test`: the three edge functions of the triangle shifted so
that the sample is the origin, all in 32-bit `int` arithmetic. -/
def sample_test (triangle : Triangle) (sample : Sample) : Bool :=
  let v0_x := wrap32 (triangle.v0.x - sample.x)
  let v0_y := wrap32 (triangle.v0.y - sample.y)
  let v1_x := wrap32 (triangle.v1.x - sample.x)
  let v1_y := wrap32 (triangle.v1.y - sample.y)
  let v2_x := wrap32 (triangle.v2.x - sample.x)
  let v2_y := wrap32 (triangle.v2.y - sample.y)
  let dist0 := wrap32 (wrap32 (v0_x * v1_y) - wrap32 (v1_x * v0_y))
  let dist1 := wrap32 (wrap32 (v1_x * v2_y) - wrap32 (v2_x * v1_y))
  let dist2 := wrap32 (wrap32 (v2_x * v0_y) - wrap32 (v0_x * v2_y))
  let b0 : Bool := decide (dist0 ≤ 0)
  let b1 : Bool := decide (dist1 < 0)
  let b2 : Bool := decide (dist2 ≤ 0)
  b0 && b1 && b2

/-! ## Jitter -/

/-- Source `hash_40to8`: XOR fold of five bytes to one, masked with
`0x00ff >> shift`; the result is the value stored to `val[0]`. -/
def hash_40to8 (arr40 : Fin 5 → Nat) (shift : Int) : Nat :=
  let mask : Nat := (0x00ff >>> shift.toNat) % 65536
  let arr32_0 := (arr40 0 ^^^ arr40 1) % 256
  let arr32_1 := (arr40 1 ^^^ arr40 2) % 256
  let arr32_2 := (arr40 2 ^^^ arr40 3) % 256
  let arr32_3 := (arr40 3 ^^^ arr40 4) % 256
  let arr16_0 := (arr32_0 ^^^ arr32_2) % 256
  let arr16_1 := (arr32_1 ^^^ arr32_3) % 256
  let arr8 := (arr16_0 ^^^ arr16_1) % 256
  (arr8 &&& mask) % 65536

/-- Byte `i` of a 64-bit pattern stored in little-endian order. -/
def byteOf (key : Nat) (i : Fin 5) : Nat := (key >>> (8 * i.val)) % 256

/-- Source `jitter_sample` when each array keeps the five low bytes of its own
key: the two keys `(y << 20) | x` and `(x << 20) | y` of the coordinates shifted
right by 4, each folded by `hash_40to8`.  The source stores each 8-byte key
through a `long *` into a 5-byte array; `jitter_sample_frame` places the two
stores in memory, and they leave the bytes read here intact when `arr40_2` lies
above `arr40_1` or at least eight bytes below it (`jitter_sample_frame_eq`). -/
def jitter_sample (sample : Sample) (ss_w_lg2 : Int) : Sample :=
  let x : Int := shr sample.x 4
  let y : Int := shr sample.y 4
  let key1 : Nat := toU64 (wrap64 (y * 2 ^ 20)) ||| toU64 x
  let key2 : Nat := toU64 (wrap64 (x * 2 ^ 20)) ||| toU64 y
  let val_x := hash_40to8 (byteOf key1) ss_w_lg2
  let val_y := hash_40to8 (byteOf key2) ss_w_lg2
  { x := (val_x : Int), y := (val_y : Int) }

/-! ## Orchestrator -/

/-- One call `process_fragment(z, hit_location, subsample, f)`. -/
structure FragmentCall where
  hit_location : Sample
  subsample : Sample
  f : Fragment
  deriving DecidableEq, Repr

/-- State threaded through the loops of `rasterize_triangle`. -/
structure RasterState (ZBuff : Type) where
  hit_count : Int
  z : Option ZBuff
  calls : List FragmentCall
  tested : List Sample

/-- Body of the inner loop of `rasterize_triangle` for one `sample`. -/
def sample_body {ZBuff : Type} (pf : ZBuff → Sample → Sample → Fragment → ZBuff)
    (triangle : Triangle) (config : Config) (sample : Sample)
    (st : RasterState ZBuff) : RasterState ZBuff :=
  let jitter0 := jitter_sample sample config.ss_w_lg2
  let jitter : Sample := ⟨shl32 jitter0.x 2, shl32 jitter0.y 2⟩
  let jittered_sample : Sample :=
    ⟨wrap32 (sample.x + jitter.x), wrap32 (sample.y + jitter.y)⟩
  let hit := sample_test triangle jittered_sample
  let st1 := { st with tested := st.tested ++ [jittered_sample] }
  if hit then
    let st2 := { st1 with hit_count := wrap32 (st1.hit_count + 1) }
    match st2.z with
    | none => st2
    | some zb =>
      let hit_location : Sample :=
        ⟨shr sample.x config.r_shift.toNat, shr sample.y config.r_shift.toNat⟩
      let subsample : Sample :=
        ⟨wrap32 (Int.tdiv (wrap32 (sample.x - shl32 hit_location.x config.r_shift.toNat))
            config.ss_i),
         wrap32 (Int.tdiv (wrap32 (sample.y - shl32 hit_location.y config.r_shift.toNat))
            config.ss_i)⟩
      let f : Fragment :=
        ⟨triangle.v0.z, triangle.v0.R, triangle.v0.G, triangle.v0.B⟩
      { st2 with z := some (pf zb hit_location subsample f),
                 calls := st2.calls ++ [⟨hit_location, subsample, f⟩] }
  else st1

/-- Inner loop: `for (sample.y = ...; sample.y <= bbox.upper_right.y;
sample.y += config.ss_i)` at a fixed `sample.x`. -/
def inner_loop {ZBuff : Type} (pf : ZBuff → Sample → Sample → Fragment → ZBuff)
    (triangle : Triangle) (config : Config) (bbox : BoundingBox) (sx : Int) :
    Nat → Int → RasterState ZBuff → Option (RasterState ZBuff)
  | 0, _, _ => none
  | fuel + 1, sy, st =>
    if sy ≤ bbox.upper_right.y then
      inner_loop pf triangle config bbox sx fuel (wrap32 (sy + config.ss_i))
        (sample_body pf triangle config ⟨sx, sy⟩ st)
    else some st

/-- Outer loop: `for (sample.x = ...; sample.x <= bbox.upper_right.x;
sample.x += config.ss_i)`; each round runs the inner loop from
`bbox.lower_left.y`. -/
def outer_loop {ZBuff : Type} (pf : ZBuff → Sample → Sample → Fragment → ZBuff)
    (triangle : Triangle) (config : Config) (bbox : BoundingBox) (inner_fuel : Nat) :
    Nat → Int → RasterState ZBuff → Option (RasterState ZBuff)
  | 0, _, _ => none
  | fuel + 1, sx, st =>
    if sx ≤ bbox.upper_right.x then
      match inner_loop pf triangle config bbox sx inner_fuel bbox.lower_left.y st with
      | none => none
      | some st1 =>
        outer_loop pf triangle config bbox inner_fuel fuel (wrap32 (sx + config.ss_i)) st1
    else some st

/-- Source `rasterize_triangle`; `z = none` is the `NULL` buffer.  The returned
state holds the hit count; `fuel` bounds the rounds of each loop. -/
def rasterize_triangle {ZBuff : Type} (pf : ZBuff → Sample → Sample → Fragment → ZBuff)
    (fuel : Nat) (triangle : Triangle) (z : Option ZBuff) (screen : Screen)
    (config : Config) : Option (RasterState ZBuff) :=
  let st0 : RasterState ZBuff := { hit_count := 0, z := z, calls := [], tested := [] }
  let bbox := get_bounding_box triangle screen config
  if !bbox.valid then some st0
  else outer_loop pf triangle config bbox fuel fuel bbox.lower_left.x st0

/-! ## Quantities of the specification -/

/-- Edge function of edge 0 (`v0 -> v1`) at the sample, over the integers. -/
def dist0 (t : Triangle) (s : Sample) : Int :=
  (t.v0.x - s.x) * (t.v1.y - s.y) - (t.v1.x - s.x) * (t.v0.y - s.y)

/-- Edge function of edge 1 (`v1 -> v2`) at the sample, over the integers. -/
def dist1 (t : Triangle) (s : Sample) : Int :=
  (t.v1.x - s.x) * (t.v2.y - s.y) - (t.v2.x - s.x) * (t.v1.y - s.y)

/-- Edge function of edge 2 (`v2 -> v0`) at the sample, over the integers. -/
def dist2 (t : Triangle) (s : Sample) : Int :=
  (t.v2.x - s.x) * (t.v0.y - s.y) - (t.v0.x - s.x) * (t.v2.y - s.y)

/-- Signed area `A` of the triangle in its declared vertex order. -/
def signed_area (t : Triangle) : Int :=
  (t.v1.x - t.v0.x) * (t.v2.y - t.v0.y) - (t.v2.x - t.v0.x) * (t.v1.y - t.v0.y)

/-- No operation of `sample_test` leaves the `int` range: the six coordinate
differences, the six products and the three edge functions are representable. -/
def SampleTestNoOverflow (t : Triangle) (s : Sample) : Prop :=
  (InInt32 (t.v0.x - s.x) ∧ InInt32 (t.v0.y - s.y) ∧ InInt32 (t.v1.x - s.x) ∧
    InInt32 (t.v1.y - s.y) ∧ InInt32 (t.v2.x - s.x) ∧ InInt32 (t.v2.y - s.y)) ∧
  (InInt32 ((t.v0.x - s.x) * (t.v1.y - s.y)) ∧ InInt32 ((t.v1.x - s.x) * (t.v0.y - s.y)) ∧
    InInt32 ((t.v1.x - s.x) * (t.v2.y - s.y)) ∧ InInt32 ((t.v2.x - s.x) * (t.v1.y - s.y)) ∧
    InInt32 ((t.v2.x - s.x) * (t.v0.y - s.y)) ∧ InInt32 ((t.v0.x - s.x) * (t.v2.y - s.y))) ∧
  (InInt32 (dist0 t s) ∧ InInt32 (dist1 t s) ∧ InInt32 (dist2 t s))

instance (t : Triangle) (s : Sample) : Decidable (SampleTestNoOverflow t s) := by
  unfold SampleTestNoOverflow; infer_instance

/-- Vertex `v[i]` of the triangle. -/
def Triangle.vertex (t : Triangle) (i : Fin 3) : Vertex :=
  match i with
  | 0 => t.v0
  | 1 => t.v1
  | 2 => t.v2

/-- Edge `e` of the triangle, `v[e] -> v[(e+1) mod 3]`, runs from `p` to `q`. -/
def HasDirectedEdge (t : Triangle) (e : Fin 3) (p q : Sample) : Prop :=
  (t.vertex e).x = p.x ∧ (t.vertex e).y = p.y ∧
  (t.vertex (e + 1)).x = q.x ∧ (t.vertex (e + 1)).y = q.y

instance (t : Triangle) (e : Fin 3) (p q : Sample) : Decidable (HasDirectedEdge t e p q) := by
  unfold HasDirectedEdge; infer_instance

/-- The sample `s` lies on the closed segment from `p` to `q`: collinear with
the end points and not outside them. -/
def OnSegment (p q s : Sample) : Prop :=
  (p.x - s.x) * (q.y - s.y) - (q.x - s.x) * (p.y - s.y) = 0 ∧
  (p.x - s.x) * (q.x - s.x) + (p.y - s.y) * (q.y - s.y) ≤ 0

instance (p q s : Sample) : Decidable (OnSegment p q s) := by
  unfold OnSegment; infer_instance

/-- The sample `s` lies on the segment from `p` to `q`, strictly between the
end points. -/
def StrictlyBetween (p q s : Sample) : Prop :=
  (p.x - s.x) * (q.y - s.y) - (q.x - s.x) * (p.y - s.y) = 0 ∧
  (p.x - s.x) * (q.x - s.x) + (p.y - s.y) * (q.y - s.y) < 0

instance (p q s : Sample) : Decidable (StrictlyBetween p q s) := by
  unfold StrictlyBetween; infer_instance

/-- The four coordinate differences of the backface cull are representable as
`int`. -/
def CullNoOverflow (t : Triangle) : Prop :=
  InInt32 (t.v1.x - t.v0.x) ∧ InInt32 (t.v1.y - t.v0.y) ∧
  InInt32 (t.v2.x - t.v0.x) ∧ InInt32 (t.v2.y - t.v0.y)

instance (t : Triangle) : Decidable (CullNoOverflow t) := by
  unfold CullNoOverflow; infer_instance

/-- The triangle with reversed winding, `(v2, v1, v0)`. -/
def Triangle.reverse (t : Triangle) : Triangle := ⟨t.v2, t.v1, t.v0⟩

/-- Number of rounds of a loop `for (c = lo; c <= hi; c += d)` with `d >= 1`
over the integers. -/
def steps (lo hi d : Int) : Nat := if lo ≤ hi then ((hi - lo) / d).toNat + 1 else 0

/-- The values `lo, lo + d, ..., lo + (k-1)*d` taken by a loop counter. -/
def grid (lo d : Int) (k : Nat) : List Int := (List.range k).map (fun (j : Nat) => lo + (j : Int) * d)

/-- The samples of the box in the order of the two loops: `x` outer, `y` inner. -/
def box_samples (bbox : BoundingBox) (d : Int) : List Sample :=
  (grid bbox.lower_left.x d (steps bbox.lower_left.x bbox.upper_right.x d)).flatMap
    (fun sx => (grid bbox.lower_left.y d (steps bbox.lower_left.y bbox.upper_right.y d)).map
      (fun sy => (⟨sx, sy⟩ : Sample)))

/-- The loop body run over a list of samples, in order. -/
def run_samples {ZBuff : Type} (pf : ZBuff → Sample → Sample → Fragment → ZBuff)
    (triangle : Triangle) (config : Config) (l : List Sample)
    (st : RasterState ZBuff) : RasterState ZBuff :=
  l.foldl (fun st s => sample_body pf triangle config s st) st

/-- The jittered position the claim names for a sample:
`sample + 4 * jitter_sample(sample, ss_w_lg2)` on each axis, over the integers. -/
def jittered (config : Config) (s : Sample) : Sample :=
  ⟨s.x + 4 * (jitter_sample s config.ss_w_lg2).x, s.y + 4 * (jitter_sample s config.ss_w_lg2).y⟩

/-- The jittered position computed by the loop body, in `int` arithmetic. -/
def jittered_int (config : Config) (s : Sample) : Sample :=
  ⟨wrap32 (s.x + shl32 (jitter_sample s config.ss_w_lg2).x 2),
   wrap32 (s.y + shl32 (jitter_sample s config.ss_w_lg2).y 2)⟩

/-- The index pairs `(i, j)` of the claim: sample `(ll.x + i*ss_i, ll.y + j*ss_i)`
inside the box and its jittered position covered. -/
def hit_pairs (t : Triangle) (screen : Screen) (config : Config) : Set (ℕ × ℕ) :=
  {p | (get_bounding_box t screen config).lower_left.x + (p.1 : Int) * config.ss_i ≤
        (get_bounding_box t screen config).upper_right.x ∧
       (get_bounding_box t screen config).lower_left.y + (p.2 : Int) * config.ss_i ≤
        (get_bounding_box t screen config).upper_right.y ∧
       sample_test t (jittered config
        ⟨(get_bounding_box t screen config).lower_left.x + (p.1 : Int) * config.ss_i,
         (get_bounding_box t screen config).lower_left.y + (p.2 : Int) * config.ss_i⟩) = true}

/-- The call `process_fragment(z, hit_location, subsample, f)` that the loop
body of `rasterize_triangle` makes for a covered `sample`. -/
def fragment_call (triangle : Triangle) (config : Config) (sample : Sample) : FragmentCall :=
  let hit_location : Sample :=
    ⟨shr sample.x config.r_shift.toNat, shr sample.y config.r_shift.toNat⟩
  let subsample : Sample :=
    ⟨wrap32 (Int.tdiv (wrap32 (sample.x - shl32 hit_location.x config.r_shift.toNat))
        config.ss_i),
     wrap32 (Int.tdiv (wrap32 (sample.y - shl32 hit_location.y config.r_shift.toNat))
        config.ss_i)⟩
  ⟨hit_location, subsample, ⟨triangle.v0.z, triangle.v0.R, triangle.v0.G, triangle.v0.B⟩⟩

/-- The coverage decision of the loop body for a `sample`: `sample_test` at the
jittered position. -/
def is_hit (triangle : Triangle) (config : Config) (sample : Sample) : Bool :=
  sample_test triangle (jittered_int config sample)

/-- The samples `rasterize_triangle` visits: those of the box when it is valid,
none otherwise. -/
def visited_samples (t : Triangle) (screen : Screen) (config : Config) : List Sample :=
  if (get_bounding_box t screen config).valid then
    box_samples (get_bounding_box t screen config) config.ss_i
  else []

/-- Fuel that suffices for both loops of `rasterize_triangle`. -/
def enough_fuel (t : Triangle) (screen : Screen) (config : Config) : Nat :=
  Max.max
    (steps (get_bounding_box t screen config).lower_left.x
      (get_bounding_box t screen config).upper_right.x config.ss_i)
    (steps (get_bounding_box t screen config).lower_left.y
      (get_bounding_box t screen config).upper_right.y config.ss_i) + 1

/-- The six vertex coordinates of the triangle are representable as `int`. -/
def CoordsInInt32 (t : Triangle) : Prop :=
  (InInt32 t.v0.x ∧ InInt32 t.v1.x ∧ InInt32 t.v2.x) ∧
  (InInt32 t.v0.y ∧ InInt32 t.v1.y ∧ InInt32 t.v2.y)

instance (t : Triangle) : Decidable (CoordsInInt32 t) := by
  unfold CoordsInInt32; infer_instance

/-! ## Operations used by the other submissions -/

/-- Bitwise `&` of two `int` values: the conjunction of their 32-bit
two's-complement patterns, read back as an `int`. -/
def and32 (a b : Int) : Int := wrap32 ((toUnsigned a &&& toUnsigned b : Nat) : Int)

/-- Bitwise complement `~x` of an `int`: `-x - 1` in two's complement. -/
def not32 (x : Int) : Int := -x - 1

/-- Body of the inner loop of `rasterize_triangle` with the coverage test as a
parameter: the text of the loop body is the same in every submission modelled
here, each calls its own `sample_test`. -/
def sample_body_of {ZBuff : Type} (test : Triangle → Sample → Bool)
    (pf : ZBuff → Sample → Sample → Fragment → ZBuff)
    (triangle : Triangle) (config : Config) (sample : Sample)
    (st : RasterState ZBuff) : RasterState ZBuff :=
  let jitter0 := jitter_sample sample config.ss_w_lg2
  let jitter : Sample := ⟨shl32 jitter0.x 2, shl32 jitter0.y 2⟩
  let jittered_sample : Sample :=
    ⟨wrap32 (sample.x + jitter.x), wrap32 (sample.y + jitter.y)⟩
  let hit := test triangle jittered_sample
  let st1 := { st with tested := st.tested ++ [jittered_sample] }
  if hit then
    let st2 := { st1 with hit_count := wrap32 (st1.hit_count + 1) }
    match st2.z with
    | none => st2
    | some zb =>
      let hit_location : Sample :=
        ⟨shr sample.x config.r_shift.toNat, shr sample.y config.r_shift.toNat⟩
      let subsample : Sample :=
        ⟨wrap32 (Int.tdiv (wrap32 (sample.x - shl32 hit_location.x config.r_shift.toNat))
            config.ss_i),
         wrap32 (Int.tdiv (wrap32 (sample.y - shl32 hit_location.y config.r_shift.toNat))
            config.ss_i)⟩
      let f : Fragment :=
        ⟨triangle.v0.z, triangle.v0.R, triangle.v0.G, triangle.v0.B⟩
      { st2 with z := some (pf zb hit_location subsample f),
                 calls := st2.calls ++ [⟨hit_location, subsample, f⟩] }
  else st1

/-- Inner loop over `sample.y` with the coverage test as a parameter. -/
def inner_loop_of {ZBuff : Type} (test : Triangle → Sample → Bool)
    (pf : ZBuff → Sample → Sample → Fragment → ZBuff)
    (triangle : Triangle) (config : Config) (bbox : BoundingBox) (sx : Int) :
    Nat → Int → RasterState ZBuff → Option (RasterState ZBuff)
  | 0, _, _ => none
  | fuel + 1, sy, st =>
    if sy ≤ bbox.upper_right.y then
      inner_loop_of test pf triangle config bbox sx fuel (wrap32 (sy + config.ss_i))
        (sample_body_of test pf triangle config ⟨sx, sy⟩ st)
    else some st

/-- Outer loop over `sample.x` with the coverage test as a parameter. -/
def outer_loop_of {ZBuff : Type} (test : Triangle → Sample → Bool)
    (pf : ZBuff → Sample → Sample → Fragment → ZBuff)
    (triangle : Triangle) (config : Config) (bbox : BoundingBox) (inner_fuel : Nat) :
    Nat → Int → RasterState ZBuff → Option (RasterState ZBuff)
  | 0, _, _ => none
  | fuel + 1, sx, st =>
    if sx ≤ bbox.upper_right.x then
      match inner_loop_of test pf triangle config bbox sx inner_fuel bbox.lower_left.y st with
      | none => none
      | some st1 =>
        outer_loop_of test pf triangle config bbox inner_fuel fuel
          (wrap32 (sx + config.ss_i)) st1
    else some st

/-! ## submission_217004269 (`gold/rasterizer.c`) -/

namespace S217004269

/-- Source `min`: `a < b ? a : b`. -/
def min (a b : Int) : Int := if a < b then a else b

/-- Source `max`: `a > b ? a : b`. -/
def max (a b : Int) : Int := if a > b then a else b

/-- Source `floor_ss`: `val & (-1 << (r_shift - ss_w_lg2))`. -/
def floor_ss (val r_shift ss_w_lg2 : Int) : Int :=
  and32 val (shl32 (-1) (r_shift - ss_w_lg2).toNat)

/-- Source `get_bounding_box`: extent, rounded down, clipped; the flag is the
corner check alone, there is no backface cull. -/
def get_bounding_box (triangle : Triangle) (screen : Screen) (config : Config) :
    BoundingBox :=
  let ll_x0 := floor_ss (min triangle.v0.x (min triangle.v1.x triangle.v2.x))
    config.r_shift config.ss_w_lg2
  let ur_x0 := floor_ss (max triangle.v0.x (max triangle.v1.x triangle.v2.x))
    config.r_shift config.ss_w_lg2
  let ll_y0 := floor_ss (min triangle.v0.y (min triangle.v1.y triangle.v2.y))
    config.r_shift config.ss_w_lg2
  let ur_y0 := floor_ss (max triangle.v0.y (max triangle.v1.y triangle.v2.y))
    config.r_shift config.ss_w_lg2
  -- clip to screen
  let ur_x := if ur_x0 > screen.width then screen.width else ur_x0
  let ur_y := if ur_y0 > screen.height then screen.height else ur_y0
  let ll_x := if ll_x0 < 0 then 0 else ll_x0
  let ll_y := if ll_y0 < 0 then 0 else ll_y0
  { lower_left := ⟨ll_x, ll_y⟩, upper_right := ⟨ur_x, ur_y⟩,
    valid := decide (ur_x ≥ ll_x) && decide (ur_y ≥ ll_y) }

/-- Source `sample_test`: the three edge functions in `int` arithmetic, each
compared with `0.0` (the conversion of an `int` to `double` is exact). -/
def sample_test (triangle : Triangle) (sample : Sample) : Bool :=
  let v0_x := wrap32 (triangle.v0.x - sample.x)
  let v0_y := wrap32 (triangle.v0.y - sample.y)
  let v1_x := wrap32 (triangle.v1.x - sample.x)
  let v1_y := wrap32 (triangle.v1.y - sample.y)
  let v2_x := wrap32 (triangle.v2.x - sample.x)
  let v2_y := wrap32 (triangle.v2.y - sample.y)
  let dist0 := wrap32 (wrap32 (v0_x * v1_y) - wrap32 (v1_x * v0_y))
  let dist1 := wrap32 (wrap32 (v1_x * v2_y) - wrap32 (v2_x * v1_y))
  let dist2 := wrap32 (wrap32 (v2_x * v0_y) - wrap32 (v0_x * v2_y))
  decide (dist0 ≤ 0) && decide (dist1 < 0) && decide (dist2 ≤ 0)

/-- Source `rasterize_triangle`: the two loops over the box, entered whatever
`bbox.valid` is.  The value of `abort_tri`, computed for every sample, is never
used and has no effect. -/
def rasterize_triangle {ZBuff : Type} (pf : ZBuff → Sample → Sample → Fragment → ZBuff)
    (fuel : Nat) (triangle : Triangle) (z : Option ZBuff) (screen : Screen)
    (config : Config) : Option (RasterState ZBuff) :=
  let st0 : RasterState ZBuff := { hit_count := 0, z := z, calls := [], tested := [] }
  let bbox := get_bounding_box triangle screen config
  outer_loop_of sample_test pf triangle config bbox fuel fuel bbox.lower_left.x st0

end S217004269

/-! ## submission_217703526 (`gold/rasterizer.c`) -/

namespace S217703526

/-- Source `floor_ss`: `bit_mask = ~((1 << (r_shift - ss_w_lg2)) - 1)`, then
`val & bit_mask`. -/
def floor_ss (val r_shift ss_w_lg2 : Int) : Int :=
  let bit_mask := not32 (wrap32 (shl32 1 (r_shift - ss_w_lg2).toNat - 1))
  and32 val bit_mask

end S217703526

/-- The number of samples the claim gives for a box:
`(floor((ur.x - ll.x)/d) + 1) * (floor((ur.y - ll.y)/d) + 1)`. -/
def loop_bound (bbox : BoundingBox) (d : Int) : Int :=
  ((bbox.upper_right.x - bbox.lower_left.x) / d + 1) *
    ((bbox.upper_right.y - bbox.lower_left.y) / d + 1)

/-- The same number with each factor clamped at zero. -/
def clamped_loop_bound (bbox : BoundingBox) (d : Int) : Int :=
  Max.max 0 ((bbox.upper_right.x - bbox.lower_left.x) / d + 1) *
    Max.max 0 ((bbox.upper_right.y - bbox.lower_left.y) / d + 1)

/-! ## submission_217160821 (`gold/rasterizer.c`) -/

namespace S217160821

/-- Source `floor_ss`: `disBetween2Subsample = (1 << r_shift) >> ss_w_lg2`,
`delta = val % disBetween2Subsample` with the truncating remainder of C, and
the result `val - delta`. -/
def floor_ss (val r_shift ss_w_lg2 : Int) : Int :=
  let disBetween2Subsample := shr (shl32 1 r_shift.toNat) ss_w_lg2.toNat
  let delta := Int.tmod val disBetween2Subsample
  wrap32 (val - delta)

/-- Source `sample_test`: the edge function of each edge in turn, with an
early `return false` on `edgeTest > 0`, `>= 0`, `> 0`. -/
def sample_test (triangle : Triangle) (sample : Sample) : Bool :=
  let x := sample.x
  let y := sample.y
  -- edge v0 -> v1
  let edgeTest0 := wrap32 (wrap32 (wrap32 (triangle.v0.x - x) * wrap32 (triangle.v1.y - y)) -
    wrap32 (wrap32 (triangle.v1.x - x) * wrap32 (triangle.v0.y - y)))
  if edgeTest0 > 0 then false
  else
    -- edge v1 -> v2
    let edgeTest1 := wrap32 (wrap32 (wrap32 (triangle.v1.x - x) * wrap32 (triangle.v2.y - y)) -
      wrap32 (wrap32 (triangle.v2.x - x) * wrap32 (triangle.v1.y - y)))
    if edgeTest1 ≥ 0 then false
    else
      -- edge v2 -> v0
      let edgeTest2 := wrap32 (wrap32 (wrap32 (triangle.v2.x - x) * wrap32 (triangle.v0.y - y)) -
        wrap32 (wrap32 (triangle.v0.x - x) * wrap32 (triangle.v2.y - y)))
      if edgeTest2 > 0 then false
      else true

end S217160821

/-! ## submission_217052547 (`gold/rasterizer.c`) -/

namespace S217052547

/-- Source `floor_ss`: `num_ss_grid = val << ss_w_lg2`,
`num_ss_grid_f = (num_ss_grid >> r_shift) << r_shift`, and the result
`num_ss_grid_f >> ss_w_lg2`. -/
def floor_ss (val r_shift ss_w_lg2 : Int) : Int :=
  let num_ss_grid := shl32 val ss_w_lg2.toNat
  let num_ss_grid_f := shl32 (shr num_ss_grid r_shift.toNat) r_shift.toNat
  shr num_ss_grid_f ss_w_lg2.toNat

end S217052547

/-! ## submission_216981761 (`gold/rasterizer.c`) -/

namespace S216981761

/-- Source `min`: `if (a > b) return b; else return a;`. -/
def min (a b : Int) : Int := if a > b then b else a

/-- Source `max`: `if (a > b) return a; else return b;`. -/
def max (a b : Int) : Int := if a > b then a else b

/-- Source `floor_ss`: `t = val >> (r_shift-ss_w_lg2)`, then
`t << (r_shift-ss_w_lg2)`. -/
def floor_ss (val r_shift ss_w_lg2 : Int) : Int :=
  shl32 (shr val (r_shift - ss_w_lg2).toNat) (r_shift - ss_w_lg2).toNat

/-- Source `get_bounding_box`: extent, rounded down, then the four `if`
statements of the clip as written (`lower_left.x` against 0,
`upper_right.y` against 0, `lower_left.x` against the width,
`upper_right.y` against the height) and the corner check. -/
def get_bounding_box (triangle : Triangle) (screen : Screen) (config : Config) :
    BoundingBox :=
  let llx0 := min (min triangle.v0.x triangle.v1.x) triangle.v2.x
  let lly0 := min (min triangle.v0.y triangle.v1.y) triangle.v2.y
  let urx0 := max (max triangle.v0.x triangle.v1.x) triangle.v2.x
  let ury0 := max (max triangle.v0.y triangle.v1.y) triangle.v2.y
  -- round down to subsample grid
  let llx1 := floor_ss llx0 config.r_shift config.ss_w_lg2
  let lly1 := floor_ss lly0 config.r_shift config.ss_w_lg2
  let urx1 := floor_ss urx0 config.r_shift config.ss_w_lg2
  let ury1 := floor_ss ury0 config.r_shift config.ss_w_lg2
  -- clip to screen
  let llx2 := if llx1 < 0 then 0 else llx1
  let ury2 := if ury1 < 0 then 0 else ury1
  let llx3 := if llx2 > screen.width then screen.width else llx2
  let ury3 := if ury2 > screen.height then screen.height else ury2
  -- check if bbox is valid
  let valid : Bool := if llx3 ≤ urx1 ∧ lly1 ≤ ury3 then true else false
  { lower_left := ⟨llx3, lly1⟩, upper_right := ⟨urx1, ury3⟩, valid := valid }

/-- Source `sample_test`: each test compares the two products of an edge
function with each other. -/
def sample_test (triangle : Triangle) (sample : Sample) : Bool :=
  let v0_x := wrap32 (triangle.v0.x - sample.x)
  let v0_y := wrap32 (triangle.v0.y - sample.y)
  let v1_x := wrap32 (triangle.v1.x - sample.x)
  let v1_y := wrap32 (triangle.v1.y - sample.y)
  let v2_x := wrap32 (triangle.v2.x - sample.x)
  let v2_y := wrap32 (triangle.v2.y - sample.y)
  let b0 : Bool := decide (wrap32 (v0_x * v1_y) ≤ wrap32 (v1_x * v0_y))
  let b1 : Bool := decide (wrap32 (v1_x * v2_y) < wrap32 (v2_x * v1_y))
  let b2 : Bool := decide (wrap32 (v2_x * v0_y) ≤ wrap32 (v0_x * v2_y))
  b0 && b1 && b2

end S216981761

/-! ## submission_216537555 (`gold/rasterizer.c`) -/

namespace S216537555

/-- Source `min`: `a<b?a:b`. -/
def min (a b : Int) : Int := if a < b then a else b

/-- Source `max`: `a>b?a:b`. -/
def max (a b : Int) : Int := if a > b then a else b

/-- Source `floor_ss`: `(val >> (r_shift - ss_w_lg2)) << (r_shift - ss_w_lg2)`. -/
def floor_ss (val r_shift ss_w_lg2 : Int) : Int :=
  shl32 (shr val (r_shift - ss_w_lg2).toNat) (r_shift - ss_w_lg2).toNat

/-- Source `get_bounding_box`: extent, rounded down, clipped; the cull
`angle_lg = edge1.x * edge2.y - edge2.x * edge1.y` is computed in `int`, and
`valid = in_bound && !back_cull` with `back_cull = angle_lg > 0`. -/
def get_bounding_box (triangle : Triangle) (screen : Screen) (config : Config) :
    BoundingBox :=
  let ll_x0 := min triangle.v0.x (min triangle.v1.x triangle.v2.x)
  let ur_x0 := max triangle.v0.x (max triangle.v1.x triangle.v2.x)
  let ll_y0 := min triangle.v0.y (min triangle.v1.y triangle.v2.y)
  let ur_y0 := max triangle.v0.y (max triangle.v1.y triangle.v2.y)
  -- round down to subsample grid
  let ll_x1 := floor_ss ll_x0 config.r_shift config.ss_w_lg2
  let ur_x1 := floor_ss ur_x0 config.r_shift config.ss_w_lg2
  let ll_y1 := floor_ss ll_y0 config.r_shift config.ss_w_lg2
  let ur_y1 := floor_ss ur_y0 config.r_shift config.ss_w_lg2
  -- clip lower bound with 0
  let ll_x := if ll_x1 < 0 then 0 else ll_x1
  let ll_y := if ll_y1 < 0 then 0 else ll_y1
  -- clip upper bound with width and height of screen
  let ur_x := if ur_x1 > screen.width then screen.width else ur_x1
  let ur_y := if ur_y1 > screen.height then screen.height else ur_y1
  -- check if bbox is valid
  let edge1_x := wrap32 (triangle.v1.x - triangle.v0.x)
  let edge1_y := wrap32 (triangle.v1.y - triangle.v0.y)
  let edge2_x := wrap32 (triangle.v2.x - triangle.v1.x)
  let edge2_y := wrap32 (triangle.v2.y - triangle.v1.y)
  let angle_lg := wrap32 (wrap32 (edge1_x * edge2_y) - wrap32 (edge2_x * edge1_y))
  let back_cull : Bool := decide (angle_lg > 0)
  let in_bound : Bool := decide (ll_x ≤ ur_x) && decide (ll_y ≤ ur_y)
  { lower_left := ⟨ll_x, ll_y⟩, upper_right := ⟨ur_x, ur_y⟩,
    valid := in_bound && !back_cull }

/-- Source `sample_test`: the shifted vertices `v[3]`, the edge functions
`dist[3]` in `int` arithmetic, each compared with `0.0` (the conversion of an
`int` to `double` is exact). -/
def sample_test (triangle : Triangle) (sample : Sample) : Bool :=
  let v0x := wrap32 (triangle.v0.x - sample.x)
  let v0y := wrap32 (triangle.v0.y - sample.y)
  let v1x := wrap32 (triangle.v1.x - sample.x)
  let v1y := wrap32 (triangle.v1.y - sample.y)
  let v2x := wrap32 (triangle.v2.x - sample.x)
  let v2y := wrap32 (triangle.v2.y - sample.y)
  let dist_0 := wrap32 (wrap32 (v0x * v1y) - wrap32 (v1x * v0y))
  let dist_1 := wrap32 (wrap32 (v1x * v2y) - wrap32 (v2x * v1y))
  let dist_2 := wrap32 (wrap32 (v2x * v0y) - wrap32 (v0x * v2y))
  let b_0 : Bool := decide (dist_0 ≤ 0)
  let b_1 : Bool := decide (dist_1 < 0)
  let b_2 : Bool := decide (dist_2 ≤ 0)
  b_0 && b_1 && b_2

/-- Source `rasterize_triangle`: the two loops over the box, entered whatever
`bbox.valid` is. -/
def rasterize_triangle {ZBuff : Type} (pf : ZBuff → Sample → Sample → Fragment → ZBuff)
    (fuel : Nat) (triangle : Triangle) (z : Option ZBuff) (screen : Screen)
    (config : Config) : Option (RasterState ZBuff) :=
  let st0 : RasterState ZBuff := { hit_count := 0, z := z, calls := [], tested := [] }
  let bbox := get_bounding_box triangle screen config
  outer_loop_of sample_test pf triangle config bbox fuel fuel bbox.lower_left.x st0

/-- No operation of the cull of this submission leaves the `int` range: the
four differences, the two products and their difference. -/
def CullNoOverflow (t : Triangle) : Prop :=
  (InInt32 (t.v1.x - t.v0.x) ∧ InInt32 (t.v1.y - t.v0.y) ∧
    InInt32 (t.v2.x - t.v1.x) ∧ InInt32 (t.v2.y - t.v1.y)) ∧
  (InInt32 ((t.v1.x - t.v0.x) * (t.v2.y - t.v1.y)) ∧
    InInt32 ((t.v2.x - t.v1.x) * (t.v1.y - t.v0.y))) ∧
  InInt32 ((t.v1.x - t.v0.x) * (t.v2.y - t.v1.y) - (t.v2.x - t.v1.x) * (t.v1.y - t.v0.y))

instance (t : Triangle) : Decidable (CullNoOverflow t) := by
  unfold CullNoOverflow; infer_instance

end S216537555

/-! ## submission_217019684 (`assignment3/gold/rasterizer.c`) -/

namespace S217019684

/-- Source `floor_ss`: `floored_val = (val >> (r_shift-ss_w_lg2))`, then
`floored_val << (r_shift-ss_w_lg2)`. -/
def floor_ss (val r_shift ss_w_lg2 : Int) : Int :=
  shl32 (shr val (r_shift - ss_w_lg2).toNat) (r_shift - ss_w_lg2).toNat

/-- Source `get_bounding_box`: extent by four `if` updates per vertex, rounded
down, the `int` comparison `back_facing_tri`, the clip, and the flag:
`valid = false` exactly when the box is a single point and the triangle is not
back-facing. -/
def get_bounding_box (triangle : Triangle) (screen : Screen) (config : Config) :
    BoundingBox :=
  -- i = 1
  let llx_a := if triangle.v1.x < triangle.v0.x then triangle.v1.x else triangle.v0.x
  let urx_a := if triangle.v1.x > triangle.v0.x then triangle.v1.x else triangle.v0.x
  let lly_a := if triangle.v1.y < triangle.v0.y then triangle.v1.y else triangle.v0.y
  let ury_a := if triangle.v1.y > triangle.v0.y then triangle.v1.y else triangle.v0.y
  -- i = 2
  let llx_b := if triangle.v2.x < llx_a then triangle.v2.x else llx_a
  let urx_b := if triangle.v2.x > urx_a then triangle.v2.x else urx_a
  let lly_b := if triangle.v2.y < lly_a then triangle.v2.y else lly_a
  let ury_b := if triangle.v2.y > ury_a then triangle.v2.y else ury_a
  -- round down to subsample grid
  let llx1 := floor_ss llx_b config.r_shift config.ss_w_lg2
  let lly1 := floor_ss lly_b config.r_shift config.ss_w_lg2
  let urx1 := floor_ss urx_b config.r_shift config.ss_w_lg2
  let ury1 := floor_ss ury_b config.r_shift config.ss_w_lg2
  let back_facing_tri : Bool :=
    decide (wrap32 (wrap32 (triangle.v1.x - triangle.v0.x) *
        wrap32 (triangle.v2.y - triangle.v1.y)) >
      wrap32 (wrap32 (triangle.v2.x - triangle.v1.x) *
        wrap32 (triangle.v1.y - triangle.v0.y)))
  -- clip to screen
  let urx := if urx1 > screen.width then screen.width else urx1
  let ury := if ury1 > screen.height then screen.height else ury1
  let llx := if llx1 < 0 then 0 else llx1
  let lly := if lly1 < 0 then 0 else lly1
  -- check if bbox is valid
  let valid : Bool :=
    if urx = llx ∧ ury = lly ∧ back_facing_tri = false then false else true
  { lower_left := ⟨llx, lly⟩, upper_right := ⟨urx, ury⟩, valid := valid }

/-- Source `sample_test`: the three edge functions in `int` arithmetic, with
the second product of each written as `v0_y*v1_x`, `v1_y*v2_x`, `v2_y*v0_x`. -/
def sample_test (triangle : Triangle) (sample : Sample) : Bool :=
  let v0_x := wrap32 (triangle.v0.x - sample.x)
  let v1_x := wrap32 (triangle.v1.x - sample.x)
  let v2_x := wrap32 (triangle.v2.x - sample.x)
  let v0_y := wrap32 (triangle.v0.y - sample.y)
  let v1_y := wrap32 (triangle.v1.y - sample.y)
  let v2_y := wrap32 (triangle.v2.y - sample.y)
  let dist0 := wrap32 (wrap32 (v0_x * v1_y) - wrap32 (v0_y * v1_x))
  let dist1 := wrap32 (wrap32 (v1_x * v2_y) - wrap32 (v1_y * v2_x))
  let dist2 := wrap32 (wrap32 (v2_x * v0_y) - wrap32 (v2_y * v0_x))
  let b0 : Bool := if dist0 ≤ 0 then true else false
  let b1 : Bool := if dist1 < 0 then true else false
  let b2 : Bool := if dist2 ≤ 0 then true else false
  b0 && b1 && b2

/-- Source `rasterize_triangle`: the two loops over the box, entered whatever
`bbox.valid` is. -/
def rasterize_triangle {ZBuff : Type} (pf : ZBuff → Sample → Sample → Fragment → ZBuff)
    (fuel : Nat) (triangle : Triangle) (z : Option ZBuff) (screen : Screen)
    (config : Config) : Option (RasterState ZBuff) :=
  let st0 : RasterState ZBuff := { hit_count := 0, z := z, calls := [], tested := [] }
  let bbox := get_bounding_box triangle screen config
  outer_loop_of sample_test pf triangle config bbox fuel fuel bbox.lower_left.x st0

end S217019684

/-! ## Intermediate values of `sample_test` and of the cull -/

/-- The values held by the locals `dist0`, `dist1`, `dist2` of `sample_test`,
in 32-bit `int` arithmetic. -/
def sample_test_dists (triangle : Triangle) (sample : Sample) : Int × Int × Int :=
  let v0_x := wrap32 (triangle.v0.x - sample.x)
  let v0_y := wrap32 (triangle.v0.y - sample.y)
  let v1_x := wrap32 (triangle.v1.x - sample.x)
  let v1_y := wrap32 (triangle.v1.y - sample.y)
  let v2_x := wrap32 (triangle.v2.x - sample.x)
  let v2_y := wrap32 (triangle.v2.y - sample.y)
  let dist0 := wrap32 (wrap32 (v0_x * v1_y) - wrap32 (v1_x * v0_y))
  let dist1 := wrap32 (wrap32 (v1_x * v2_y) - wrap32 (v2_x * v1_y))
  let dist2 := wrap32 (wrap32 (v2_x * v0_y) - wrap32 (v0_x * v2_y))
  (dist0, dist1, dist2)

/-- The value held by the local `cross` of `get_bounding_box`: the cross
product of the two `int` edge vectors from `v[0]`, in 64-bit arithmetic. -/
def cull_cross (triangle : Triangle) : Int :=
  let ux := wrap32 (triangle.v1.x - triangle.v0.x)
  let uy := wrap32 (triangle.v1.y - triangle.v0.y)
  let vx := wrap32 (triangle.v2.x - triangle.v0.x)
  let vy := wrap32 (triangle.v2.y - triangle.v0.y)
  wrap64 (wrap64 (ux * vy) - wrap64 (uy * vx))

/-- The sample placed on a vertex. -/
def Vertex.toSample (v : Vertex) : Sample := ⟨v.x, v.y⟩

/-- The triangle with its vertex list rotated by one place, `(v1, v2, v0)`:
same winding, another first vertex. -/
def Triangle.rotate (t : Triangle) : Triangle := ⟨t.v1, t.v2, t.v0⟩

/-- The bit positions `0..3`, `12..15` and `24..30` of a sample coordinate. -/
def unused_jitter_bit (i : Nat) : Prop := i < 4 ∨ (12 ≤ i ∧ i < 16) ∨ (24 ≤ i ∧ i < 31)

instance (i : Nat) : Decidable (unused_jitter_bit i) := by
  unfold unused_jitter_bit; infer_instance

/-- Strict lexicographic order on samples, `x` first: the order in which the two
loops of `rasterize_triangle` (`x` outer, `y` inner) reach them. -/
def sample_lt (a b : Sample) : Prop := a.x < b.x ∨ (a.x = b.x ∧ a.y < b.y)

instance (a b : Sample) : Decidable (sample_lt a b) := by
  unfold sample_lt; infer_instance

/-! ## The stores of `jitter_sample` in memory -/

/-- The store `*(long *)addr = v` of a 64-bit value in little-endian order into
a byte-addressed memory: the eight bytes at `addr .. addr + 7` are overwritten. -/
def store_long (mem : Nat → Nat) (addr : Nat) (v : Nat) : Nat → Nat :=
  fun a => if addr ≤ a ∧ a < addr + 8 then (v >>> (8 * (a - addr))) % 256 else mem a

/-- Source `jitter_sample` with its two stores placed in memory.  `arr40_1` and
`arr40_2` are the five-byte arrays at the addresses `addr1` and `addr2` of a
frame with initial bytes `mem`.  Each store `*arr40_k_ptr = key` writes eight
bytes, three of them past the end of its array; `hash_40to8` then reads the
five bytes of each array.  The other locals are taken to lie outside the bytes
written. -/
def jitter_sample_frame (addr1 addr2 : Nat) (mem : Nat → Nat) (sample : Sample)
    (ss_w_lg2 : Int) : Sample :=
  let x : Int := shr sample.x 4
  let y : Int := shr sample.y 4
  let mem1 := store_long mem addr1 (toU64 (wrap64 (y * 2 ^ 20)) ||| toU64 x)
  let mem2 := store_long mem1 addr2 (toU64 (wrap64 (x * 2 ^ 20)) ||| toU64 y)
  let val_x := hash_40to8 (fun i => mem2 (addr1 + i.val)) ss_w_lg2
  let val_y := hash_40to8 (fun i => mem2 (addr2 + i.val)) ss_w_lg2
  { x := (val_x : Int), y := (val_y : Int) }

/-! ## Machine-integer lemmas -/

theorem wrap32_eq_self {x : Int} (h : InInt32 x) : wrap32 x = x := by
  unfold InInt32 at h
  unfold wrap32
  omega

theorem wrap32_inInt32 (x : Int) : InInt32 (wrap32 x) := by
  unfold InInt32 wrap32
  omega

theorem wrap64_eq_self {x : Int} (h : -2 ^ 63 ≤ x ∧ x < 2 ^ 63) : wrap64 x = x := by
  unfold wrap64
  omega

/-! ## Coverage test: the edge functions -/

/-- Without overflow `sample_test` is the conjunction of the three sign tests
on the integer edge functions. -/
theorem sample_test_eq_of_noOverflow (t : Triangle) (s : Sample)
    (h : SampleTestNoOverflow t s) :
    sample_test t s =
      (decide (dist0 t s ≤ 0) && decide (dist1 t s < 0) && decide (dist2 t s ≤ 0)) := by
  obtain ⟨⟨a0, a1, a2, a3, a4, a5⟩, ⟨p0, p1, p2, p3, p4, p5⟩, d0, d1, d2⟩ := h
  unfold dist0 at d0
  unfold dist1 at d1
  unfold dist2 at d2
  simp only [sample_test, dist0, dist1, dist2, wrap32_eq_self a0, wrap32_eq_self a1,
    wrap32_eq_self a2, wrap32_eq_self a3, wrap32_eq_self a4, wrap32_eq_self a5,
    wrap32_eq_self p0, wrap32_eq_self p1, wrap32_eq_self p2, wrap32_eq_self p3,
    wrap32_eq_self p4, wrap32_eq_self p5, wrap32_eq_self d0, wrap32_eq_self d1,
    wrap32_eq_self d2]

/-- The three edge functions sum to the signed area, whatever the sample. -/
theorem dist_sum_eq_signed_area (t : Triangle) (s : Sample) :
    dist0 t s + dist1 t s + dist2 t s = signed_area t := by
  unfold dist0 dist1 dist2 signed_area
  ring

/-- C1: without overflow, `sample_test` is true exactly when `dist0 <= 0`,
`dist1 < 0` and `dist2 <= 0`: edges 0 and 2 include the edge line, edge 1
excludes it. -/
theorem sample_test_iff (t : Triangle) (s : Sample) (h : SampleTestNoOverflow t s) :
    sample_test t s = true ↔ dist0 t s ≤ 0 ∧ dist1 t s < 0 ∧ dist2 t s ≤ 0 := by
  rw [sample_test_eq_of_noOverflow t s h]
  simp [and_assoc]

/-- Witness of C1 at the triangle `(0,0), (0,4), (4,0)` and the sample `(1,1)`. -/
theorem sample_test_iff_witness :
    SampleTestNoOverflow ⟨⟨0, 0, 0, 0, 0, 0⟩, ⟨0, 4, 0, 0, 0, 0⟩, ⟨4, 0, 0, 0, 0, 0⟩⟩ ⟨1, 1⟩ ∧
    (sample_test ⟨⟨0, 0, 0, 0, 0, 0⟩, ⟨0, 4, 0, 0, 0, 0⟩, ⟨4, 0, 0, 0, 0, 0⟩⟩ ⟨1, 1⟩ = true ↔
      dist0 ⟨⟨0, 0, 0, 0, 0, 0⟩, ⟨0, 4, 0, 0, 0, 0⟩, ⟨4, 0, 0, 0, 0, 0⟩⟩ ⟨1, 1⟩ ≤ 0 ∧
      dist1 ⟨⟨0, 0, 0, 0, 0, 0⟩, ⟨0, 4, 0, 0, 0, 0⟩, ⟨4, 0, 0, 0, 0, 0⟩⟩ ⟨1, 1⟩ < 0 ∧
      dist2 ⟨⟨0, 0, 0, 0, 0, 0⟩, ⟨0, 4, 0, 0, 0, 0⟩, ⟨4, 0, 0, 0, 0, 0⟩⟩ ⟨1, 1⟩ ≤ 0) :=
  ⟨by decide, sample_test_iff _ _ (by decide)⟩

/-- C3: without overflow, `sample_test` rejects every sample of a back-facing
or degenerate triangle (signed area `A >= 0`); a covered sample forces `A < 0`,
the sign `get_bounding_box` keeps. -/
theorem sample_test_false_of_area_nonneg (t : Triangle) (s : Sample)
    (h : SampleTestNoOverflow t s) (hA : 0 ≤ signed_area t) :
    sample_test t s = false := by
  rw [sample_test_eq_of_noOverflow t s h]
  have hsum := dist_sum_eq_signed_area t s
  by_contra hne
  simp only [Bool.not_eq_false, Bool.and_eq_true, decide_eq_true_eq] at hne
  omega

/-- Witness of C3 at the back-facing triangle `(0,0), (4,0), (0,4)` and the
sample `(1,1)`. -/
theorem sample_test_false_of_area_nonneg_witness :
    SampleTestNoOverflow ⟨⟨0, 0, 0, 0, 0, 0⟩, ⟨4, 0, 0, 0, 0, 0⟩, ⟨0, 4, 0, 0, 0, 0⟩⟩ ⟨1, 1⟩ ∧
    0 ≤ signed_area ⟨⟨0, 0, 0, 0, 0, 0⟩, ⟨4, 0, 0, 0, 0, 0⟩, ⟨0, 4, 0, 0, 0, 0⟩⟩ ∧
    sample_test ⟨⟨0, 0, 0, 0, 0, 0⟩, ⟨4, 0, 0, 0, 0, 0⟩, ⟨0, 4, 0, 0, 0, 0⟩⟩ ⟨1, 1⟩ = false :=
  ⟨by decide, by decide, sample_test_false_of_area_nonneg _ _ (by decide) (by decide)⟩

/-! ## Edge partition -/

/-- Two vectors `P`, `Q` that point in opposite directions split the plane: if
the three cross products `P x Q = 0`, `Q x R`, `R x P` sum to a negative number
then `Q x R` and `R x P` are both negative. -/
theorem cross_neg_of_antiparallel (px py qx qy rx ry : Int)
    (hc : px * qy - qx * py = 0) (hd : px * qx + py * qy < 0)
    (hA : (px * qy - qx * py) + (qx * ry - rx * qy) + (rx * py - px * ry) < 0) :
    qx * ry - rx * qy < 0 ∧ rx * py - px * ry < 0 := by
  have hq : 0 < qx * qx + qy * qy := by
    rcases lt_trichotomy qx 0 with h | h | h
    · nlinarith [mul_pos_of_neg_of_neg h h, mul_self_nonneg qy]
    · rcases lt_trichotomy qy 0 with h2 | h2 | h2
      · nlinarith [mul_pos_of_neg_of_neg h2 h2, mul_self_nonneg qx]
      · subst h; subst h2; simp at hd
      · nlinarith [mul_pos h2 h2, mul_self_nonneg qx]
    · nlinarith [mul_pos h h, mul_self_nonneg qy]
  have key : (rx * py - px * ry) * (qx * qx + qy * qy) =
      (-(px * qx + py * qy)) * (qx * ry - rx * qy) := by
    linear_combination (-(rx * qx + ry * qy)) * hc
  have hn : 0 < -(px * qx + py * qy) := by omega
  have ha : qx * ry - rx * qy < 0 := by
    by_contra hge
    have h1 : 0 ≤ (-(px * qx + py * qy)) * (qx * ry - rx * qy) :=
      mul_nonneg hn.le (by omega)
    rw [← key] at h1
    have h2 : 0 ≤ rx * py - px * ry := by
      by_contra hlt
      have := mul_neg_of_neg_of_pos (not_le.mp hlt) hq
      omega
    omega
  refine ⟨ha, ?_⟩
  by_contra hge
  have h1 : (-(px * qx + py * qy)) * (qx * ry - rx * qy) < 0 :=
    mul_neg_of_pos_of_neg hn ha
  rw [← key] at h1
  have h2 : 0 ≤ (rx * py - px * ry) * (qx * qx + qy * qy) :=
    mul_nonneg (by omega) hq.le
  omega

/-- On a front-facing triangle, a sample strictly inside edge `e` is covered
exactly when `e` is edge 0 or edge 2. -/
theorem sample_test_on_edge (t : Triangle) (e : Fin 3) (p q s : Sample)
    (hov : SampleTestNoOverflow t s) (hA : signed_area t < 0)
    (he : HasDirectedEdge t e p q) (hs : StrictlyBetween p q s) :
    sample_test t s = decide (e ≠ 1) := by
  rw [sample_test_eq_of_noOverflow t s hov]
  have hsum := dist_sum_eq_signed_area t s
  obtain ⟨hc, hd⟩ := hs
  obtain ⟨e1, e2, e3, e4⟩ := he
  unfold dist0 dist1 dist2 at *
  fin_cases e
  · have e1' : t.v0.x = p.x := e1
    have e2' : t.v0.y = p.y := e2
    have e3' : t.v1.x = q.x := e3
    have e4' : t.v1.y = q.y := e4
    rw [← e1', ← e2', ← e3', ← e4'] at hc hd
    have h := cross_neg_of_antiparallel (t.v0.x - s.x) (t.v0.y - s.y) (t.v1.x - s.x)
      (t.v1.y - s.y) (t.v2.x - s.x) (t.v2.y - s.y) hc hd (by omega)
    have h0 : (t.v0.x - s.x) * (t.v1.y - s.y) - (t.v1.x - s.x) * (t.v0.y - s.y) ≤ 0 := by
      omega
    simp only [h0, h.1, h.2.le, decide_True, Bool.and_self]
    rfl
  · have e1' : t.v1.x = p.x := e1
    have e2' : t.v1.y = p.y := e2
    have e3' : t.v2.x = q.x := e3
    have e4' : t.v2.y = q.y := e4
    rw [← e1', ← e2', ← e3', ← e4'] at hc
    have h1 : ¬ (t.v1.x - s.x) * (t.v2.y - s.y) - (t.v2.x - s.x) * (t.v1.y - s.y) < 0 := by
      omega
    simp only [h1, decide_False, Bool.and_false, Bool.false_and]
    rfl
  · have e1' : t.v2.x = p.x := e1
    have e2' : t.v2.y = p.y := e2
    have e3' : t.v0.x = q.x := e3
    have e4' : t.v0.y = q.y := e4
    rw [← e1', ← e2', ← e3', ← e4'] at hc hd
    have h := cross_neg_of_antiparallel (t.v2.x - s.x) (t.v2.y - s.y) (t.v0.x - s.x)
      (t.v0.y - s.y) (t.v1.x - s.x) (t.v1.y - s.y) hc hd (by omega)
    have h2 : (t.v2.x - s.x) * (t.v0.y - s.y) - (t.v0.x - s.x) * (t.v2.y - s.y) ≤ 0 := by
      omega
    simp only [h2, h.1.le, h.2, decide_True, Bool.and_self]
    rfl

/-- Counterexample to C2 as stated: the triangles `(0,0),(0,4),(4,0)` and
`(0,4),(0,0),(-4,0)` are front-facing and share the edge `(0,0) -> (0,4)` as
edge 0 of each; the sample `(0,2)` on that edge is covered by both.  And for
`(4,0),(0,0),(0,4)` (shared edge is edge 1) next to `(0,4),(0,0),(-4,0)` the end
point `(0,0)` of the shared edge is covered by neither. -/
theorem edge_partition_counterexample :
    (sample_test ⟨⟨0, 0, 0, 0, 0, 0⟩, ⟨0, 4, 0, 0, 0, 0⟩, ⟨4, 0, 0, 0, 0, 0⟩⟩ ⟨0, 2⟩ = true ∧
     sample_test ⟨⟨0, 4, 0, 0, 0, 0⟩, ⟨0, 0, 0, 0, 0, 0⟩, ⟨-4, 0, 0, 0, 0, 0⟩⟩ ⟨0, 2⟩ = true) ∧
    (sample_test ⟨⟨4, 0, 0, 0, 0, 0⟩, ⟨0, 0, 0, 0, 0, 0⟩, ⟨0, 4, 0, 0, 0, 0⟩⟩ ⟨0, 0⟩ = false ∧
     sample_test ⟨⟨0, 4, 0, 0, 0, 0⟩, ⟨0, 0, 0, 0, 0, 0⟩, ⟨-4, 0, 0, 0, 0, 0⟩⟩ ⟨0, 0⟩ = false) ∧
    ¬ (∀ (T1 T2 : Triangle) (e1 e2 : Fin 3) (p q s : Sample),
        signed_area T1 < 0 → signed_area T2 < 0 →
        HasDirectedEdge T1 e1 p q → HasDirectedEdge T2 e2 q p → OnSegment p q s →
        SampleTestNoOverflow T1 s → SampleTestNoOverflow T2 s →
        (sample_test T1 s = true ∧ sample_test T2 s = false) ∨
        (sample_test T1 s = false ∧ sample_test T2 s = true)) := by
  refine ⟨by decide, by decide, fun h => ?_⟩
  have h1 := h ⟨⟨0, 0, 0, 0, 0, 0⟩, ⟨0, 4, 0, 0, 0, 0⟩, ⟨4, 0, 0, 0, 0, 0⟩⟩
    ⟨⟨0, 4, 0, 0, 0, 0⟩, ⟨0, 0, 0, 0, 0, 0⟩, ⟨-4, 0, 0, 0, 0, 0⟩⟩ 0 0 ⟨0, 0⟩ ⟨0, 4⟩ ⟨0, 2⟩
    (by decide) (by decide) (by decide) (by decide) (by decide) (by decide) (by decide)
  revert h1
  decide

/-- C2 (amended): for two front-facing triangles that share an edge traversed
in opposite directions and a sample strictly between the end points of that
edge (no overflow), each triangle covers the sample exactly when the shared
edge is its edge 0 or its edge 2; hence exactly one of the two covers it if and
only if the shared edge is edge 1 of exactly one of them. -/
theorem edge_partition_interior (T1 T2 : Triangle) (e1 e2 : Fin 3) (p q s : Sample)
    (hA1 : signed_area T1 < 0) (hA2 : signed_area T2 < 0)
    (h1 : HasDirectedEdge T1 e1 p q) (h2 : HasDirectedEdge T2 e2 q p)
    (hs : StrictlyBetween p q s)
    (ho1 : SampleTestNoOverflow T1 s) (ho2 : SampleTestNoOverflow T2 s) :
    sample_test T1 s = decide (e1 ≠ 1) ∧ sample_test T2 s = decide (e2 ≠ 1) ∧
    ((sample_test T1 s ≠ sample_test T2 s) ↔ ((e1 = 1 ∧ e2 ≠ 1) ∨ (e1 ≠ 1 ∧ e2 = 1))) := by
  have hs' : StrictlyBetween q p s := by
    obtain ⟨hc, hd⟩ := hs
    constructor
    · linarith
    · linarith
  have r1 := sample_test_on_edge T1 e1 p q s ho1 hA1 h1 hs
  have r2 := sample_test_on_edge T2 e2 q p s ho2 hA2 h2 hs'
  refine ⟨r1, r2, ?_⟩
  rw [r1, r2]
  by_cases c1 : e1 = 1 <;> by_cases c2 : e2 = 1 <;> simp [c1, c2]

/-- Witness of the amended C2: `(4,0),(0,0),(0,4)` has the shared edge
`(0,0) -> (0,4)` as edge 1, `(0,4),(0,0),(-4,0)` has its reverse as edge 0, and
the sample is `(0,2)`. -/
theorem edge_partition_interior_witness :
    signed_area ⟨⟨4, 0, 0, 0, 0, 0⟩, ⟨0, 0, 0, 0, 0, 0⟩, ⟨0, 4, 0, 0, 0, 0⟩⟩ < 0 ∧
    signed_area ⟨⟨0, 4, 0, 0, 0, 0⟩, ⟨0, 0, 0, 0, 0, 0⟩, ⟨-4, 0, 0, 0, 0, 0⟩⟩ < 0 ∧
    HasDirectedEdge ⟨⟨4, 0, 0, 0, 0, 0⟩, ⟨0, 0, 0, 0, 0, 0⟩, ⟨0, 4, 0, 0, 0, 0⟩⟩ 1 ⟨0, 0⟩ ⟨0, 4⟩ ∧
    HasDirectedEdge ⟨⟨0, 4, 0, 0, 0, 0⟩, ⟨0, 0, 0, 0, 0, 0⟩, ⟨-4, 0, 0, 0, 0, 0⟩⟩ 0 ⟨0, 4⟩ ⟨0, 0⟩ ∧
    StrictlyBetween ⟨0, 0⟩ ⟨0, 4⟩ ⟨0, 2⟩ ∧
    sample_test ⟨⟨4, 0, 0, 0, 0, 0⟩, ⟨0, 0, 0, 0, 0, 0⟩, ⟨0, 4, 0, 0, 0, 0⟩⟩ ⟨0, 2⟩ = false ∧
    sample_test ⟨⟨0, 4, 0, 0, 0, 0⟩, ⟨0, 0, 0, 0, 0, 0⟩, ⟨-4, 0, 0, 0, 0, 0⟩⟩ ⟨0, 2⟩ = true :=
  have h := edge_partition_interior
    ⟨⟨4, 0, 0, 0, 0, 0⟩, ⟨0, 0, 0, 0, 0, 0⟩, ⟨0, 4, 0, 0, 0, 0⟩⟩
    ⟨⟨0, 4, 0, 0, 0, 0⟩, ⟨0, 0, 0, 0, 0, 0⟩, ⟨-4, 0, 0, 0, 0, 0⟩⟩ 1 0 ⟨0, 0⟩ ⟨0, 4⟩ ⟨0, 2⟩
    (by decide) (by decide) (by decide) (by decide) (by decide) (by decide) (by decide)
  ⟨by decide, by decide, by decide, by decide, by decide, h.1.trans (by decide),
    h.2.1.trans (by decide)⟩

/-! ## Rounding to the subsample grid -/

theorem min_eq_inf (a b : Int) : min a b = Min.min a b := by
  unfold min
  rw [min_def]
  split_ifs <;> omega

theorem max_eq_sup (a b : Int) : max a b = Max.max a b := by
  unfold max
  rw [max_def]
  split_ifs <;> omega

theorem toUnsigned_eq_toNat {x : Int} (h0 : 0 ≤ x) (h1 : x < 2 ^ 32) :
    toUnsigned x = x.toNat := by
  unfold toUnsigned
  rw [Int.emod_eq_of_lt h0 h1]

/-- Rounding a representable value down to a multiple of `2^k`, `k <= 31`,
stays representable. -/
theorem inInt32_ediv_mul_pow (val : Int) (k : Nat) (hk : k ≤ 31) (hv : InInt32 val) :
    InInt32 (val / 2 ^ k * 2 ^ k) := by
  have hP : (0 : Int) < 2 ^ k := by positivity
  have hsplit : (2 : Int) ^ 31 = 2 ^ (31 - k) * 2 ^ k := by
    rw [← pow_add]
    congr 1
    omega
  obtain ⟨hlo, hhi⟩ := hv
  constructor
  · have h1 : -(2 : Int) ^ (31 - k) * 2 ^ k ≤ val := by
      rw [neg_mul, ← hsplit]
      exact hlo
    have h2 : -(2 : Int) ^ (31 - k) ≤ val / 2 ^ k := Int.le_ediv_of_mul_le hP h1
    have h3 := mul_le_mul_of_nonneg_right h2 hP.le
    rw [neg_mul, ← hsplit] at h3
    exact h3
  · exact lt_of_le_of_lt (Int.ediv_mul_le val hP.ne') hhi

/-- For a shift amount `k <= 31`, `floor_ss` multiplies the floor quotient back
without wrapping. -/
theorem floor_ss_eq_ediv_mul (val r_shift ss_w_lg2 : Int) (hv : InInt32 val)
    (h1 : ss_w_lg2 ≤ r_shift) (hk : r_shift - ss_w_lg2 ≤ 31) :
    floor_ss val r_shift ss_w_lg2 =
      val / 2 ^ (r_shift - ss_w_lg2).toNat * 2 ^ (r_shift - ss_w_lg2).toNat := by
  unfold floor_ss shl32 shr
  rw [toUnsigned_eq_toNat (by omega) (by omega)]
  exact wrap32_eq_self (inInt32_ediv_mul_pow val _ (by omega) hv)

/-- The result of `wrap32` on a multiple of `2^k` is a multiple of `2^k`. -/
theorem pow_dvd_wrap32_mul (m : Int) (k : Nat) : (2 : Int) ^ k ∣ wrap32 (m * 2 ^ k) := by
  unfold wrap32
  rcases Nat.le_total k 32 with hk | hk
  · rw [Int.emod_def]
    have h32 : (2 : Int) ^ k ∣ 2 ^ 32 := pow_dvd_pow 2 hk
    have h31 : (2 : Int) ^ k ∣ m * 2 ^ k := dvd_mul_left _ _
    have e : m * 2 ^ k + 2 ^ 31 - 2 ^ 32 * ((m * 2 ^ k + 2 ^ 31) / 2 ^ 32) - 2 ^ 31 =
        m * 2 ^ k - 2 ^ 32 * ((m * 2 ^ k + 2 ^ 31) / 2 ^ 32) := by ring
    rw [e]
    exact dvd_sub h31 (dvd_mul_of_dvd_left h32 _)
  · have hsplit : (2 : Int) ^ k = 2 ^ (k - 32) * 2 ^ 32 := by
      rw [← pow_add]
      congr 1
      omega
    have e : m * 2 ^ k + 2 ^ 31 = 2 ^ 31 + (m * 2 ^ (k - 32)) * 2 ^ 32 := by
      rw [hsplit]
      ring
    rw [e, Int.add_mul_emod_self]
    norm_num

/-- C6: for a representable `val` and `k = r_shift - ss_w_lg2` with
`ss_w_lg2 <= r_shift` and `k < 31`, `floor_ss` returns
`2^k * floor(val / 2^k)`, the floor taken in the rationals; hence
`floor_ss val <= val`, `floor_ss val mod 2^k = 0` and `val - floor_ss val < 2^k`. -/
theorem floor_ss_rounds_down (val r_shift ss_w_lg2 : Int) (hv : InInt32 val)
    (h1 : ss_w_lg2 ≤ r_shift) (hk : r_shift - ss_w_lg2 < 31) :
    floor_ss val r_shift ss_w_lg2 =
      2 ^ (r_shift - ss_w_lg2).toNat * ⌊(val : ℚ) / 2 ^ (r_shift - ss_w_lg2).toNat⌋ ∧
    floor_ss val r_shift ss_w_lg2 ≤ val ∧
    floor_ss val r_shift ss_w_lg2 % 2 ^ (r_shift - ss_w_lg2).toNat = 0 ∧
    val - floor_ss val r_shift ss_w_lg2 < 2 ^ (r_shift - ss_w_lg2).toNat := by
  have hP : (0 : Int) < 2 ^ (r_shift - ss_w_lg2).toNat := by positivity
  have hfl : ⌊(val : ℚ) / 2 ^ (r_shift - ss_w_lg2).toNat⌋ =
      val / 2 ^ (r_shift - ss_w_lg2).toNat := by
    have := Rat.floor_intCast_div_natCast val (2 ^ (r_shift - ss_w_lg2).toNat)
    push_cast at this
    exact this
  rw [floor_ss_eq_ediv_mul val r_shift ss_w_lg2 hv h1 (by omega), hfl]
  refine ⟨mul_comm _ _, Int.ediv_mul_le val hP.ne', Int.mul_emod_left _ _, ?_⟩
  have := Int.emod_lt_of_pos val hP
  have hdef := Int.emod_def val (2 ^ (r_shift - ss_w_lg2).toNat)
  rw [mul_comm] at hdef
  omega

/-- Witness of C6 at `val = -5`, `r_shift = 10`, `ss_w_lg2 = 8`: the result is
`-8`, not the `-4` of a truncating division. -/
theorem floor_ss_rounds_down_witness :
    InInt32 (-5) ∧ floor_ss (-5) 10 8 = -8 ∧
    floor_ss (-5) 10 8 = 2 ^ ((10 : Int) - 8).toNat * ⌊((-5 : Int) : ℚ) / 2 ^ ((10 : Int) - 8).toNat⌋ :=
  ⟨by decide, by decide,
    (floor_ss_rounds_down (-5) 10 8 (by decide) (by decide) (by decide)).1⟩

/-- C7: `floor_ss` is idempotent, for every `val`, `r_shift` and `ss_w_lg2`:
its result is a representable multiple of `2^shamt`, which a second
application returns unchanged. -/
theorem floor_ss_idempotent (val r_shift ss_w_lg2 : Int) :
    floor_ss (floor_ss val r_shift ss_w_lg2) r_shift ss_w_lg2 =
      floor_ss val r_shift ss_w_lg2 := by
  unfold floor_ss shl32 shr
  simp only
  have hd := pow_dvd_wrap32_mul (val / 2 ^ toUnsigned (r_shift - ss_w_lg2))
    (toUnsigned (r_shift - ss_w_lg2))
  rw [Int.ediv_mul_cancel hd]
  exact wrap32_eq_self (wrap32_inInt32 _)

/-! ## Bounding box -/

/-- The product of two `int` values fits in 64 bits with room to spare. -/
theorem mul_bounds_of_inInt32 {a b : Int} (ha : InInt32 a) (hb : InInt32 b) :
    -(2 ^ 62 - 2 ^ 31) ≤ a * b ∧ a * b ≤ 2 ^ 62 := by
  obtain ⟨ha0, ha1⟩ := ha
  obtain ⟨hb0, hb1⟩ := hb
  have h1 : 0 ≤ (a + 2 ^ 31) * (2 ^ 31 - 1 - b) := mul_nonneg (by omega) (by omega)
  have h2 : 0 ≤ (2 ^ 31 - 1 - a) * (b + 2 ^ 31) := mul_nonneg (by omega) (by omega)
  have h3 : 0 ≤ (a + 2 ^ 31) * (b + 2 ^ 31) := mul_nonneg (by omega) (by omega)
  have h4 : 0 ≤ (2 ^ 31 - 1 - a) * (2 ^ 31 - 1 - b) := mul_nonneg (by omega) (by omega)
  constructor
  · nlinarith
  · nlinarith

/-- The 64-bit cross product of `int` operands is exact. -/
theorem wrap64_cross_exact {a b c d : Int} (ha : InInt32 a) (hb : InInt32 b)
    (hc : InInt32 c) (hd : InInt32 d) :
    wrap64 (wrap64 (a * d) - wrap64 (b * c)) = a * d - b * c := by
  have h1 := mul_bounds_of_inInt32 ha hd
  have h2 := mul_bounds_of_inInt32 hb hc
  rw [@wrap64_eq_self (a * d) (by constructor <;> omega),
    @wrap64_eq_self (b * c) (by constructor <;> omega)]
  exact wrap64_eq_self (by constructor <;> omega)

/-- When the cull's differences do not overflow, the validity flag is the
conjunction of the area test and the two corner tests. -/
theorem get_bounding_box_valid_eq (t : Triangle) (screen : Screen) (config : Config)
    (h : CullNoOverflow t) :
    (get_bounding_box t screen config).valid =
      (decide (signed_area t < 0) &&
        (decide ((get_bounding_box t screen config).lower_left.x ≤
            (get_bounding_box t screen config).upper_right.x) &&
         decide ((get_bounding_box t screen config).lower_left.y ≤
            (get_bounding_box t screen config).upper_right.y))) := by
  obtain ⟨a0, a1, a2, a3⟩ := h
  have hcross : wrap64 (wrap64 ((t.v1.x - t.v0.x) * (t.v2.y - t.v0.y)) -
      wrap64 ((t.v1.y - t.v0.y) * (t.v2.x - t.v0.x))) = signed_area t := by
    rw [wrap64_cross_exact a0 a1 a2 a3]
    unfold signed_area
    ring
  simp only [get_bounding_box, wrap32_eq_self a0, wrap32_eq_self a1, wrap32_eq_self a2,
    wrap32_eq_self a3, hcross]
  by_cases hA : signed_area t < 0
  · have : ¬ signed_area t ≥ 0 := by omega
    simp [hA, this]
  · have : signed_area t ≥ 0 := by omega
    simp [hA, this]

theorem signed_area_reverse (t : Triangle) : signed_area t.reverse = -signed_area t := by
  unfold signed_area Triangle.reverse
  ring

/-- An invalid box ends `rasterize_triangle` before the loops. -/
theorem rasterize_triangle_of_invalid {ZBuff : Type}
    (pf : ZBuff → Sample → Sample → Fragment → ZBuff) (fuel : Nat) (t : Triangle)
    (z : Option ZBuff) (screen : Screen) (config : Config)
    (h : (get_bounding_box t screen config).valid = false) :
    rasterize_triangle pf fuel t z screen config =
      some { hit_count := 0, z := z, calls := [], tested := [] } := by
  unfold rasterize_triangle
  simp [h]

/-- C4 (amended): when the cull's four coordinate differences are representable
as `int`,
`get_bounding_box` sets `valid` exactly when the signed area is strictly
negative and the rounded, clipped corners are ordered on both axes; every
degenerate or back-facing triangle (`A >= 0`) is invalid. -/
theorem get_bounding_box_valid_iff (t : Triangle) (screen : Screen) (config : Config)
    (h : CullNoOverflow t) :
    ((get_bounding_box t screen config).valid = true ↔
      signed_area t < 0 ∧
      (get_bounding_box t screen config).lower_left.x ≤
        (get_bounding_box t screen config).upper_right.x ∧
      (get_bounding_box t screen config).lower_left.y ≤
        (get_bounding_box t screen config).upper_right.y) ∧
    (0 ≤ signed_area t → (get_bounding_box t screen config).valid = false) := by
  rw [get_bounding_box_valid_eq t screen config h]
  constructor
  · simp
  · intro hA
    have : ¬ signed_area t < 0 := by omega
    simp [this]

/-- Witness of C4 at the front-facing triangle `(0,0), (0,4096), (4096,0)` on
a `8192 x 8192` screen with `r_shift = 10`, `ss_w_lg2 = 0`. -/
theorem get_bounding_box_valid_iff_witness :
    CullNoOverflow ⟨⟨0, 0, 0, 0, 0, 0⟩, ⟨0, 4096, 0, 0, 0, 0⟩, ⟨4096, 0, 0, 0, 0, 0⟩⟩ ∧
    (get_bounding_box ⟨⟨0, 0, 0, 0, 0, 0⟩, ⟨0, 4096, 0, 0, 0, 0⟩, ⟨4096, 0, 0, 0, 0, 0⟩⟩
      ⟨8192, 8192⟩ ⟨10, 0, 1024⟩).valid = true ∧
    signed_area ⟨⟨0, 0, 0, 0, 0, 0⟩, ⟨0, 4096, 0, 0, 0, 0⟩, ⟨4096, 0, 0, 0, 0, 0⟩⟩ < 0 :=
  ⟨by decide, by decide,
    (((get_bounding_box_valid_iff ⟨⟨0, 0, 0, 0, 0, 0⟩, ⟨0, 4096, 0, 0, 0, 0⟩, ⟨4096, 0, 0, 0, 0, 0⟩⟩
      ⟨8192, 8192⟩ ⟨10, 0, 1024⟩ (by decide)).1).mp (by decide)).1⟩

/-- The corners of the box in terms of the lattice operations: extent, rounded
down, clipped. -/
theorem get_bounding_box_corners_eq (t : Triangle) (screen : Screen) (config : Config) :
    (get_bounding_box t screen config).lower_left.x =
      Max.max 0 (floor_ss (Min.min (Min.min t.v0.x t.v1.x) t.v2.x)
        config.r_shift config.ss_w_lg2) ∧
    (get_bounding_box t screen config).lower_left.y =
      Max.max 0 (floor_ss (Min.min (Min.min t.v0.y t.v1.y) t.v2.y)
        config.r_shift config.ss_w_lg2) ∧
    (get_bounding_box t screen config).upper_right.x =
      Min.min screen.width (floor_ss (Max.max (Max.max t.v0.x t.v1.x) t.v2.x)
        config.r_shift config.ss_w_lg2) ∧
    (get_bounding_box t screen config).upper_right.y =
      Min.min screen.height (floor_ss (Max.max (Max.max t.v0.y t.v1.y) t.v2.y)
        config.r_shift config.ss_w_lg2) := by
  simp only [get_bounding_box, min_eq_inf, max_eq_sup, and_self]

/-- C5: the corners returned by `get_bounding_box` are the extent of the three
vertices, each coordinate rounded down by `floor_ss` and then clipped:
the lower-left corner to `0` from below, the upper-right corner to the screen
size from above. -/
theorem get_bounding_box_corners (t : Triangle) (screen : Screen) (config : Config) :
    (get_bounding_box t screen config).lower_left.x =
      Max.max 0 (floor_ss (Min.min (Min.min t.v0.x t.v1.x) t.v2.x)
        config.r_shift config.ss_w_lg2) ∧
    (get_bounding_box t screen config).lower_left.y =
      Max.max 0 (floor_ss (Min.min (Min.min t.v0.y t.v1.y) t.v2.y)
        config.r_shift config.ss_w_lg2) ∧
    (get_bounding_box t screen config).upper_right.x =
      Min.min screen.width (floor_ss (Max.max (Max.max t.v0.x t.v1.x) t.v2.x)
        config.r_shift config.ss_w_lg2) ∧
    (get_bounding_box t screen config).upper_right.y =
      Min.min screen.height (floor_ss (Max.max (Max.max t.v0.y t.v1.y) t.v2.y)
        config.r_shift config.ss_w_lg2) :=
  get_bounding_box_corners_eq t screen config

/-- C8 (amended): if `get_bounding_box` accepts a triangle then it rejects the triangle
with reversed winding `(v2, v1, v0)`, and `rasterize_triangle` on the reversed
triangle returns hit count 0 without a call to `process_fragment` (the cull's
differences representable for both windings). -/
theorem backface_consistency {ZBuff : Type}
    (pf : ZBuff → Sample → Sample → Fragment → ZBuff) (fuel : Nat) (t : Triangle)
    (z : Option ZBuff) (screen : Screen) (config : Config)
    (h : CullNoOverflow t) (hr : CullNoOverflow t.reverse)
    (hv : (get_bounding_box t screen config).valid = true) :
    (get_bounding_box t.reverse screen config).valid = false ∧
    rasterize_triangle pf fuel t.reverse z screen config =
      some { hit_count := 0, z := z, calls := [], tested := [] } := by
  have hA : signed_area t < 0 := by
    rw [get_bounding_box_valid_eq t screen config h] at hv
    simp only [Bool.and_eq_true, decide_eq_true_eq] at hv
    exact hv.1
  have hinv : (get_bounding_box t.reverse screen config).valid = false := by
    rw [get_bounding_box_valid_eq t.reverse screen config hr, signed_area_reverse]
    have : ¬ -signed_area t < 0 := by omega
    simp [this]
  exact ⟨hinv, rasterize_triangle_of_invalid pf fuel t.reverse z screen config hinv⟩

/-- Witness of C8 at the triangle `(0,0), (0,4096), (4096,0)`. -/
theorem backface_consistency_witness :
    CullNoOverflow ⟨⟨0, 0, 0, 0, 0, 0⟩, ⟨0, 4096, 0, 0, 0, 0⟩, ⟨4096, 0, 0, 0, 0, 0⟩⟩ ∧
    (get_bounding_box ⟨⟨0, 0, 0, 0, 0, 0⟩, ⟨0, 4096, 0, 0, 0, 0⟩, ⟨4096, 0, 0, 0, 0, 0⟩⟩
      ⟨8192, 8192⟩ ⟨10, 0, 1024⟩).valid = true ∧
    (get_bounding_box
      (Triangle.reverse ⟨⟨0, 0, 0, 0, 0, 0⟩, ⟨0, 4096, 0, 0, 0, 0⟩, ⟨4096, 0, 0, 0, 0, 0⟩⟩)
      ⟨8192, 8192⟩ ⟨10, 0, 1024⟩).valid = false :=
  ⟨by decide, by decide,
    (backface_consistency (fun (n : Nat) _ _ _ => n + 1) 0
      ⟨⟨0, 0, 0, 0, 0, 0⟩, ⟨0, 4096, 0, 0, 0, 0⟩, ⟨4096, 0, 0, 0, 0, 0⟩⟩ (some 0)
      ⟨8192, 8192⟩ ⟨10, 0, 1024⟩ (by decide) (by decide) (by decide)).1⟩

/-- C9: when `get_bounding_box` returns `valid = false`, `rasterize_triangle`
returns hit count 0, hands no sample to `sample_test`, makes no call to
`process_fragment` and leaves the buffer as it was, whatever the corners. -/
theorem rasterize_triangle_invalid_box {ZBuff : Type}
    (pf : ZBuff → Sample → Sample → Fragment → ZBuff) (fuel : Nat) (t : Triangle)
    (z : Option ZBuff) (screen : Screen) (config : Config)
    (h : (get_bounding_box t screen config).valid = false) :
    ∃ st, rasterize_triangle pf fuel t z screen config = some st ∧
      st.hit_count = 0 ∧ st.tested = [] ∧ st.calls = [] ∧ st.z = z :=
  ⟨_, rasterize_triangle_of_invalid pf fuel t z screen config h, rfl, rfl, rfl, rfl⟩

/-- Witness of C9 at the back-facing triangle `(0,0), (4096,0), (0,4096)`,
whose invalid box still has ordered corners `(0,0)` and `(4096,4096)`. -/
theorem rasterize_triangle_invalid_box_witness :
    (get_bounding_box ⟨⟨0, 0, 0, 0, 0, 0⟩, ⟨4096, 0, 0, 0, 0, 0⟩, ⟨0, 4096, 0, 0, 0, 0⟩⟩
      ⟨8192, 8192⟩ ⟨10, 0, 1024⟩).valid = false ∧
    ∃ st, rasterize_triangle (fun (n : Nat) _ _ _ => n + 1) 0
        ⟨⟨0, 0, 0, 0, 0, 0⟩, ⟨4096, 0, 0, 0, 0, 0⟩, ⟨0, 4096, 0, 0, 0, 0⟩⟩ (some 0)
        ⟨8192, 8192⟩ ⟨10, 0, 1024⟩ = some st ∧
      st.hit_count = 0 ∧ st.tested = [] ∧ st.calls = [] ∧ st.z = some 0 :=
  ⟨by decide, rasterize_triangle_invalid_box _ 0 _ _ _ _ (by decide)⟩

/-! ## The loops of `rasterize_triangle` -/

theorem steps_spec (lo hi d : Int) (hd : 1 ≤ d) (i : Nat) :
    i < steps lo hi d ↔ lo + (i : Int) * d ≤ hi := by
  unfold steps
  split_ifs with h
  · have hq : 0 ≤ (hi - lo) / d := Int.ediv_nonneg (by omega) (by omega)
    have hlt : (i : Int) < (hi - lo) / d + 1 ↔ (i : Int) * d ≤ hi - lo := by
      rw [Int.lt_add_one_iff]
      exact Int.le_ediv_iff_mul_le (by omega)
    constructor
    · intro hi'
      have : (i : Int) < (hi - lo) / d + 1 := by omega
      have := hlt.mp this
      omega
    · intro hi'
      have : (i : Int) < (hi - lo) / d + 1 := hlt.mpr (by omega)
      omega
  · constructor
    · intro hi'
      omega
    · intro hi'
      have : 0 ≤ (i : Int) * d := mul_nonneg (by omega) (by omega)
      omega

theorem grid_succ (lo d : Int) (k : Nat) : grid lo d (k + 1) = lo :: grid (lo + d) d k := by
  unfold grid
  rw [List.range_succ_eq_map, List.map_cons, List.map_map]
  simp only [Nat.cast_zero, zero_mul, add_zero, List.cons.injEq, true_and]
  apply List.map_congr_left
  intro j _
  simp only [Function.comp_apply, Nat.succ_eq_add_one, Nat.cast_add, Nat.cast_one]
  ring

/-- The inner loop with enough fuel runs the body over one column of the grid. -/
theorem inner_loop_eq {ZBuff : Type} (pf : ZBuff → Sample → Sample → Fragment → ZBuff)
    (t : Triangle) (config : Config) (bbox : BoundingBox) (sx : Int)
    (hd : 1 ≤ config.ss_i) (hhi : bbox.upper_right.y + config.ss_i < 2 ^ 31) :
    ∀ (k : Nat) (lo : Int) (st : RasterState ZBuff) (fuel : Nat),
      -2 ^ 31 ≤ lo → steps lo bbox.upper_right.y config.ss_i = k → k < fuel →
      inner_loop pf t config bbox sx fuel lo st =
        some (run_samples pf t config
          ((grid lo config.ss_i k).map (fun sy => (⟨sx, sy⟩ : Sample))) st) := by
  intro k
  induction k with
  | zero =>
    intro lo st fuel _ hk hf
    obtain ⟨n, rfl⟩ : ∃ n, fuel = n + 1 := ⟨fuel - 1, by omega⟩
    have h0 := (steps_spec lo bbox.upper_right.y config.ss_i hd 0).not
    rw [hk] at h0
    simp only [lt_self_iff_false, not_false_eq_true, Nat.cast_zero, zero_mul, add_zero,
      true_iff] at h0
    simp [inner_loop, h0, grid, run_samples]
  | succ k ih =>
    intro lo st fuel hlo hk hf
    obtain ⟨n, rfl⟩ : ∃ n, fuel = n + 1 := ⟨fuel - 1, by omega⟩
    have h0 := steps_spec lo bbox.upper_right.y config.ss_i hd 0
    rw [hk] at h0
    simp only [Nat.zero_lt_succ, Nat.cast_zero, zero_mul, add_zero, true_iff] at h0
    have hw : wrap32 (lo + config.ss_i) = lo + config.ss_i :=
      wrap32_eq_self ⟨by omega, by omega⟩
    have hk' : steps (lo + config.ss_i) bbox.upper_right.y config.ss_i = k := by
      have h1 : ∀ i : Nat, i < steps (lo + config.ss_i) bbox.upper_right.y config.ss_i ↔
          i + 1 < k + 1 := by
        intro i
        rw [steps_spec _ _ _ hd, ← hk, steps_spec _ _ _ hd]
        push_cast
        constructor <;> intro h <;> linarith
      have h2 := h1 k
      have h3 := h1 (steps (lo + config.ss_i) bbox.upper_right.y config.ss_i)
      omega
    rw [inner_loop, if_pos h0, hw, ih (lo + config.ss_i) _ n (by omega) hk' (by omega),
      grid_succ]
    rfl

theorem run_samples_append {ZBuff : Type} (pf : ZBuff → Sample → Sample → Fragment → ZBuff)
    (t : Triangle) (config : Config) (l1 l2 : List Sample) (st : RasterState ZBuff) :
    run_samples pf t config (l1 ++ l2) st =
      run_samples pf t config l2 (run_samples pf t config l1 st) := by
  unfold run_samples
  rw [List.foldl_append]

/-- The outer loop with enough fuel runs the body over the columns in turn. -/
theorem outer_loop_eq {ZBuff : Type} (pf : ZBuff → Sample → Sample → Fragment → ZBuff)
    (t : Triangle) (config : Config) (bbox : BoundingBox) (inner_fuel : Nat)
    (hd : 1 ≤ config.ss_i) (hhx : bbox.upper_right.x + config.ss_i < 2 ^ 31)
    (hhy : bbox.upper_right.y + config.ss_i < 2 ^ 31) (hly : -2 ^ 31 ≤ bbox.lower_left.y)
    (hf : steps bbox.lower_left.y bbox.upper_right.y config.ss_i < inner_fuel) :
    ∀ (k : Nat) (lo : Int) (st : RasterState ZBuff) (fuel : Nat),
      -2 ^ 31 ≤ lo → steps lo bbox.upper_right.x config.ss_i = k → k < fuel →
      outer_loop pf t config bbox inner_fuel fuel lo st =
        some (run_samples pf t config
          ((grid lo config.ss_i k).flatMap (fun sx =>
            (grid bbox.lower_left.y config.ss_i
              (steps bbox.lower_left.y bbox.upper_right.y config.ss_i)).map
              (fun sy => (⟨sx, sy⟩ : Sample)))) st) := by
  intro k
  induction k with
  | zero =>
    intro lo st fuel _ hk hfu
    obtain ⟨n, rfl⟩ : ∃ n, fuel = n + 1 := ⟨fuel - 1, by omega⟩
    have h0 := (steps_spec lo bbox.upper_right.x config.ss_i hd 0).not
    rw [hk] at h0
    simp only [lt_self_iff_false, not_false_eq_true, Nat.cast_zero, zero_mul, add_zero,
      true_iff] at h0
    simp [outer_loop, h0, grid, run_samples]
  | succ k ih =>
    intro lo st fuel hlo hk hfu
    obtain ⟨n, rfl⟩ : ∃ n, fuel = n + 1 := ⟨fuel - 1, by omega⟩
    have h0 := steps_spec lo bbox.upper_right.x config.ss_i hd 0
    rw [hk] at h0
    simp only [Nat.zero_lt_succ, Nat.cast_zero, zero_mul, add_zero, true_iff] at h0
    have hw : wrap32 (lo + config.ss_i) = lo + config.ss_i :=
      wrap32_eq_self ⟨by omega, by omega⟩
    have hk' : steps (lo + config.ss_i) bbox.upper_right.x config.ss_i = k := by
      have h1 : ∀ i : Nat, i < steps (lo + config.ss_i) bbox.upper_right.x config.ss_i ↔
          i + 1 < k + 1 := by
        intro i
        rw [steps_spec _ _ _ hd, ← hk, steps_spec _ _ _ hd]
        push_cast
        constructor <;> intro h <;> linarith
      have h2 := h1 k
      have h3 := h1 (steps (lo + config.ss_i) bbox.upper_right.x config.ss_i)
      omega
    rw [outer_loop, if_pos h0,
      inner_loop_eq pf t config bbox lo hd hhy _ bbox.lower_left.y st inner_fuel hly rfl hf]
    simp only
    rw [hw, ih (lo + config.ss_i) _ n (by omega) hk' (by omega), grid_succ, List.flatMap_cons,
      run_samples_append]

/-- With a valid box, a step of at least 1, loop counters that stay in the
`int` range and enough fuel, `rasterize_triangle` runs the body over the
samples of the box, column by column, from the initial state. -/
theorem rasterize_triangle_eq_run {ZBuff : Type}
    (pf : ZBuff → Sample → Sample → Fragment → ZBuff) (fuel : Nat) (t : Triangle)
    (z : Option ZBuff) (screen : Screen) (config : Config)
    (hv : (get_bounding_box t screen config).valid = true) (hd : 1 ≤ config.ss_i)
    (hw : screen.width + config.ss_i < 2 ^ 31) (hh : screen.height + config.ss_i < 2 ^ 31)
    (hfx : steps (get_bounding_box t screen config).lower_left.x
      (get_bounding_box t screen config).upper_right.x config.ss_i < fuel)
    (hfy : steps (get_bounding_box t screen config).lower_left.y
      (get_bounding_box t screen config).upper_right.y config.ss_i < fuel) :
    rasterize_triangle pf fuel t z screen config =
      some (run_samples pf t config (box_samples (get_bounding_box t screen config) config.ss_i)
        { hit_count := 0, z := z, calls := [], tested := [] }) := by
  have hc := get_bounding_box_corners_eq t screen config
  obtain ⟨c1, c2, c3, c4⟩ := hc
  have hux : (get_bounding_box t screen config).upper_right.x ≤ screen.width := by
    rw [c3]; exact min_le_left _ _
  have huy : (get_bounding_box t screen config).upper_right.y ≤ screen.height := by
    rw [c4]; exact min_le_left _ _
  have hlx : 0 ≤ (get_bounding_box t screen config).lower_left.x := by
    rw [c1]; exact le_max_left _ _
  have hly : 0 ≤ (get_bounding_box t screen config).lower_left.y := by
    rw [c2]; exact le_max_left _ _
  unfold rasterize_triangle
  simp only [hv, Bool.not_true, Bool.false_eq_true, if_false]
  exact outer_loop_eq pf t config _ fuel hd (by omega) (by omega) (by omega) hfy _ _ _ fuel
    (by omega) rfl hfx

/-! ## Hit count -/

theorem hash_40to8_le (arr40 : Fin 5 → Nat) (shift : Int) : hash_40to8 arr40 shift ≤ 255 := by
  unfold hash_40to8
  simp only
  refine le_trans (Nat.mod_le _ _) (le_trans Nat.and_le_left ?_)
  have := Nat.mod_lt
    (((arr40 0 ^^^ arr40 1) % 256 ^^^ (arr40 2 ^^^ arr40 3) % 256) % 256 ^^^
      ((arr40 1 ^^^ arr40 2) % 256 ^^^ (arr40 3 ^^^ arr40 4) % 256) % 256)
    (show 256 > 0 by decide)
  omega

theorem jitter_sample_bounds (s : Sample) (w : Int) :
    (0 ≤ (jitter_sample s w).x ∧ (jitter_sample s w).x ≤ 255) ∧
    (0 ≤ (jitter_sample s w).y ∧ (jitter_sample s w).y ≤ 255) := by
  unfold jitter_sample
  simp only
  have h1 := hash_40to8_le (byteOf (toU64 (wrap64 (shr s.y 4 * 2 ^ 20)) ||| toU64 (shr s.x 4))) w
  have h2 := hash_40to8_le (byteOf (toU64 (wrap64 (shr s.x 4 * 2 ^ 20)) ||| toU64 (shr s.y 4))) w
  omega

/-- For a sample with non-negative coordinates at least 1020 below the `int`
maximum, the body's jittered position is the one over the integers. -/
theorem jittered_int_eq (config : Config) (s : Sample) (hx0 : 0 ≤ s.x) (hy0 : 0 ≤ s.y)
    (hx1 : s.x + 1020 < 2 ^ 31) (hy1 : s.y + 1020 < 2 ^ 31) :
    jittered_int config s = jittered config s := by
  obtain ⟨⟨a0, a1⟩, b0, b1⟩ := jitter_sample_bounds s config.ss_w_lg2
  unfold jittered_int jittered shl32
  have e1 : wrap32 ((jitter_sample s config.ss_w_lg2).x * 2 ^ 2) =
      4 * (jitter_sample s config.ss_w_lg2).x := by
    rw [wrap32_eq_self ⟨by omega, by omega⟩]; ring
  have e2 : wrap32 ((jitter_sample s config.ss_w_lg2).y * 2 ^ 2) =
      4 * (jitter_sample s config.ss_w_lg2).y := by
    rw [wrap32_eq_self ⟨by omega, by omega⟩]; ring
  rw [e1, e2, wrap32_eq_self ⟨by omega, by omega⟩, wrap32_eq_self ⟨by omega, by omega⟩]

theorem sample_body_hit_count {ZBuff : Type} (pf : ZBuff → Sample → Sample → Fragment → ZBuff)
    (t : Triangle) (config : Config) (s : Sample) (st : RasterState ZBuff) :
    (sample_body pf t config s st).hit_count =
      if sample_test t (jittered_int config s) = true then wrap32 (st.hit_count + 1)
      else st.hit_count := by
  unfold sample_body jittered_int
  simp only
  split_ifs with h
  · cases hz : st.z <;> simp [hz]
  · rfl

theorem wrap32_succ (c : Int) : wrap32 (wrap32 c + 1) = wrap32 (c + 1) := by
  unfold wrap32
  omega

/-- The hit counter after a run is the number of covered samples, reduced to
the `int` range. -/
theorem run_samples_hit_count {ZBuff : Type} (pf : ZBuff → Sample → Sample → Fragment → ZBuff)
    (t : Triangle) (config : Config) (l : List Sample) :
    ∀ (st : RasterState ZBuff) (c : Int), st.hit_count = wrap32 c →
      (run_samples pf t config l st).hit_count =
        wrap32 (c + (l.countP (fun s => sample_test t (jittered_int config s)) : Nat)) := by
  induction l with
  | nil =>
    intro st c hc
    simp [run_samples, hc]
  | cons s l ih =>
    intro st c hc
    have hstep : run_samples pf t config (s :: l) st =
        run_samples pf t config l (sample_body pf t config s st) := rfl
    rw [hstep, List.countP_cons]
    by_cases h : sample_test t (jittered_int config s) = true
    · have h1 : (sample_body pf t config s st).hit_count = wrap32 (c + 1) := by
        rw [sample_body_hit_count, if_pos h, hc, wrap32_succ]
      rw [ih _ (c + 1) h1]
      simp only [h, if_true]
      push_cast
      congr 1
      ring
    · have h1 : (sample_body pf t config s st).hit_count = wrap32 c := by
        rw [sample_body_hit_count, if_neg h, hc]
      rw [ih _ c h1]
      simp [h]


theorem box_samples_eq_map (bbox : BoundingBox) (d : Int) :
    box_samples bbox d =
      (List.range (steps bbox.lower_left.x bbox.upper_right.x d) ×ˢ
        List.range (steps bbox.lower_left.y bbox.upper_right.y d)).map
        (fun p => (⟨bbox.lower_left.x + (p.1 : Int) * d, bbox.lower_left.y + (p.2 : Int) * d⟩ : Sample)) := by
  show _ = List.map _ (List.product _ _)
  unfold box_samples grid List.product
  rw [List.flatMap_map, List.map_flatMap]
  congr 1
  funext i
  rw [List.map_map, List.map_map]
  rfl

theorem hit_pairs_ncard (t : Triangle) (screen : Screen) (config : Config)
    (hd : 1 ≤ config.ss_i)
    (hwj : screen.width + 1020 < 2 ^ 31) (hhj : screen.height + 1020 < 2 ^ 31) :
    (box_samples (get_bounding_box t screen config) config.ss_i).countP
      (fun s => sample_test t (jittered_int config s)) = (hit_pairs t screen config).ncard := by
  obtain ⟨c1, c2, c3, c4⟩ := get_bounding_box_corners_eq t screen config
  have hux : (get_bounding_box t screen config).upper_right.x ≤ screen.width := by
    rw [c3]; exact min_le_left _ _
  have huy : (get_bounding_box t screen config).upper_right.y ≤ screen.height := by
    rw [c4]; exact min_le_left _ _
  have hlx : 0 ≤ (get_bounding_box t screen config).lower_left.x := by
    rw [c1]; exact le_max_left _ _
  have hly : 0 ≤ (get_bounding_box t screen config).lower_left.y := by
    rw [c2]; exact le_max_left _ _
  rw [box_samples_eq_map, List.countP_map]
  have hcongr : ∀ p ∈
      List.range (steps (get_bounding_box t screen config).lower_left.x
        (get_bounding_box t screen config).upper_right.x config.ss_i) ×ˢ
      List.range (steps (get_bounding_box t screen config).lower_left.y
        (get_bounding_box t screen config).upper_right.y config.ss_i),
      (((fun s => sample_test t (jittered_int config s)) ∘
        (fun p : ℕ × ℕ => (⟨(get_bounding_box t screen config).lower_left.x + (p.1 : Int) * config.ss_i,
          (get_bounding_box t screen config).lower_left.y + (p.2 : Int) * config.ss_i⟩ : Sample))) p = true ↔
      (fun p : ℕ × ℕ => sample_test t (jittered config
        ⟨(get_bounding_box t screen config).lower_left.x + (p.1 : Int) * config.ss_i,
         (get_bounding_box t screen config).lower_left.y + (p.2 : Int) * config.ss_i⟩)) p = true) := by
    rintro ⟨i, j⟩ hp
    obtain ⟨hi, hj⟩ := List.mem_product.mp hp
    rw [List.mem_range, steps_spec _ _ _ hd] at hi hj
    have hi0 : 0 ≤ (i : Int) * config.ss_i := mul_nonneg (by omega) (by omega)
    have hj0 : 0 ≤ (j : Int) * config.ss_i := mul_nonneg (by omega) (by omega)
    simp only [Function.comp_apply]
    rw [jittered_int_eq config _ (by simp only; omega) (by simp only; omega)
      (by simp only; omega) (by simp only; omega)]
  rw [List.countP_congr hcongr, List.countP_eq_length_filter,
    ← List.toFinset_card_of_nodup
      ((List.Nodup.product (List.nodup_range _) (List.nodup_range _)).filter _),
    ← Set.ncard_coe_Finset, List.coe_toFinset]
  congr 1
  ext ⟨i, j⟩
  simp only [hit_pairs, Set.mem_setOf_eq, List.mem_filter]
  rw [List.mem_product, List.mem_range, List.mem_range, steps_spec _ _ _ hd,
    steps_spec _ _ _ hd, and_assoc]



theorem sample_body_tested {ZBuff : Type} (pf : ZBuff → Sample → Sample → Fragment → ZBuff)
    (t : Triangle) (config : Config) (s : Sample) (st : RasterState ZBuff) :
    (sample_body pf t config s st).tested = st.tested ++ [jittered_int config s] := by
  unfold sample_body jittered_int
  simp only
  split_ifs with h
  · cases hz : st.z <;> simp [hz]
  · rfl

theorem sample_body_z_none {ZBuff : Type} (pf : ZBuff → Sample → Sample → Fragment → ZBuff)
    (t : Triangle) (config : Config) (s : Sample) (st : RasterState ZBuff)
    (hz : st.z = none) :
    (sample_body pf t config s st).z = none ∧ (sample_body pf t config s st).calls = st.calls := by
  unfold sample_body
  simp only
  split_ifs with h
  · simp [hz]
  · exact ⟨hz, rfl⟩

theorem sample_body_z_some {ZBuff : Type} (pf : ZBuff → Sample → Sample → Fragment → ZBuff)
    (t : Triangle) (config : Config) (s : Sample) (st : RasterState ZBuff)
    (hz : st.z.isSome = true) :
    (sample_body pf t config s st).z.isSome = true ∧
    (sample_body pf t config s st).calls =
      st.calls ++ (if is_hit t config s = true then [fragment_call t config s] else []) := by
  obtain ⟨zb, hzb⟩ := Option.isSome_iff_exists.mp hz
  unfold sample_body is_hit jittered_int fragment_call
  simp only
  split_ifs with h
  · simp [hzb]
  · simp [hzb]

/-- Without a buffer a run makes no call to `process_fragment`. -/
theorem run_samples_z_none {ZBuff : Type} (pf : ZBuff → Sample → Sample → Fragment → ZBuff)
    (t : Triangle) (config : Config) (l : List Sample) :
    ∀ (st : RasterState ZBuff), st.z = none →
      (run_samples pf t config l st).z = none ∧
      (run_samples pf t config l st).calls = st.calls := by
  induction l with
  | nil => intro st hz; exact ⟨hz, rfl⟩
  | cons s l ih =>
    intro st hz
    have hstep : run_samples pf t config (s :: l) st =
        run_samples pf t config l (sample_body pf t config s st) := rfl
    obtain ⟨h1, h2⟩ := sample_body_z_none pf t config s st hz
    rw [hstep, (ih _ h1).2, h2]
    exact ⟨(ih _ h1).1, rfl⟩

/-- With a buffer a run makes one call per covered sample, in the order of the
samples. -/
theorem run_samples_z_some {ZBuff : Type} (pf : ZBuff → Sample → Sample → Fragment → ZBuff)
    (t : Triangle) (config : Config) (l : List Sample) :
    ∀ (st : RasterState ZBuff), st.z.isSome = true →
      (run_samples pf t config l st).z.isSome = true ∧
      (run_samples pf t config l st).calls =
        st.calls ++ (l.filter (is_hit t config)).map (fragment_call t config) := by
  induction l with
  | nil => intro st hz; exact ⟨hz, by simp [run_samples]⟩
  | cons s l ih =>
    intro st hz
    have hstep : run_samples pf t config (s :: l) st =
        run_samples pf t config l (sample_body pf t config s st) := rfl
    obtain ⟨h1, h2⟩ := sample_body_z_some pf t config s st hz
    rw [hstep, (ih _ h1).2, h2]
    refine ⟨(ih _ h1).1, ?_⟩
    by_cases h : is_hit t config s = true
    · simp [h, List.filter_cons]
    · simp [h, List.filter_cons]

theorem run_samples_tested {ZBuff : Type} (pf : ZBuff → Sample → Sample → Fragment → ZBuff)
    (t : Triangle) (config : Config) (l : List Sample) :
    ∀ (st : RasterState ZBuff),
      (run_samples pf t config l st).tested = st.tested ++ l.map (jittered_int config) := by
  induction l with
  | nil => intro st; simp [run_samples]
  | cons s l ih =>
    intro st
    have hstep : run_samples pf t config (s :: l) st =
        run_samples pf t config l (sample_body pf t config s st) := rfl
    rw [hstep, ih, sample_body_tested]
    simp

/-- With a step of at least 1, loop counters that stay in the `int` range and
enough fuel, `rasterize_triangle` returns the state reached by running the loop
body over the visited samples. -/
theorem rasterize_triangle_eq_visited {ZBuff : Type}
    (pf : ZBuff → Sample → Sample → Fragment → ZBuff) (fuel : Nat) (t : Triangle)
    (z : Option ZBuff) (screen : Screen) (config : Config) (hd : 1 ≤ config.ss_i)
    (hw : screen.width + config.ss_i < 2 ^ 31) (hh : screen.height + config.ss_i < 2 ^ 31)
    (hf : enough_fuel t screen config ≤ fuel) :
    rasterize_triangle pf fuel t z screen config =
      some (run_samples pf t config (visited_samples t screen config)
        { hit_count := 0, z := z, calls := [], tested := [] }) := by
  unfold enough_fuel at hf
  have hfx := le_max_left
    (steps (get_bounding_box t screen config).lower_left.x
      (get_bounding_box t screen config).upper_right.x config.ss_i)
    (steps (get_bounding_box t screen config).lower_left.y
      (get_bounding_box t screen config).upper_right.y config.ss_i)
  have hfy := le_max_right
    (steps (get_bounding_box t screen config).lower_left.x
      (get_bounding_box t screen config).upper_right.x config.ss_i)
    (steps (get_bounding_box t screen config).lower_left.y
      (get_bounding_box t screen config).upper_right.y config.ss_i)
  unfold visited_samples
  cases hv : (get_bounding_box t screen config).valid
  · rw [rasterize_triangle_of_invalid pf fuel t z screen config hv]
    rfl
  · rw [rasterize_triangle_eq_run pf fuel t z screen config hv hd hw hh (by omega) (by omega)]
    rfl

/-- For a non-negative representable coordinate the subsample index of the
loop body is computed without wrapping and lies in `0 .. 2^w - 1`. -/
theorem subsample_index_range (sx : Int) (r w : Nat) (hwr : w ≤ r) (h0 : 0 ≤ sx)
    (h1 : sx < 2 ^ 31) :
    wrap32 (Int.tdiv (wrap32 (sx - shl32 (shr sx r) r)) (2 ^ (r - w))) =
      (sx - shr sx r * 2 ^ r) / 2 ^ (r - w) ∧
    0 ≤ (sx - shr sx r * 2 ^ r) / 2 ^ (r - w) ∧
    (sx - shr sx r * 2 ^ r) / 2 ^ (r - w) < 2 ^ w := by
  unfold shl32 shr
  have hP : (0 : Int) < 2 ^ r := by positivity
  have hD : (0 : Int) < 2 ^ (r - w) := by positivity
  have hq0 : 0 ≤ sx / 2 ^ r := Int.ediv_nonneg h0 hP.le
  have hqP : sx / 2 ^ r * 2 ^ r ≤ sx := Int.ediv_mul_le sx hP.ne'
  have hqP0 : 0 ≤ sx / 2 ^ r * 2 ^ r := mul_nonneg hq0 hP.le
  have hm : sx - sx / 2 ^ r * 2 ^ r = sx % 2 ^ r := by
    rw [Int.emod_def, mul_comm]
  have hm0 : 0 ≤ sx % 2 ^ r := Int.emod_nonneg sx hP.ne'
  have hm1 : sx % 2 ^ r < 2 ^ r := Int.emod_lt_of_pos sx hP
  rw [@wrap32_eq_self (sx / 2 ^ r * 2 ^ r) ⟨by omega, by omega⟩, hm,
    @wrap32_eq_self (sx % 2 ^ r) ⟨by omega, by omega⟩,
    Int.tdiv_eq_ediv hm0 hD.le]
  have hi0 : 0 ≤ sx % 2 ^ r / 2 ^ (r - w) := Int.ediv_nonneg hm0 hD.le
  have hi1 : sx % 2 ^ r / 2 ^ (r - w) ≤ sx % 2 ^ r := Int.ediv_le_self _ hm0
  have hsplit : (2 : Int) ^ r = 2 ^ w * 2 ^ (r - w) := by
    rw [← pow_add]
    congr 1
    omega
  refine ⟨wrap32_eq_self ⟨by omega, by omega⟩, hi0, ?_⟩
  apply Int.ediv_lt_of_lt_mul hD
  rw [← hsplit]
  exact hm1

/-- A visited sample lies on the grid of a valid box, between its corners. -/
theorem mem_visited_samples (t : Triangle) (screen : Screen) (config : Config)
    (hd : 1 ≤ config.ss_i) (s : Sample) (hs : s ∈ visited_samples t screen config) :
    (get_bounding_box t screen config).valid = true ∧
    ∃ i j : Nat,
      s.x = (get_bounding_box t screen config).lower_left.x + (i : Int) * config.ss_i ∧
      s.y = (get_bounding_box t screen config).lower_left.y + (j : Int) * config.ss_i ∧
      s.x ≤ (get_bounding_box t screen config).upper_right.x ∧
      s.y ≤ (get_bounding_box t screen config).upper_right.y := by
  unfold visited_samples at hs
  cases hv : (get_bounding_box t screen config).valid
  · simp [hv] at hs
  · refine ⟨rfl, ?_⟩
    simp only [hv, if_true] at hs
    rw [box_samples_eq_map, List.mem_map] at hs
    obtain ⟨⟨i, j⟩, hp, rfl⟩ := hs
    obtain ⟨hi, hj⟩ := List.mem_product.mp hp
    rw [List.mem_range, steps_spec _ _ _ hd] at hi hj
    exact ⟨i, j, rfl, rfl, hi, hj⟩

/-- A visited sample has non-negative coordinates inside the screen. -/
theorem visited_samples_bounds (t : Triangle) (screen : Screen) (config : Config)
    (hd : 1 ≤ config.ss_i) (s : Sample) (hs : s ∈ visited_samples t screen config) :
    (0 ≤ s.x ∧ s.x ≤ screen.width) ∧ (0 ≤ s.y ∧ s.y ≤ screen.height) := by
  obtain ⟨_, i, j, hx, hy, hux, huy⟩ := mem_visited_samples t screen config hd s hs
  obtain ⟨c1, c2, c3, c4⟩ := get_bounding_box_corners_eq t screen config
  have h1 : (get_bounding_box t screen config).upper_right.x ≤ screen.width := by
    rw [c3]; exact min_le_left _ _
  have h2 : (get_bounding_box t screen config).upper_right.y ≤ screen.height := by
    rw [c4]; exact min_le_left _ _
  have h3 : 0 ≤ (get_bounding_box t screen config).lower_left.x := by
    rw [c1]; exact le_max_left _ _
  have h4 : 0 ≤ (get_bounding_box t screen config).lower_left.y := by
    rw [c2]; exact le_max_left _ _
  have hi0 : 0 ≤ (i : Int) * config.ss_i := mul_nonneg (by omega) (by omega)
  have hj0 : 0 ≤ (j : Int) * config.ss_i := mul_nonneg (by omega) (by omega)
  refine ⟨⟨by omega, by omega⟩, by omega, by omega⟩

/-- The state returned by `rasterize_triangle`, computed from the visited
samples: the counter, the calls and the tested positions. -/
theorem rasterize_triangle_result {ZBuff : Type}
    (pf : ZBuff → Sample → Sample → Fragment → ZBuff) (fuel : Nat) (t : Triangle)
    (z : Option ZBuff) (screen : Screen) (config : Config) (hd : 1 ≤ config.ss_i)
    (hw : screen.width + config.ss_i < 2 ^ 31) (hh : screen.height + config.ss_i < 2 ^ 31)
    (hf : enough_fuel t screen config ≤ fuel) :
    ∃ st, rasterize_triangle pf fuel t z screen config = some st ∧
      st.hit_count =
        wrap32 (((visited_samples t screen config).filter (is_hit t config)).length : Nat) ∧
      st.calls = (if z.isSome = true then
        ((visited_samples t screen config).filter (is_hit t config)).map (fragment_call t config)
        else []) ∧
      st.tested = (visited_samples t screen config).map (jittered_int config) := by
  refine ⟨_, rasterize_triangle_eq_visited pf fuel t z screen config hd hw hh hf, ?_, ?_, ?_⟩
  · have hc := run_samples_hit_count pf t config (visited_samples t screen config)
      { hit_count := 0, z := z, calls := [], tested := [] } 0
      (show (0 : Int) = wrap32 0 by decide)
    rw [hc, zero_add, List.countP_eq_length_filter]
    rfl
  · cases z with
    | none =>
      exact (run_samples_z_none pf t config (visited_samples t screen config)
        { hit_count := 0, z := none, calls := [], tested := [] } rfl).2
    | some zb =>
      have := (run_samples_z_some pf t config (visited_samples t screen config)
        { hit_count := 0, z := some zb, calls := [], tested := [] } rfl).2
      rw [this]
      simp
  · rw [run_samples_tested]
    simp

/-! ## Fragment emission -/

/-- C12: with `ss_i >= 1` and loop counters inside the `int` range,
`rasterize_triangle` returns, and every fragment it handed to
`process_fragment` is `z`, `R`, `G`, `B` of the first vertex `v[0]`, whatever
the sample and whatever `v[1]` and `v[2]` hold. -/
theorem fragment_from_first_vertex {ZBuff : Type}
    (pf : ZBuff → Sample → Sample → Fragment → ZBuff) (t : Triangle) (z : Option ZBuff)
    (screen : Screen) (config : Config) (hd : 1 ≤ config.ss_i)
    (hw : screen.width + config.ss_i < 2 ^ 31) (hh : screen.height + config.ss_i < 2 ^ 31) :
    ∃ fuel0 : Nat, ∀ fuel : Nat, fuel0 ≤ fuel →
      ∃ st, rasterize_triangle pf fuel t z screen config = some st ∧
        ∀ c ∈ st.calls, c.f = ⟨t.v0.z, t.v0.R, t.v0.G, t.v0.B⟩ := by
  refine ⟨enough_fuel t screen config, fun fuel hf => ?_⟩
  obtain ⟨st, r, _, k, _⟩ := rasterize_triangle_result pf fuel t z screen config hd hw hh hf
  refine ⟨st, r, fun c hc => ?_⟩
  rw [k] at hc
  split_ifs at hc
  · obtain ⟨s, _, rfl⟩ := List.mem_map.mp hc
    rfl
  · simp at hc

/-- Witness of C12 at a triangle whose three vertices carry different depth and
colour: the three fragments of the run are those of `v[0]`. -/
theorem fragment_from_first_vertex_witness :
    (rasterize_triangle (fun (n : Nat) _ _ _ => n + 1) 4
      ⟨⟨0, 0, 7, 1, 2, 3⟩, ⟨0, 2048, 8, 4, 5, 6⟩, ⟨2048, 0, 9, 10, 11, 12⟩⟩ (some 0)
      ⟨4096, 4096⟩ ⟨10, 0, 1024⟩).map (fun st => st.calls.map (fun c => c.f)) =
        some [⟨7, 1, 2, 3⟩, ⟨7, 1, 2, 3⟩, ⟨7, 1, 2, 3⟩] ∧
    ∃ fuel0 : Nat, ∀ fuel : Nat, fuel0 ≤ fuel →
      ∃ st, rasterize_triangle (fun (n : Nat) _ _ _ => n + 1) fuel
          ⟨⟨0, 0, 7, 1, 2, 3⟩, ⟨0, 2048, 8, 4, 5, 6⟩, ⟨2048, 0, 9, 10, 11, 12⟩⟩ (some 0)
          ⟨4096, 4096⟩ ⟨10, 0, 1024⟩ = some st ∧
        ∀ c ∈ st.calls, c.f = ⟨7, 1, 2, 3⟩ :=
  ⟨by decide,
    fragment_from_first_vertex _ _ _ _ _ (by decide) (by decide) (by decide)⟩

/-- C13: with `0 <= ss_w_lg2 <= r_shift`, `ss_i = 2^(r_shift - ss_w_lg2)` and
loop counters inside the `int` range, `rasterize_triangle` returns, and every
call to `process_fragment` comes from a visited, covered sample: its pixel
address is `sample >> r_shift` on each axis and its subsample index is
`(sample - (hit_location << r_shift)) / ss_i`, a value in `0 .. 2^ss_w_lg2 - 1`
on each axis. -/
theorem fragment_address_range {ZBuff : Type}
    (pf : ZBuff → Sample → Sample → Fragment → ZBuff) (t : Triangle) (z : Option ZBuff)
    (screen : Screen) (config : Config)
    (h0 : 0 ≤ config.ss_w_lg2) (h1 : config.ss_w_lg2 ≤ config.r_shift)
    (hss : config.ss_i = 2 ^ (config.r_shift - config.ss_w_lg2).toNat)
    (hw : screen.width + config.ss_i < 2 ^ 31) (hh : screen.height + config.ss_i < 2 ^ 31) :
    ∃ fuel0 : Nat, ∀ fuel : Nat, fuel0 ≤ fuel →
      ∃ st, rasterize_triangle pf fuel t z screen config = some st ∧
        ∀ c ∈ st.calls, ∃ s ∈ visited_samples t screen config,
          is_hit t config s = true ∧
          c.hit_location = ⟨shr s.x config.r_shift.toNat, shr s.y config.r_shift.toNat⟩ ∧
          c.subsample.x =
            (s.x - c.hit_location.x * 2 ^ config.r_shift.toNat) / config.ss_i ∧
          c.subsample.y =
            (s.y - c.hit_location.y * 2 ^ config.r_shift.toNat) / config.ss_i ∧
          (0 ≤ c.subsample.x ∧ c.subsample.x < 2 ^ config.ss_w_lg2.toNat) ∧
          (0 ≤ c.subsample.y ∧ c.subsample.y < 2 ^ config.ss_w_lg2.toNat) := by
  have hd : 1 ≤ config.ss_i := by
    rw [hss]
    exact one_le_pow₀ (by norm_num)
  have hk : (config.r_shift - config.ss_w_lg2).toNat =
      config.r_shift.toNat - config.ss_w_lg2.toNat := by omega
  have hle : config.ss_w_lg2.toNat ≤ config.r_shift.toNat := by omega
  refine ⟨enough_fuel t screen config, fun fuel hf => ?_⟩
  obtain ⟨st, r, _, k, _⟩ := rasterize_triangle_result pf fuel t z screen config hd hw hh hf
  refine ⟨st, r, fun c hc => ?_⟩
  rw [k] at hc
  split_ifs at hc
  · obtain ⟨s, hs, rfl⟩ := List.mem_map.mp hc
    obtain ⟨hsv, hhit⟩ := List.mem_filter.mp hs
    obtain ⟨⟨bx0, bx1⟩, by0, by1⟩ := visited_samples_bounds t screen config hd s hsv
    obtain ⟨ex, ex0, ex1⟩ := subsample_index_range s.x config.r_shift.toNat
      config.ss_w_lg2.toNat hle bx0 (by omega)
    obtain ⟨ey, ey0, ey1⟩ := subsample_index_range s.y config.r_shift.toNat
      config.ss_w_lg2.toNat hle by0 (by omega)
    refine ⟨s, hsv, hhit, rfl, ?_, ?_, ?_, ?_⟩
    · show wrap32 _ = _
      rw [hss, hk]
      exact ex
    · show wrap32 _ = _
      rw [hss, hk]
      exact ey
    · have e : (fragment_call t config s).subsample.x =
          (s.x - shr s.x config.r_shift.toNat * 2 ^ config.r_shift.toNat) /
            2 ^ (config.r_shift.toNat - config.ss_w_lg2.toNat) := by
        show wrap32 _ = _
        rw [hss, hk]
        exact ex
      rw [e]
      exact ⟨ex0, ex1⟩
    · have e : (fragment_call t config s).subsample.y =
          (s.y - shr s.y config.r_shift.toNat * 2 ^ config.r_shift.toNat) /
            2 ^ (config.r_shift.toNat - config.ss_w_lg2.toNat) := by
        show wrap32 _ = _
        rw [hss, hk]
        exact ey
      rw [e]
      exact ⟨ey0, ey1⟩
  · simp at hc

/-- Witness of C13 at the triangle `(0,0), (0,2048), (2048,0)` with
`r_shift = 10`, `ss_w_lg2 = 1`, `ss_i = 512`: ten calls, each subsample index
0 or 1. -/
theorem fragment_address_range_witness :
    (rasterize_triangle (fun (n : Nat) _ _ _ => n + 1) 10
      ⟨⟨0, 0, 7, 1, 2, 3⟩, ⟨0, 2048, 8, 4, 5, 6⟩, ⟨2048, 0, 9, 10, 11, 12⟩⟩ (some 0)
      ⟨4096, 4096⟩ ⟨10, 1, 512⟩).map
        (fun st => st.calls.map (fun c => (c.hit_location, c.subsample))) =
      some [(⟨0, 0⟩, ⟨0, 0⟩), (⟨0, 0⟩, ⟨0, 1⟩), (⟨0, 1⟩, ⟨0, 0⟩), (⟨0, 1⟩, ⟨0, 1⟩),
        (⟨0, 0⟩, ⟨1, 0⟩), (⟨0, 0⟩, ⟨1, 1⟩), (⟨0, 1⟩, ⟨1, 0⟩), (⟨1, 0⟩, ⟨0, 0⟩),
        (⟨1, 0⟩, ⟨0, 1⟩), (⟨1, 0⟩, ⟨1, 0⟩)] ∧
    ∃ fuel0 : Nat, ∀ fuel : Nat, fuel0 ≤ fuel →
      ∃ st, rasterize_triangle (fun (n : Nat) _ _ _ => n + 1) fuel
          ⟨⟨0, 0, 7, 1, 2, 3⟩, ⟨0, 2048, 8, 4, 5, 6⟩, ⟨2048, 0, 9, 10, 11, 12⟩⟩ (some 0)
          ⟨4096, 4096⟩ ⟨10, 1, 512⟩ = some st ∧
        ∀ c ∈ st.calls, (0 ≤ c.subsample.x ∧ c.subsample.x < 2) ∧
          (0 ≤ c.subsample.y ∧ c.subsample.y < 2) :=
  ⟨by decide,
    (fragment_address_range (fun (n : Nat) _ _ _ => n + 1)
      ⟨⟨0, 0, 7, 1, 2, 3⟩, ⟨0, 2048, 8, 4, 5, 6⟩, ⟨2048, 0, 9, 10, 11, 12⟩⟩ (some 0)
      ⟨4096, 4096⟩ ⟨10, 1, 512⟩ (by decide) (by decide) (by decide) (by decide)
      (by decide)).imp fun _ h fuel hf =>
        (h fuel hf).imp fun _ hst =>
          ⟨hst.1, fun c hc =>
            let ⟨_, _, _, _, _, _, hx, hy⟩ := hst.2 c hc
            ⟨hx, hy⟩⟩⟩

/-! ## Containment and clipping -/

/-- A multiple of `2^k` with `k >= 32` wraps to zero. -/
theorem wrap32_mul_pow_eq_zero (m : Int) (k : Nat) (hk : 32 ≤ k) : wrap32 (m * 2 ^ k) = 0 := by
  unfold wrap32
  have hsplit : (2 : Int) ^ k = 2 ^ (k - 32) * 2 ^ 32 := by
    rw [← pow_add]
    congr 1
    omega
  have e : m * 2 ^ k + 2 ^ 31 = 2 ^ 31 + (m * 2 ^ (k - 32)) * 2 ^ 32 := by
    rw [hsplit]
    ring
  rw [e, Int.add_mul_emod_self]
  norm_num

/-- The value `floor_ss` returns for a representable `val`, by shift amount:
the floor multiple for a shift below 32, zero in the model beyond. -/
theorem floor_ss_cases (val r_shift ss_w_lg2 : Int) (hv : InInt32 val) :
    (toUnsigned (r_shift - ss_w_lg2) ≤ 31 ∧
      floor_ss val r_shift ss_w_lg2 =
        val / 2 ^ toUnsigned (r_shift - ss_w_lg2) * 2 ^ toUnsigned (r_shift - ss_w_lg2)) ∨
    (32 ≤ toUnsigned (r_shift - ss_w_lg2) ∧ floor_ss val r_shift ss_w_lg2 = 0) := by
  unfold floor_ss shl32 shr
  simp only
  rcases Nat.lt_or_ge (toUnsigned (r_shift - ss_w_lg2)) 32 with hk | hk
  · left
    exact ⟨by omega, wrap32_eq_self (inInt32_ediv_mul_pow val _ (by omega) hv)⟩
  · right
    exact ⟨hk, wrap32_mul_pow_eq_zero _ _ hk⟩

/-- Values of `floor_ss` never exceed a non-negative bound of the argument. -/
theorem floor_ss_le_of_le (val r_shift ss_w_lg2 p : Int) (hv : InInt32 val)
    (hp : val ≤ p) (hp0 : 0 ≤ p) : floor_ss val r_shift ss_w_lg2 ≤ p := by
  rcases floor_ss_cases val r_shift ss_w_lg2 hv with ⟨_, h⟩ | ⟨_, h⟩
  · rw [h]
    have hP : (0 : Int) < 2 ^ toUnsigned (r_shift - ss_w_lg2) := by positivity
    exact le_trans (Int.ediv_mul_le val hP.ne') hp
  · rw [h]
    exact hp0

/-- A non-negative grid point below a representable value is below its
`floor_ss`. -/
theorem le_floor_ss_of_dvd (val r_shift ss_w_lg2 p : Int) (hv : InInt32 val)
    (hdvd : (2 : Int) ^ toUnsigned (r_shift - ss_w_lg2) ∣ p) (hp0 : 0 ≤ p) (hp : p ≤ val) :
    p ≤ floor_ss val r_shift ss_w_lg2 := by
  have hP : (0 : Int) < 2 ^ toUnsigned (r_shift - ss_w_lg2) := by positivity
  obtain ⟨m, rfl⟩ := hdvd
  rcases floor_ss_cases val r_shift ss_w_lg2 hv with ⟨_, h⟩ | ⟨hk, h⟩
  · rw [h, mul_comm]
    have : m ≤ val / 2 ^ toUnsigned (r_shift - ss_w_lg2) :=
      Int.le_ediv_of_mul_le hP (by rw [mul_comm]; exact hp)
    exact mul_le_mul_of_nonneg_right this hP.le
  · rw [h]
    have hbig : (2 : Int) ^ 32 ≤ 2 ^ toUnsigned (r_shift - ss_w_lg2) :=
      pow_le_pow_right₀ (by norm_num) hk
    have hm : m ≤ 0 := by
      by_contra hm
      have h1 : (1 : Int) ≤ m := by omega
      have h2 : 2 ^ toUnsigned (r_shift - ss_w_lg2) * 1 ≤
          2 ^ toUnsigned (r_shift - ss_w_lg2) * m := mul_le_mul_of_nonneg_left h1 hP.le
      have := hv.2
      omega
    exact mul_nonpos_of_nonneg_of_nonpos hP.le hm

/-- A point that passes the three edge tests lies between the least and the
greatest of the three values `a0`, `a1`, `a2` attached to the vertices, given
the barycentric identity. -/
theorem between_of_weights (d0 d1 d2 a0 a1 a2 : Int) (h0 : d0 ≤ 0) (h1 : d1 < 0)
    (h2 : d2 ≤ 0) (hid : d1 * a0 + d2 * a1 + d0 * a2 = 0) :
    Min.min (Min.min a0 a1) a2 ≤ 0 ∧ 0 ≤ Max.max (Max.max a0 a1) a2 := by
  constructor
  · by_contra hlt
    have hlt' : 0 < Min.min (Min.min a0 a1) a2 := not_le.mp hlt
    have p0 : 0 < a0 := lt_of_lt_of_le hlt' (le_trans (min_le_left _ _) (min_le_left _ _))
    have p1 : 0 < a1 := lt_of_lt_of_le hlt' (le_trans (min_le_left _ _) (min_le_right _ _))
    have p2 : 0 < a2 := lt_of_lt_of_le hlt' (min_le_right _ _)
    have t0 := mul_neg_of_neg_of_pos h1 p0
    have t1 := mul_nonpos_of_nonpos_of_nonneg h2 p1.le
    have t2 := mul_nonpos_of_nonpos_of_nonneg h0 p2.le
    omega
  · by_contra hlt
    have hlt' : Max.max (Max.max a0 a1) a2 < 0 := not_le.mp hlt
    have p0 : a0 < 0 := lt_of_le_of_lt (le_trans (le_max_left _ _) (le_max_left _ _)) hlt'
    have p1 : a1 < 0 := lt_of_le_of_lt (le_trans (le_max_right _ _) (le_max_left _ _)) hlt'
    have p2 : a2 < 0 := lt_of_le_of_lt (le_max_right _ _) hlt'
    have t0 := mul_pos_of_neg_of_neg h1 p0
    have t1 := mul_nonneg_of_nonpos_of_nonpos h2 p1.le
    have t2 := mul_nonneg_of_nonpos_of_nonpos h0 p2.le
    omega

/-- A covered point lies inside the extent of the three vertices (no overflow). -/
theorem covered_in_extent (t : Triangle) (p : Sample) (hno : SampleTestNoOverflow t p)
    (hst : sample_test t p = true) :
    (Min.min (Min.min t.v0.x t.v1.x) t.v2.x ≤ p.x ∧
      p.x ≤ Max.max (Max.max t.v0.x t.v1.x) t.v2.x) ∧
    (Min.min (Min.min t.v0.y t.v1.y) t.v2.y ≤ p.y ∧
      p.y ≤ Max.max (Max.max t.v0.y t.v1.y) t.v2.y) := by
  rw [sample_test_eq_of_noOverflow t p hno] at hst
  simp only [Bool.and_eq_true, decide_eq_true_eq] at hst
  obtain ⟨⟨h0, h1⟩, h2⟩ := hst
  have hx := between_of_weights (dist0 t p) (dist1 t p) (dist2 t p)
    (t.v0.x - p.x) (t.v1.x - p.x) (t.v2.x - p.x) h0 h1 h2
    (by unfold dist0 dist1 dist2; ring)
  have hy := between_of_weights (dist0 t p) (dist1 t p) (dist2 t p)
    (t.v0.y - p.y) (t.v1.y - p.y) (t.v2.y - p.y) h0 h1 h2
    (by unfold dist0 dist1 dist2; ring)
  simp only [min_def, max_def] at hx hy ⊢
  constructor
  · constructor
    · split_ifs at hx ⊢ <;> omega
    · split_ifs at hx ⊢ <;> omega
  · constructor
    · split_ifs at hy ⊢ <;> omega
    · split_ifs at hy ⊢ <;> omega

theorem inInt32_min3 {a b c : Int} (ha : InInt32 a) (hb : InInt32 b) (hc : InInt32 c) :
    InInt32 (Min.min (Min.min a b) c) := by
  unfold InInt32 at *
  simp only [min_def]
  split_ifs <;> omega

theorem inInt32_max3 {a b c : Int} (ha : InInt32 a) (hb : InInt32 b) (hc : InInt32 c) :
    InInt32 (Max.max (Max.max a b) c) := by
  unfold InInt32 at *
  simp only [max_def]
  split_ifs <;> omega

/-- C14 (amended): for a triangle with `int` coordinates, every point `p` inside the
screen (`0 <= p.x <= width`, `0 <= p.y <= height`) whose coordinates are
multiples of the grid step `2^shamt`, `shamt` the shift amount of `floor_ss`,
and that `sample_test` covers (no overflow) lies inside the box returned by
`get_bounding_box`: flooring the upper-right corner loses no covered grid
point.  The validity flag is not needed for the containment. -/
theorem bounding_box_containment (t : Triangle) (screen : Screen) (config : Config)
    (p : Sample) (hc : CoordsInInt32 t)
    (hgx : (2 : Int) ^ toUnsigned (config.r_shift - config.ss_w_lg2) ∣ p.x)
    (hgy : (2 : Int) ^ toUnsigned (config.r_shift - config.ss_w_lg2) ∣ p.y)
    (hx0 : 0 ≤ p.x) (hx1 : p.x ≤ screen.width) (hy0 : 0 ≤ p.y) (hy1 : p.y ≤ screen.height)
    (hno : SampleTestNoOverflow t p) (hst : sample_test t p = true) :
    ((get_bounding_box t screen config).lower_left.x ≤ p.x ∧
      p.x ≤ (get_bounding_box t screen config).upper_right.x) ∧
    ((get_bounding_box t screen config).lower_left.y ≤ p.y ∧
      p.y ≤ (get_bounding_box t screen config).upper_right.y) := by
  obtain ⟨⟨ax0, ax1, ax2⟩, ay0, ay1, ay2⟩ := hc
  obtain ⟨⟨ex0, ex1⟩, ey0, ey1⟩ := covered_in_extent t p hno hst
  obtain ⟨c1, c2, c3, c4⟩ := get_bounding_box_corners_eq t screen config
  rw [c1, c2, c3, c4]
  refine ⟨⟨max_le hx0 ?_, le_min hx1 ?_⟩, max_le hy0 ?_, le_min hy1 ?_⟩
  · exact floor_ss_le_of_le _ _ _ _ (inInt32_min3 ax0 ax1 ax2) ex0 hx0
  · exact le_floor_ss_of_dvd _ _ _ _ (inInt32_max3 ax0 ax1 ax2) hgx hx0 ex1
  · exact floor_ss_le_of_le _ _ _ _ (inInt32_min3 ay0 ay1 ay2) ey0 hy0
  · exact le_floor_ss_of_dvd _ _ _ _ (inInt32_max3 ay0 ay1 ay2) hgy hy0 ey1

/-- Witness of C14 at the triangle `(100,100), (100,3000), (3000,100)` with
`r_shift = 10`, `ss_w_lg2 = 0` on a `4096 x 4096` screen and the grid point
`(1024, 1024)`: the box is `[0, 2048] x [0, 2048]`. -/
theorem bounding_box_containment_witness :
    (get_bounding_box ⟨⟨100, 100, 0, 0, 0, 0⟩, ⟨100, 3000, 0, 0, 0, 0⟩, ⟨3000, 100, 0, 0, 0, 0⟩⟩
      ⟨4096, 4096⟩ ⟨10, 0, 1024⟩) = ⟨⟨0, 0⟩, ⟨2048, 2048⟩, true⟩ ∧
    sample_test ⟨⟨100, 100, 0, 0, 0, 0⟩, ⟨100, 3000, 0, 0, 0, 0⟩, ⟨3000, 100, 0, 0, 0, 0⟩⟩
      ⟨1024, 1024⟩ = true ∧
    (((get_bounding_box ⟨⟨100, 100, 0, 0, 0, 0⟩, ⟨100, 3000, 0, 0, 0, 0⟩, ⟨3000, 100, 0, 0, 0, 0⟩⟩
      ⟨4096, 4096⟩ ⟨10, 0, 1024⟩).lower_left.x ≤ 1024 ∧
      1024 ≤ (get_bounding_box
        ⟨⟨100, 100, 0, 0, 0, 0⟩, ⟨100, 3000, 0, 0, 0, 0⟩, ⟨3000, 100, 0, 0, 0, 0⟩⟩
        ⟨4096, 4096⟩ ⟨10, 0, 1024⟩).upper_right.x) ∧
     ((get_bounding_box ⟨⟨100, 100, 0, 0, 0, 0⟩, ⟨100, 3000, 0, 0, 0, 0⟩, ⟨3000, 100, 0, 0, 0, 0⟩⟩
      ⟨4096, 4096⟩ ⟨10, 0, 1024⟩).lower_left.y ≤ 1024 ∧
      1024 ≤ (get_bounding_box
        ⟨⟨100, 100, 0, 0, 0, 0⟩, ⟨100, 3000, 0, 0, 0, 0⟩, ⟨3000, 100, 0, 0, 0, 0⟩⟩
        ⟨4096, 4096⟩ ⟨10, 0, 1024⟩).upper_right.y)) :=
  ⟨by decide, by decide,
    bounding_box_containment
      ⟨⟨100, 100, 0, 0, 0, 0⟩, ⟨100, 3000, 0, 0, 0, 0⟩, ⟨3000, 100, 0, 0, 0, 0⟩⟩
      ⟨4096, 4096⟩ ⟨10, 0, 1024⟩ ⟨1024, 1024⟩ (by decide) (by decide) (by decide)
      (by decide) (by decide) (by decide) (by decide) (by decide) (by decide)⟩

/-- A box whose corners are out of order on some axis is invalid. -/
theorem valid_false_of_inverted (t : Triangle) (screen : Screen) (config : Config)
    (h : (get_bounding_box t screen config).upper_right.x <
          (get_bounding_box t screen config).lower_left.x ∨
        (get_bounding_box t screen config).upper_right.y <
          (get_bounding_box t screen config).lower_left.y) :
    (get_bounding_box t screen config).valid = false := by
  simp only [get_bounding_box] at h ⊢
  split_ifs
  · rfl
  · rcases h with h | h
    · simp [not_le.mpr h]
    · simp [not_le.mpr h]

/-- For a shift amount below 32 the value of `floor_ss` is at most its
representable argument. -/
theorem floor_ss_le_self (val r_shift ss_w_lg2 : Int) (hv : InInt32 val)
    (hk : toUnsigned (r_shift - ss_w_lg2) ≤ 31) : floor_ss val r_shift ss_w_lg2 ≤ val := by
  rcases floor_ss_cases val r_shift ss_w_lg2 hv with ⟨_, h⟩ | ⟨hk', _⟩
  · rw [h]
    have hP : (0 : Int) < 2 ^ toUnsigned (r_shift - ss_w_lg2) := by positivity
    exact Int.ediv_mul_le val hP.ne'
  · omega

/-- If the greatest of three representable values is negative, the clipped
upper corner is left of (above) the clipped lower corner. -/
theorem upper_lt_lower_of_neg (a b c bound r_shift ss_w_lg2 : Int) (ha : InInt32 a)
    (hb : InInt32 b) (hc : InInt32 c) (hk : toUnsigned (r_shift - ss_w_lg2) ≤ 31)
    (h : a < 0 ∧ b < 0 ∧ c < 0) :
    Min.min bound (floor_ss (Max.max (Max.max a b) c) r_shift ss_w_lg2) <
      Max.max 0 (floor_ss (Min.min (Min.min a b) c) r_shift ss_w_lg2) := by
  have h1 := floor_ss_le_self _ r_shift ss_w_lg2 (inInt32_max3 ha hb hc) hk
  have h2 : Max.max (Max.max a b) c < 0 := max_lt (max_lt h.1 h.2.1) h.2.2
  exact lt_of_le_of_lt (min_le_right _ _) (lt_of_lt_of_le (lt_of_le_of_lt h1 h2)
    (le_max_left _ _))

/-- If the three values all round to grid lines beyond the bound, the clipped
upper corner is left of (above) the clipped lower corner. -/
theorem upper_lt_lower_of_beyond (a b c bound r_shift ss_w_lg2 : Int)
    (h : bound < floor_ss a r_shift ss_w_lg2 ∧ bound < floor_ss b r_shift ss_w_lg2 ∧
      bound < floor_ss c r_shift ss_w_lg2) :
    Min.min bound (floor_ss (Max.max (Max.max a b) c) r_shift ss_w_lg2) <
      Max.max 0 (floor_ss (Min.min (Min.min a b) c) r_shift ss_w_lg2) := by
  have h1 : bound < floor_ss (Min.min (Min.min a b) c) r_shift ss_w_lg2 := by
    simp only [min_def]
    split_ifs
    · exact h.1
    · exact h.2.2
    · exact h.2.1
    · exact h.2.2
  exact lt_of_le_of_lt (min_le_left _ _) (lt_of_lt_of_le h1 (le_max_right _ _))

/-- Counterexample to C15 as stated: the front-facing triangle
`(5200,1000), (5200,1600), (5800,1000)` lies to the right of the screen
`5120 x 4096` (`r_shift = 10`, `ss_w_lg2 = 0`, `ss_i = 1024`), yet its box
`[5120, 5120] x [0, 1024]` is valid and `rasterize_triangle` returns one hit:
the sample `(5120, 1024)` is jittered to `(5376, 1280)`, inside the triangle.
And the front-facing triangle `(-2000,-2000), (-2000,1000), (1000,-2000)`,
whose points all have `x + y <= -1000` and so lie outside every screen, has
the valid box `[0, 0] x [0, 0]`. -/
theorem screen_clipping_counterexample :
    (5120 < (5200 : Int) ∧ 5120 < (5800 : Int)) ∧
    get_bounding_box
      ⟨⟨-2000, -2000, 0, 0, 0, 0⟩, ⟨-2000, 1000, 0, 0, 0, 0⟩, ⟨1000, -2000, 0, 0, 0, 0⟩⟩
      ⟨5120, 4096⟩ ⟨10, 0, 1024⟩ = ⟨⟨0, 0⟩, ⟨0, 0⟩, true⟩ ∧
    get_bounding_box
      ⟨⟨5200, 1000, 0, 0, 0, 0⟩, ⟨5200, 1600, 0, 0, 0, 0⟩, ⟨5800, 1000, 0, 0, 0, 0⟩⟩
      ⟨5120, 4096⟩ ⟨10, 0, 1024⟩ = ⟨⟨5120, 0⟩, ⟨5120, 1024⟩, true⟩ ∧
    (rasterize_triangle (fun (n : Nat) _ _ _ => n + 1) 3
      ⟨⟨5200, 1000, 0, 0, 0, 0⟩, ⟨5200, 1600, 0, 0, 0, 0⟩, ⟨5800, 1000, 0, 0, 0, 0⟩⟩ (some 0)
      ⟨5120, 4096⟩ ⟨10, 0, 1024⟩).map (fun st => (st.hit_count, st.tested)) =
        some (1, [⟨5376, 0⟩, ⟨5376, 1280⟩]) ∧
    ¬ (∀ (t : Triangle) (screen : Screen) (config : Config),
        screen.width < t.v0.x ∧ screen.width < t.v1.x ∧ screen.width < t.v2.x →
        (get_bounding_box t screen config).valid = false) := by
  refine ⟨by decide, by decide, by decide, by decide, fun h => ?_⟩
  have h1 := h ⟨⟨5200, 1000, 0, 0, 0, 0⟩, ⟨5200, 1600, 0, 0, 0, 0⟩, ⟨5800, 1000, 0, 0, 0, 0⟩⟩
    ⟨5120, 4096⟩ ⟨10, 0, 1024⟩ (by decide)
  revert h1
  decide

/-- C15 (amended): for a triangle with `int` coordinates and a shift amount
below 32, if the three vertices all have `x < 0`, or all have `y < 0`, or all
have `floor_ss(x) > screen.width`, or all have `floor_ss(y) > screen.height`,
then `get_bounding_box` returns `valid = false` and `rasterize_triangle`
returns hit count 0 without testing a sample. -/
theorem screen_clipping_rounded {ZBuff : Type}
    (pf : ZBuff → Sample → Sample → Fragment → ZBuff) (fuel : Nat) (t : Triangle)
    (z : Option ZBuff) (screen : Screen) (config : Config) (hc : CoordsInInt32 t)
    (hk : toUnsigned (config.r_shift - config.ss_w_lg2) ≤ 31)
    (hout : (t.v0.x < 0 ∧ t.v1.x < 0 ∧ t.v2.x < 0) ∨
      (t.v0.y < 0 ∧ t.v1.y < 0 ∧ t.v2.y < 0) ∨
      (screen.width < floor_ss t.v0.x config.r_shift config.ss_w_lg2 ∧
        screen.width < floor_ss t.v1.x config.r_shift config.ss_w_lg2 ∧
        screen.width < floor_ss t.v2.x config.r_shift config.ss_w_lg2) ∨
      (screen.height < floor_ss t.v0.y config.r_shift config.ss_w_lg2 ∧
        screen.height < floor_ss t.v1.y config.r_shift config.ss_w_lg2 ∧
        screen.height < floor_ss t.v2.y config.r_shift config.ss_w_lg2)) :
    (get_bounding_box t screen config).valid = false ∧
    rasterize_triangle pf fuel t z screen config =
      some { hit_count := 0, z := z, calls := [], tested := [] } := by
  obtain ⟨⟨ax0, ax1, ax2⟩, ay0, ay1, ay2⟩ := hc
  obtain ⟨c1, c2, c3, c4⟩ := get_bounding_box_corners_eq t screen config
  have hinv : (get_bounding_box t screen config).valid = false := by
    apply valid_false_of_inverted
    rw [c1, c2, c3, c4]
    rcases hout with h | h | h | h
    · exact Or.inl (upper_lt_lower_of_neg _ _ _ _ _ _ ax0 ax1 ax2 hk h)
    · exact Or.inr (upper_lt_lower_of_neg _ _ _ _ _ _ ay0 ay1 ay2 hk h)
    · exact Or.inl (upper_lt_lower_of_beyond _ _ _ _ _ _ h)
    · exact Or.inr (upper_lt_lower_of_beyond _ _ _ _ _ _ h)
  exact ⟨hinv, rasterize_triangle_of_invalid pf fuel t z screen config hinv⟩

/-- Witness of the amended C15: the front-facing triangle
`(6200,1000), (6200,1600), (6800,1000)` rounds to the grid line `6144`, beyond
the screen width `5120`. -/
theorem screen_clipping_rounded_witness :
    signed_area ⟨⟨6200, 1000, 0, 0, 0, 0⟩, ⟨6200, 1600, 0, 0, 0, 0⟩, ⟨6800, 1000, 0, 0, 0, 0⟩⟩ < 0 ∧
    floor_ss 6200 10 0 = 6144 ∧
    (get_bounding_box
      ⟨⟨6200, 1000, 0, 0, 0, 0⟩, ⟨6200, 1600, 0, 0, 0, 0⟩, ⟨6800, 1000, 0, 0, 0, 0⟩⟩
      ⟨5120, 4096⟩ ⟨10, 0, 1024⟩).valid = false :=
  ⟨by decide, by decide,
    (screen_clipping_rounded (fun (n : Nat) _ _ _ => n + 1) 0
      ⟨⟨6200, 1000, 0, 0, 0, 0⟩, ⟨6200, 1600, 0, 0, 0, 0⟩, ⟨6800, 1000, 0, 0, 0, 0⟩⟩ (some 0)
      ⟨5120, 4096⟩ ⟨10, 0, 1024⟩ (by decide) (by decide) (by decide)).1⟩

/-- C16: for a triangle with `int` coordinates whose three vertices all have
`x < 0` and `y < 0`, every screen and every config with `ss_w_lg2 <= r_shift`
and a shift amount below 32, `get_bounding_box` returns `valid = false` (the
lower-left corner is clipped to `(0,0)`, the upper-right corner stays negative
on both axes) and `rasterize_triangle` returns hit count 0 without testing a
sample. -/
theorem negative_triangle_invalid {ZBuff : Type}
    (pf : ZBuff → Sample → Sample → Fragment → ZBuff) (fuel : Nat) (t : Triangle)
    (z : Option ZBuff) (screen : Screen) (config : Config) (hc : CoordsInInt32 t)
    (hx : t.v0.x < 0 ∧ t.v1.x < 0 ∧ t.v2.x < 0) (hy : t.v0.y < 0 ∧ t.v1.y < 0 ∧ t.v2.y < 0)
    (h1 : config.ss_w_lg2 ≤ config.r_shift) (h2 : config.r_shift - config.ss_w_lg2 < 32) :
    (get_bounding_box t screen config).valid = false ∧
    ((get_bounding_box t screen config).upper_right.x <
        (get_bounding_box t screen config).lower_left.x ∧
      (get_bounding_box t screen config).upper_right.y <
        (get_bounding_box t screen config).lower_left.y) ∧
    rasterize_triangle pf fuel t z screen config =
      some { hit_count := 0, z := z, calls := [], tested := [] } := by
  obtain ⟨⟨ax0, ax1, ax2⟩, ay0, ay1, ay2⟩ := hc
  obtain ⟨c1, c2, c3, c4⟩ := get_bounding_box_corners_eq t screen config
  have hk : toUnsigned (config.r_shift - config.ss_w_lg2) ≤ 31 := by
    rw [toUnsigned_eq_toNat (by omega) (by omega)]
    omega
  have hix : (get_bounding_box t screen config).upper_right.x <
      (get_bounding_box t screen config).lower_left.x := by
    rw [c1, c3]
    exact upper_lt_lower_of_neg _ _ _ _ _ _ ax0 ax1 ax2 hk hx
  have hiy : (get_bounding_box t screen config).upper_right.y <
      (get_bounding_box t screen config).lower_left.y := by
    rw [c2, c4]
    exact upper_lt_lower_of_neg _ _ _ _ _ _ ay0 ay1 ay2 hk hy
  have hinv := valid_false_of_inverted t screen config (Or.inl hix)
  exact ⟨hinv, ⟨hix, hiy⟩, rasterize_triangle_of_invalid pf fuel t z screen config hinv⟩

/-- Witness of C16 at the front-facing triangle `(-3000,-3000), (-3000,-1000),
(-1000,-3000)` with `r_shift = 10`, `ss_w_lg2 = 0` on a `800 x 600` pixel
screen. -/
theorem negative_triangle_invalid_witness :
    signed_area ⟨⟨-3000, -3000, 0, 0, 0, 0⟩, ⟨-3000, -1000, 0, 0, 0, 0⟩,
      ⟨-1000, -3000, 0, 0, 0, 0⟩⟩ < 0 ∧
    get_bounding_box ⟨⟨-3000, -3000, 0, 0, 0, 0⟩, ⟨-3000, -1000, 0, 0, 0, 0⟩,
      ⟨-1000, -3000, 0, 0, 0, 0⟩⟩ ⟨819200, 614400⟩ ⟨10, 0, 1024⟩ =
        ⟨⟨0, 0⟩, ⟨-1024, -1024⟩, false⟩ ∧
    rasterize_triangle (fun (n : Nat) _ _ _ => n + 1) 0
      ⟨⟨-3000, -3000, 0, 0, 0, 0⟩, ⟨-3000, -1000, 0, 0, 0, 0⟩, ⟨-1000, -3000, 0, 0, 0, 0⟩⟩
      (some 0) ⟨819200, 614400⟩ ⟨10, 0, 1024⟩ =
        some { hit_count := 0, z := some 0, calls := [], tested := [] } :=
  ⟨by decide, by decide,
    (negative_triangle_invalid (fun (n : Nat) _ _ _ => n + 1) 0
      ⟨⟨-3000, -3000, 0, 0, 0, 0⟩, ⟨-3000, -1000, 0, 0, 0, 0⟩, ⟨-1000, -3000, 0, 0, 0, 0⟩⟩
      (some 0) ⟨819200, 614400⟩ ⟨10, 0, 1024⟩ (by decide) (by decide) (by decide)
      (by decide) (by decide)).2.2⟩

/-! ## Jitter bounds -/

/-- The folded byte never exceeds the mask `0x00ff >> shift`. -/
theorem hash_40to8_le_mask (arr40 : Fin 5 → Nat) (shift : Int) :
    hash_40to8 arr40 shift ≤ 0xFF >>> shift.toNat := by
  unfold hash_40to8
  simp only
  exact le_trans (Nat.mod_le _ _) (le_trans Nat.and_le_right (Nat.mod_le _ _))

theorem jitter_sample_le_mask (s : Sample) (w : Int) :
    (jitter_sample s w).x ≤ ((0xFF >>> w.toNat : Nat) : Int) ∧
    (jitter_sample s w).y ≤ ((0xFF >>> w.toNat : Nat) : Int) := by
  unfold jitter_sample
  simp only
  have h1 := hash_40to8_le_mask
    (byteOf (toU64 (wrap64 (shr s.y 4 * 2 ^ 20)) ||| toU64 (shr s.x 4))) w
  have h2 := hash_40to8_le_mask
    (byteOf (toU64 (wrap64 (shr s.x 4 * 2 ^ 20)) ||| toU64 (shr s.y 4))) w
  exact ⟨by exact_mod_cast h1, by exact_mod_cast h2⟩

theorem mask_lt_pow (n : Nat) (hn : n ≤ 8) : 0xFF >>> n < 2 ^ (8 - n) := by
  interval_cases n <;> decide

/-- C17: for `0 <= ss_w_lg2 <= 8` both components of `jitter_sample` lie in
`0 <= j <= (0xFF >> ss_w_lg2) < 2^(8 - ss_w_lg2)`, and the offset `j << 2`
applied by `rasterize_triangle` is strictly less than
`(1 << (8 - ss_w_lg2)) << 2`. -/
theorem jitter_bounded (s : Sample) (w : Int) (h0 : 0 ≤ w) (h8 : w ≤ 8) :
    (0 ≤ (jitter_sample s w).x ∧ (jitter_sample s w).x ≤ ((0xFF >>> w.toNat : Nat) : Int)) ∧
    (0 ≤ (jitter_sample s w).y ∧ (jitter_sample s w).y ≤ ((0xFF >>> w.toNat : Nat) : Int)) ∧
    (0xFF >>> w.toNat) < 2 ^ (8 - w.toNat) ∧
    shl32 (jitter_sample s w).x 2 < shl32 (shl32 1 (8 - w).toNat) 2 ∧
    shl32 (jitter_sample s w).y 2 < shl32 (shl32 1 (8 - w).toNat) 2 := by
  obtain ⟨⟨a0, a1⟩, b0, b1⟩ := jitter_sample_bounds s w
  obtain ⟨mx, my⟩ := jitter_sample_le_mask s w
  have hm := mask_lt_pow w.toNat (by omega)
  have ex : shl32 (jitter_sample s w).x 2 = 4 * (jitter_sample s w).x := by
    unfold shl32
    rw [wrap32_eq_self ⟨by omega, by omega⟩]
    ring
  have ey : shl32 (jitter_sample s w).y 2 = 4 * (jitter_sample s w).y := by
    unfold shl32
    rw [wrap32_eq_self ⟨by omega, by omega⟩]
    ring
  have hpow : shl32 (shl32 1 (8 - w).toNat) 2 = 4 * ((2 ^ (8 - w.toNat) : Nat) : Int) := by
    obtain ⟨n, rfl⟩ : ∃ n : Nat, w = (n : Int) := ⟨w.toNat, by omega⟩
    have hn : n ≤ 8 := by omega
    interval_cases n <;> decide
  have hmi : ((0xFF >>> w.toNat : Nat) : Int) < ((2 ^ (8 - w.toNat) : Nat) : Int) := by
    exact_mod_cast hm
  refine ⟨⟨a0, mx⟩, ⟨b0, my⟩, hm, ?_, ?_⟩
  · rw [ex, hpow]
    omega
  · rw [ey, hpow]
    omega

/-- Witness of C17 at the sample `(123456, 7891011)` and `ss_w_lg2 = 3`: the
jitter is `(28, 5)`, the mask `31`. -/
theorem jitter_bounded_witness :
    jitter_sample ⟨123456, 7891011⟩ 3 = ⟨28, 5⟩ ∧
    shl32 (jitter_sample ⟨123456, 7891011⟩ 3).x 2 < shl32 (shl32 1 ((8 : Int) - 3).toNat) 2 :=
  ⟨by decide, (jitter_bounded ⟨123456, 7891011⟩ 3 (by decide) (by decide)).2.2.2.1⟩

/-- Four times the mask stays below the grid step when `r_shift >= 10` or the
mask is empty. -/
theorem four_mask_lt_step (n R : Nat) (hn : n ≤ R) (h : 10 ≤ R ∨ 8 ≤ n) :
    4 * (0xFF >>> n) < 2 ^ (R - n) := by
  rcases Nat.lt_or_ge n 8 with hlt | hge
  · have hR : 10 ≤ R := by omega
    have h1 := mask_lt_pow n hlt.le
    have h2 : 4 * 2 ^ (8 - n) = 2 ^ (10 - n) := by
      rw [show 10 - n = 2 + (8 - n) by omega, pow_add]
      norm_num
    have h3 : 2 ^ (10 - n) ≤ 2 ^ (R - n) := Nat.pow_le_pow_right (by norm_num) (by omega)
    omega
  · have h0 : 0xFF >>> n = 0 := by
      rw [Nat.shiftRight_eq_div_pow]
      apply Nat.div_eq_of_lt
      exact lt_of_lt_of_le (by norm_num : 255 < 2 ^ 8) (Nat.pow_le_pow_right (by norm_num) hge)
    rw [h0]
    positivity

/-- Counterexample to C18 as stated: with `r_shift = 8`, `ss_w_lg2 = 0`,
`ss_i = 256` the grid sample `(1024, 0)` has jitter `(64, 0)`, so the offset
`64 << 2 = 256` is not smaller than the grid step. -/
theorem jitter_cell_counterexample :
    jitter_sample ⟨1024, 0⟩ 0 = ⟨64, 0⟩ ∧ shl32 (jitter_sample ⟨1024, 0⟩ 0).x 2 = 256 ∧
    ¬ (∀ (s : Sample) (config : Config), 0 ≤ config.ss_w_lg2 →
        config.ss_w_lg2 ≤ config.r_shift →
        config.ss_i = 2 ^ (config.r_shift - config.ss_w_lg2).toNat →
        (0 ≤ shl32 (jitter_sample s config.ss_w_lg2).x 2 ∧
          shl32 (jitter_sample s config.ss_w_lg2).x 2 < config.ss_i) ∧
        (0 ≤ shl32 (jitter_sample s config.ss_w_lg2).y 2 ∧
          shl32 (jitter_sample s config.ss_w_lg2).y 2 < config.ss_i)) := by
  refine ⟨by decide, by decide, fun h => ?_⟩
  have h1 := h ⟨1024, 0⟩ ⟨8, 0, 256⟩ (by decide) (by decide) (by decide)
  revert h1
  decide

/-- C18 (amended): for `0 <= ss_w_lg2 <= r_shift`,
`ss_i = 2^(r_shift - ss_w_lg2)` and, in addition, `r_shift >= 10` or
`ss_w_lg2 >= 8`, the offset `jitter_sample(sample, ss_w_lg2) << 2` is, on each
axis, non-negative and strictly smaller than the grid step `ss_i`. -/
theorem jitter_within_cell (s : Sample) (config : Config) (h0 : 0 ≤ config.ss_w_lg2)
    (h1 : config.ss_w_lg2 ≤ config.r_shift)
    (hss : config.ss_i = 2 ^ (config.r_shift - config.ss_w_lg2).toNat)
    (h10 : 10 ≤ config.r_shift ∨ 8 ≤ config.ss_w_lg2) :
    (0 ≤ shl32 (jitter_sample s config.ss_w_lg2).x 2 ∧
      shl32 (jitter_sample s config.ss_w_lg2).x 2 < config.ss_i) ∧
    (0 ≤ shl32 (jitter_sample s config.ss_w_lg2).y 2 ∧
      shl32 (jitter_sample s config.ss_w_lg2).y 2 < config.ss_i) := by
  obtain ⟨⟨a0, a1⟩, b0, b1⟩ := jitter_sample_bounds s config.ss_w_lg2
  obtain ⟨mx, my⟩ := jitter_sample_le_mask s config.ss_w_lg2
  have ex : shl32 (jitter_sample s config.ss_w_lg2).x 2 =
      4 * (jitter_sample s config.ss_w_lg2).x := by
    unfold shl32
    rw [wrap32_eq_self ⟨by omega, by omega⟩]
    ring
  have ey : shl32 (jitter_sample s config.ss_w_lg2).y 2 =
      4 * (jitter_sample s config.ss_w_lg2).y := by
    unfold shl32
    rw [wrap32_eq_self ⟨by omega, by omega⟩]
    ring
  have hk : (config.r_shift - config.ss_w_lg2).toNat =
      config.r_shift.toNat - config.ss_w_lg2.toNat := by omega
  have hstep := four_mask_lt_step config.ss_w_lg2.toNat config.r_shift.toNat (by omega)
    (by omega)
  have hstep' : 4 * ((0xFF >>> config.ss_w_lg2.toNat : Nat) : Int) < config.ss_i := by
    rw [hss, hk]
    exact_mod_cast hstep
  rw [ex, ey]
  refine ⟨⟨by omega, by omega⟩, by omega, by omega⟩

/-- Witness of the amended C18 at the sample `(1024, 0)` with `r_shift = 10`,
`ss_w_lg2 = 0`, `ss_i = 1024`: the offset is `(256, 0)`. -/
theorem jitter_within_cell_witness :
    shl32 (jitter_sample ⟨1024, 0⟩ 0).x 2 = 256 ∧
    (0 ≤ shl32 (jitter_sample ⟨1024, 0⟩ 0).x 2 ∧
      shl32 (jitter_sample ⟨1024, 0⟩ 0).x 2 < 1024) :=
  ⟨by decide,
    (jitter_within_cell ⟨1024, 0⟩ ⟨10, 0, 1024⟩ (by decide) (by decide) (by decide)
      (by decide)).1⟩

/-! ## Concrete scenarios -/

theorem box_samples_length (bbox : BoundingBox) (d : Int) :
    (box_samples bbox d).length =
      steps bbox.lower_left.x bbox.upper_right.x d *
        steps bbox.lower_left.y bbox.upper_right.y d := by
  rw [box_samples_eq_map, List.length_map, List.length_product, List.length_range,
    List.length_range]

/-- Counterexample to C19 as stated: for the triangle `(0,0), (800<<16, 0),
(0, 600<<16)` the signed area is positive and `get_bounding_box` returns
`valid = false`. -/
theorem scenario_triangle_counterexample :
    0 < signed_area ⟨⟨0, 0, 0, 0, 0, 0⟩, ⟨800 * 2 ^ 16, 0, 0, 0, 0, 0⟩,
      ⟨0, 600 * 2 ^ 16, 0, 0, 0, 0⟩⟩ ∧
    ¬ ((get_bounding_box ⟨⟨0, 0, 0, 0, 0, 0⟩, ⟨800 * 2 ^ 16, 0, 0, 0, 0, 0⟩,
        ⟨0, 600 * 2 ^ 16, 0, 0, 0, 0⟩⟩ ⟨800 * 2 ^ 16, 600 * 2 ^ 16⟩ ⟨16, 0, 2 ^ 16⟩).valid = true ∧
      (get_bounding_box ⟨⟨0, 0, 0, 0, 0, 0⟩, ⟨800 * 2 ^ 16, 0, 0, 0, 0, 0⟩,
        ⟨0, 600 * 2 ^ 16, 0, 0, 0, 0⟩⟩ ⟨800 * 2 ^ 16, 600 * 2 ^ 16⟩
        ⟨16, 0, 2 ^ 16⟩).lower_left = ⟨0, 0⟩ ∧
      (get_bounding_box ⟨⟨0, 0, 0, 0, 0, 0⟩, ⟨800 * 2 ^ 16, 0, 0, 0, 0, 0⟩,
        ⟨0, 600 * 2 ^ 16, 0, 0, 0, 0⟩⟩ ⟨800 * 2 ^ 16, 600 * 2 ^ 16⟩
        ⟨16, 0, 2 ^ 16⟩).upper_right = ⟨800 * 2 ^ 16, 600 * 2 ^ 16⟩) := by
  decide

/-- C19 (amended): for the triangle `v0 = (0,0)`, `v1 = (800<<16, 0)`,
`v2 = (0, 600<<16)`, whatever depth and colour the vertices carry, with
`r_shift = 16`, `ss_w_lg2 = 0`, `ss_i = 1<<16` and the screen `800<<16` by
`600<<16`, `get_bounding_box` returns `lower_left = (0,0)`,
`upper_right = (800<<16, 600<<16)` and `valid = false`: the signed area is
positive, so the triangle is culled as back-facing. -/
theorem scenario_triangle_box (z0 r0 g0 b0 z1 r1 g1 b1 z2 r2 g2 b2 : Int) :
    get_bounding_box ⟨⟨0, 0, z0, r0, g0, b0⟩, ⟨800 * 2 ^ 16, 0, z1, r1, g1, b1⟩,
      ⟨0, 600 * 2 ^ 16, z2, r2, g2, b2⟩⟩ ⟨800 * 2 ^ 16, 600 * 2 ^ 16⟩ ⟨16, 0, 2 ^ 16⟩ =
      ⟨⟨0, 0⟩, ⟨800 * 2 ^ 16, 600 * 2 ^ 16⟩, false⟩ ∧
    0 < signed_area ⟨⟨0, 0, z0, r0, g0, b0⟩, ⟨800 * 2 ^ 16, 0, z1, r1, g1, b1⟩,
      ⟨0, 600 * 2 ^ 16, z2, r2, g2, b2⟩⟩ := by
  constructor
  · rfl
  · unfold signed_area
    norm_num

/-- Counterexample to C20 as stated: for the reversed order `(0, 600<<16),
(800<<16, 0), (0,0)` the signed area is negative and `get_bounding_box` returns
`valid = true`. -/
theorem scenario_reversed_counterexample :
    signed_area ⟨⟨0, 600 * 2 ^ 16, 0, 0, 0, 0⟩, ⟨800 * 2 ^ 16, 0, 0, 0, 0, 0⟩,
      ⟨0, 0, 0, 0, 0, 0⟩⟩ < 0 ∧
    ¬ ((get_bounding_box ⟨⟨0, 600 * 2 ^ 16, 0, 0, 0, 0⟩, ⟨800 * 2 ^ 16, 0, 0, 0, 0, 0⟩,
        ⟨0, 0, 0, 0, 0, 0⟩⟩ ⟨800 * 2 ^ 16, 600 * 2 ^ 16⟩ ⟨16, 0, 2 ^ 16⟩).valid = false) := by
  decide

/-- C20 (amended): for the reversed order `(v0,v1,v2) = ((0, 600<<16),
(800<<16, 0), (0,0))` with `r_shift = 16`, `ss_w_lg2 = 0`, `ss_i = 1<<16` and
the screen `800<<16` by `600<<16`, `get_bounding_box` returns `valid = true`
with corners `(0,0)` and `(800<<16, 600<<16)`, and `rasterize_triangle` does
not return at the validity check: it hands the `801 * 601` grid samples of the
box to `sample_test`.  At 16 fractional bits the products of `sample_test`
leave the `int` range (already at the first sample), so the theorem says
nothing about the hit count. -/
theorem scenario_reversed_box {ZBuff : Type}
    (pf : ZBuff → Sample → Sample → Fragment → ZBuff) (z : Option ZBuff) :
    get_bounding_box ⟨⟨0, 600 * 2 ^ 16, 0, 0, 0, 0⟩, ⟨800 * 2 ^ 16, 0, 0, 0, 0, 0⟩,
      ⟨0, 0, 0, 0, 0, 0⟩⟩ ⟨800 * 2 ^ 16, 600 * 2 ^ 16⟩ ⟨16, 0, 2 ^ 16⟩ =
      ⟨⟨0, 0⟩, ⟨800 * 2 ^ 16, 600 * 2 ^ 16⟩, true⟩ ∧
    (∀ fuel : Nat, 802 ≤ fuel →
      ∃ st, rasterize_triangle pf fuel ⟨⟨0, 600 * 2 ^ 16, 0, 0, 0, 0⟩,
          ⟨800 * 2 ^ 16, 0, 0, 0, 0, 0⟩, ⟨0, 0, 0, 0, 0, 0⟩⟩ z
          ⟨800 * 2 ^ 16, 600 * 2 ^ 16⟩ ⟨16, 0, 2 ^ 16⟩ = some st ∧
        st.tested.length = 801 * 601) ∧
    ¬ SampleTestNoOverflow ⟨⟨0, 600 * 2 ^ 16, 0, 0, 0, 0⟩, ⟨800 * 2 ^ 16, 0, 0, 0, 0, 0⟩,
      ⟨0, 0, 0, 0, 0, 0⟩⟩ ⟨0, 0⟩ := by
  refine ⟨by decide, fun fuel hf => ?_, by decide⟩
  have hfuel : enough_fuel ⟨⟨0, 600 * 2 ^ 16, 0, 0, 0, 0⟩, ⟨800 * 2 ^ 16, 0, 0, 0, 0, 0⟩,
      ⟨0, 0, 0, 0, 0, 0⟩⟩ ⟨800 * 2 ^ 16, 600 * 2 ^ 16⟩ ⟨16, 0, 2 ^ 16⟩ = 802 := by decide
  obtain ⟨st, r, _, _, k⟩ := rasterize_triangle_result pf fuel
    ⟨⟨0, 600 * 2 ^ 16, 0, 0, 0, 0⟩, ⟨800 * 2 ^ 16, 0, 0, 0, 0, 0⟩, ⟨0, 0, 0, 0, 0, 0⟩⟩ z
    ⟨800 * 2 ^ 16, 600 * 2 ^ 16⟩ ⟨16, 0, 2 ^ 16⟩ (by decide) (by decide) (by decide)
    (by rw [hfuel]; exact hf)
  refine ⟨st, r, ?_⟩
  rw [k, List.length_map]
  have hvis : visited_samples ⟨⟨0, 600 * 2 ^ 16, 0, 0, 0, 0⟩, ⟨800 * 2 ^ 16, 0, 0, 0, 0, 0⟩,
      ⟨0, 0, 0, 0, 0, 0⟩⟩ ⟨800 * 2 ^ 16, 600 * 2 ^ 16⟩ ⟨16, 0, 2 ^ 16⟩ =
      box_samples ⟨⟨0, 0⟩, ⟨800 * 2 ^ 16, 600 * 2 ^ 16⟩, true⟩ (2 ^ 16) := by
    unfold visited_samples
    rw [show get_bounding_box ⟨⟨0, 600 * 2 ^ 16, 0, 0, 0, 0⟩, ⟨800 * 2 ^ 16, 0, 0, 0, 0, 0⟩,
      ⟨0, 0, 0, 0, 0, 0⟩⟩ ⟨800 * 2 ^ 16, 600 * 2 ^ 16⟩ ⟨16, 0, 2 ^ 16⟩ =
      ⟨⟨0, 0⟩, ⟨800 * 2 ^ 16, 600 * 2 ^ 16⟩, true⟩ by decide]
    exact if_pos rfl
  rw [hvis, box_samples_length]
  decide

/-! ## Bit masks -/

/-- Conjunction with the mask that clears the low `k` bits of a 32-bit
pattern. -/
theorem nat_and_clear_low (x k : Nat) (hx : x < 2 ^ 32) (hk : k ≤ 32) :
    x &&& (2 ^ 32 - 2 ^ k) = x / 2 ^ k * 2 ^ k := by
  have hmask : 2 ^ 32 - 2 ^ k = 2 ^ k * (2 ^ (32 - k) - 1) := by
    rw [Nat.mul_sub, mul_one, ← pow_add]
    congr 2
    omega
  apply Nat.eq_of_testBit_eq
  intro i
  rw [Nat.testBit_and, hmask, Nat.testBit_mul_pow_two, Nat.testBit_two_pow_sub_one,
    mul_comm (x / 2 ^ k), Nat.testBit_mul_pow_two, ← Nat.shiftRight_eq_div_pow,
    Nat.testBit_shiftRight]
  by_cases hik : k ≤ i
  · have e : k + (i - k) = i := by omega
    rw [e]
    by_cases hi : i < 32
    · have : i - k < 32 - k := by omega
      simp [hik, this]
    · have hx' : x < 2 ^ i := lt_of_lt_of_le hx (Nat.pow_le_pow_right (by norm_num) (by omega))
      rw [Nat.testBit_lt_two_pow hx']
      simp
  · simp [hik]

theorem wrap32_add_mul (y c : Int) : wrap32 (y + c * 2 ^ 32) = wrap32 y := by
  unfold wrap32
  rw [show y + c * 2 ^ 32 + 2 ^ 31 = y + 2 ^ 31 + c * 2 ^ 32 by ring, Int.add_mul_emod_self]

/-- On a representable value, `&` with `-2^k` (`k <= 31`) clears the low `k`
bits: the result is the floor multiple of `2^k`. -/
theorem and32_neg_pow (v : Int) (k : Nat) (hv : InInt32 v) (hk : k ≤ 31) :
    and32 v (-(2 : Int) ^ k) = v / 2 ^ k * 2 ^ k := by
  unfold and32 toUnsigned
  have hP : (0 : Int) < 2 ^ k := by positivity
  have h32 : (2 : Int) ^ 32 = 2 ^ (32 - k) * 2 ^ k := by
    rw [← pow_add]
    congr 1
    omega
  have hpk : (2 : Int) ^ k ≤ 2 ^ 31 := pow_le_pow_right₀ (by norm_num) hk
  have hmask : ((-(2 : Int) ^ k) % 2 ^ 32).toNat = 2 ^ 32 - 2 ^ k := by
    have e : (-(2 : Int) ^ k) % 2 ^ 32 = 2 ^ 32 - 2 ^ k := by
      have e1 : (-(2 : Int) ^ k) % 2 ^ 32 = (2 ^ 32 - 2 ^ k) % 2 ^ 32 := by
        rw [show (2 : Int) ^ 32 - 2 ^ k = -(2 ^ k) + 2 ^ 32 by ring, Int.add_emod_self]
      rw [e1]
      exact Int.emod_eq_of_lt (by linarith) (by linarith)
    rw [e]
    have hnat : ((2 ^ 32 - 2 ^ k : Nat) : Int) = 2 ^ 32 - 2 ^ k := by
      have : (2 : Nat) ^ k ≤ 2 ^ 32 := Nat.pow_le_pow_right (by norm_num) (by omega)
      rw [Nat.cast_sub this]
      norm_num
    rw [← hnat, Int.toNat_natCast]
  have hu0 : 0 ≤ v % 2 ^ 32 := Int.emod_nonneg v (by norm_num)
  have hu1 : v % 2 ^ 32 < 2 ^ 32 := Int.emod_lt_of_pos v (by norm_num)
  have hux : (v % 2 ^ 32).toNat < 2 ^ 32 := by
    have := Int.toNat_of_nonneg hu0
    omega
  rw [hmask, nat_and_clear_low _ k hux (by omega)]
  simp only [Nat.cast_mul, Int.natCast_ediv, Nat.cast_pow, Nat.cast_ofNat]
  rw [Int.toNat_of_nonneg hu0]
  have hsplit : v % 2 ^ 32 = v + (-(v / 2 ^ 32) * 2 ^ (32 - k)) * 2 ^ k := by
    rw [Int.emod_def, mul_assoc, ← h32]
    ring
  have hdiv : (v % 2 ^ 32) / 2 ^ k = v / 2 ^ k + -(v / 2 ^ 32) * 2 ^ (32 - k) := by
    rw [hsplit, Int.add_mul_ediv_right _ _ hP.ne']
  show wrap32 ((v % 2 ^ 32) / 2 ^ k * 2 ^ k) = v / 2 ^ k * 2 ^ k
  rw [hdiv, add_mul, mul_assoc, ← h32, wrap32_add_mul]
  exact wrap32_eq_self (inInt32_ediv_mul_pow v k hk hv)

theorem pow_inInt32 (k : Nat) (hk : k ≤ 30) : InInt32 ((2 : Int) ^ k) := by
  have h1 : (0 : Int) < 2 ^ k := by positivity
  have h2 : (2 : Int) ^ k ≤ 2 ^ 30 := pow_le_pow_right₀ (by norm_num) hk
  exact ⟨by linarith, by linarith⟩

theorem neg_pow_inInt32 (k : Nat) (hk : k ≤ 31) : InInt32 (-(2 : Int) ^ k) := by
  have h1 : (0 : Int) < 2 ^ k := by positivity
  have h2 : (2 : Int) ^ k ≤ 2 ^ 31 := pow_le_pow_right₀ (by norm_num) hk
  exact ⟨by linarith, by linarith⟩

/-- The `& (-1 << k)` coding of submission_217004269 agrees with the shift
coding for a representable value and a shift amount `0 .. 31`. -/
theorem floor_ss_217004269_eq (val r_shift ss_w_lg2 : Int) (hv : InInt32 val)
    (h1 : ss_w_lg2 ≤ r_shift) (hk : r_shift - ss_w_lg2 ≤ 31) :
    S217004269.floor_ss val r_shift ss_w_lg2 = floor_ss val r_shift ss_w_lg2 := by
  rw [floor_ss_eq_ediv_mul val r_shift ss_w_lg2 hv h1 hk]
  unfold S217004269.floor_ss shl32
  have hkn : (r_shift - ss_w_lg2).toNat ≤ 31 := by omega
  rw [show (-1 : Int) * 2 ^ (r_shift - ss_w_lg2).toNat = -2 ^ (r_shift - ss_w_lg2).toNat by ring,
    wrap32_eq_self (neg_pow_inInt32 _ hkn)]
  exact and32_neg_pow val _ hv hkn

/-- The `& ~((1 << k) - 1)` coding of submission_217703526 agrees with the
shift coding for a representable value and a shift amount `0 .. 30`. -/
theorem floor_ss_217703526_eq (val r_shift ss_w_lg2 : Int) (hv : InInt32 val)
    (h1 : ss_w_lg2 ≤ r_shift) (hk : r_shift - ss_w_lg2 ≤ 30) :
    S217703526.floor_ss val r_shift ss_w_lg2 = floor_ss val r_shift ss_w_lg2 := by
  rw [floor_ss_eq_ediv_mul val r_shift ss_w_lg2 hv h1 (by omega)]
  unfold S217703526.floor_ss shl32 not32
  have hkn : (r_shift - ss_w_lg2).toNat ≤ 30 := by omega
  have hp := pow_inInt32 _ hkn
  have hpos : (0 : Int) < 2 ^ (r_shift - ss_w_lg2).toNat := by positivity
  simp only
  rw [one_mul, wrap32_eq_self hp, wrap32_eq_self ⟨by linarith [hp.1], by linarith [hp.2]⟩,
    show -((2 : Int) ^ (r_shift - ss_w_lg2).toNat - 1) - 1 = -2 ^ (r_shift - ss_w_lg2).toNat
      by ring]
  exact and32_neg_pow val _ hv (by omega)

/-- C25: for every 32-bit `val` and `k = r_shift - ss_w_lg2` with
`0 <= k <= 30`, `val & ~((1 << k) - 1)` (submission_217703526) and
`val & (-1 << k)` (submission_217004269) both equal `(val >> k) << k` of
submission_216993263, the floor multiple of `2^k`. -/
theorem mask_floor_ss_agree (val r_shift ss_w_lg2 : Int) (hv : InInt32 val)
    (h1 : ss_w_lg2 ≤ r_shift) (hk : r_shift - ss_w_lg2 ≤ 30) :
    S217703526.floor_ss val r_shift ss_w_lg2 = floor_ss val r_shift ss_w_lg2 ∧
    S217004269.floor_ss val r_shift ss_w_lg2 = floor_ss val r_shift ss_w_lg2 ∧
    floor_ss val r_shift ss_w_lg2 =
      val / 2 ^ (r_shift - ss_w_lg2).toNat * 2 ^ (r_shift - ss_w_lg2).toNat :=
  ⟨floor_ss_217703526_eq val r_shift ss_w_lg2 hv h1 hk,
    floor_ss_217004269_eq val r_shift ss_w_lg2 hv h1 (by omega),
    floor_ss_eq_ediv_mul val r_shift ss_w_lg2 hv h1 (by omega)⟩

/-- Witness of C25 at `val = -5`, `r_shift = 10`, `ss_w_lg2 = 8`: all three
codings return `-8`. -/
theorem mask_floor_ss_agree_witness :
    S217703526.floor_ss (-5) 10 8 = -8 ∧ S217004269.floor_ss (-5) 10 8 = -8 ∧
    floor_ss (-5) 10 8 = -8 ∧
    S217703526.floor_ss (-5) 10 8 = floor_ss (-5) 10 8 :=
  ⟨by decide, by decide, by decide,
    (mask_floor_ss_agree (-5) 10 8 (by decide) (by decide) (by decide)).1⟩

/-! ## The loops with a coverage test as parameter -/

theorem sample_body_of_eq {ZBuff : Type} (pf : ZBuff → Sample → Sample → Fragment → ZBuff)
    (t : Triangle) (config : Config) (s : Sample) (st : RasterState ZBuff) :
    sample_body_of sample_test pf t config s st = sample_body pf t config s st := rfl

theorem inner_loop_of_eq {ZBuff : Type} (pf : ZBuff → Sample → Sample → Fragment → ZBuff)
    (t : Triangle) (config : Config) (bbox : BoundingBox) (sx : Int) :
    ∀ (fuel : Nat) (sy : Int) (st : RasterState ZBuff),
      inner_loop_of sample_test pf t config bbox sx fuel sy st =
        inner_loop pf t config bbox sx fuel sy st := by
  intro fuel
  induction fuel with
  | zero => intro sy st; rfl
  | succ n ih =>
    intro sy st
    simp only [inner_loop_of, inner_loop, ih, sample_body_of_eq]

theorem outer_loop_of_eq {ZBuff : Type} (pf : ZBuff → Sample → Sample → Fragment → ZBuff)
    (t : Triangle) (config : Config) (bbox : BoundingBox) (inner_fuel : Nat) :
    ∀ (fuel : Nat) (sx : Int) (st : RasterState ZBuff),
      outer_loop_of sample_test pf t config bbox inner_fuel fuel sx st =
        outer_loop pf t config bbox inner_fuel fuel sx st := by
  intro fuel
  induction fuel with
  | zero => intro sx st; rfl
  | succ n ih =>
    intro sx st
    simp only [outer_loop_of, outer_loop, ih, inner_loop_of_eq]

/-- The two loops over any box with corners inside the `int` range, a step of
at least 1 and enough fuel run the loop body over the samples of the box. -/
theorem loops_eq_run {ZBuff : Type} (pf : ZBuff → Sample → Sample → Fragment → ZBuff)
    (t : Triangle) (config : Config) (bbox : BoundingBox) (fuel : Nat)
    (st : RasterState ZBuff) (hd : 1 ≤ config.ss_i)
    (hlx : -2 ^ 31 ≤ bbox.lower_left.x) (hly : -2 ^ 31 ≤ bbox.lower_left.y)
    (hux : bbox.upper_right.x + config.ss_i < 2 ^ 31)
    (huy : bbox.upper_right.y + config.ss_i < 2 ^ 31)
    (hfx : steps bbox.lower_left.x bbox.upper_right.x config.ss_i < fuel)
    (hfy : steps bbox.lower_left.y bbox.upper_right.y config.ss_i < fuel) :
    outer_loop_of sample_test pf t config bbox fuel fuel bbox.lower_left.x st =
      some (run_samples pf t config (box_samples bbox config.ss_i) st) := by
  rw [outer_loop_of_eq]
  exact outer_loop_eq pf t config bbox fuel hd hux huy hly hfy _ _ st fuel hlx rfl hfx

/-- The state reached from the initial state by a run over a list of samples:
the counter, the calls and the tested positions. -/
theorem run_samples_init {ZBuff : Type} (pf : ZBuff → Sample → Sample → Fragment → ZBuff)
    (t : Triangle) (config : Config) (l : List Sample) (z : Option ZBuff) :
    (run_samples pf t config l { hit_count := 0, z := z, calls := [], tested := [] }).hit_count =
        wrap32 ((l.filter (is_hit t config)).length : Nat) ∧
    (run_samples pf t config l { hit_count := 0, z := z, calls := [], tested := [] }).calls =
        (if z.isSome = true then (l.filter (is_hit t config)).map (fragment_call t config)
          else []) ∧
    (run_samples pf t config l { hit_count := 0, z := z, calls := [], tested := [] }).tested =
        l.map (jittered_int config) := by
  refine ⟨?_, ?_, ?_⟩
  · have hc := run_samples_hit_count pf t config l
      { hit_count := 0, z := z, calls := [], tested := [] } 0
      (show (0 : Int) = wrap32 0 by decide)
    rw [hc, zero_add, List.countP_eq_length_filter]
    rfl
  · cases z with
    | none =>
      exact (run_samples_z_none pf t config l
        { hit_count := 0, z := none, calls := [], tested := [] } rfl).2
    | some zb =>
      have := (run_samples_z_some pf t config l
        { hit_count := 0, z := some zb, calls := [], tested := [] } rfl).2
      rw [this]
      simp
  · rw [run_samples_tested]
    simp

/-- A run over samples none of which is covered leaves the counter at 0 and
makes no call. -/
theorem run_samples_no_hit {ZBuff : Type} (pf : ZBuff → Sample → Sample → Fragment → ZBuff)
    (t : Triangle) (config : Config) (l : List Sample) (z : Option ZBuff)
    (h : ∀ s ∈ l, is_hit t config s = false) :
    (run_samples pf t config l { hit_count := 0, z := z, calls := [], tested := [] }).hit_count
        = 0 ∧
    (run_samples pf t config l { hit_count := 0, z := z, calls := [], tested := [] }).calls
        = [] := by
  obtain ⟨h1, h2, _⟩ := run_samples_init pf t config l z
  have hf : l.filter (is_hit t config) = [] := by
    rw [List.filter_eq_nil_iff]
    intro s hs
    rw [h s hs]
    simp
  rw [h1, h2, hf]
  constructor
  · decide
  · simp

/-- A sample of a box lies on its grid, between its corners. -/
theorem mem_box_samples (bbox : BoundingBox) (d : Int) (hd : 1 ≤ d) (s : Sample)
    (hs : s ∈ box_samples bbox d) :
    (bbox.lower_left.x ≤ s.x ∧ s.x ≤ bbox.upper_right.x) ∧
    (bbox.lower_left.y ≤ s.y ∧ s.y ≤ bbox.upper_right.y) := by
  rw [box_samples_eq_map, List.mem_map] at hs
  obtain ⟨⟨i, j⟩, hp, rfl⟩ := hs
  obtain ⟨hi, hj⟩ := List.mem_product.mp hp
  rw [List.mem_range, steps_spec _ _ _ hd] at hi hj
  have hi0 : 0 ≤ (i : Int) * d := mul_nonneg (by omega) (by omega)
  have hj0 : 0 ≤ (j : Int) * d := mul_nonneg (by omega) (by omega)
  exact ⟨⟨by simp only; omega, hi⟩, by simp only; omega, hj⟩

/-- Without overflow no sample of a triangle with signed area `A >= 0` passes
the coverage test. -/
theorem not_covered_of_area_nonneg (t : Triangle) (s : Sample)
    (h : SampleTestNoOverflow t s) (hA : 0 ≤ signed_area t) : sample_test t s = false := by
  rw [sample_test_eq_of_noOverflow t s h]
  have hsum := dist_sum_eq_signed_area t s
  by_contra hne
  simp only [Bool.not_eq_false, Bool.and_eq_true, decide_eq_true_eq] at hne
  omega

theorem box_samples_congr (b1 b2 : BoundingBox) (d : Int)
    (hl : b1.lower_left = b2.lower_left) (hu : b1.upper_right = b2.upper_right) :
    box_samples b1 d = box_samples b2 d := by
  unfold box_samples
  rw [hl, hu]

/-! ## submission_217004269 against submission_216993263 -/

theorem sample_test_217004269_eq : S217004269.sample_test = sample_test := rfl

theorem min3_217004269 (a b c : Int) :
    S217004269.min a (S217004269.min b c) = Min.min (Min.min a b) c := by
  unfold S217004269.min
  simp only [min_def]
  split_ifs <;> omega

theorem max3_217004269 (a b c : Int) :
    S217004269.max a (S217004269.max b c) = Max.max (Max.max a b) c := by
  unfold S217004269.max
  simp only [max_def]
  split_ifs <;> omega

/-- For `int` coordinates and a shift amount `0 .. 31` the box of
submission_217004269 has the corners of the box of submission_216993263. -/
theorem corners_217004269_eq (t : Triangle) (screen : Screen) (config : Config)
    (hc : CoordsInInt32 t) (h1 : config.ss_w_lg2 ≤ config.r_shift)
    (hk : config.r_shift - config.ss_w_lg2 ≤ 31) :
    (S217004269.get_bounding_box t screen config).lower_left =
      (get_bounding_box t screen config).lower_left ∧
    (S217004269.get_bounding_box t screen config).upper_right =
      (get_bounding_box t screen config).upper_right := by
  obtain ⟨⟨ax0, ax1, ax2⟩, ay0, ay1, ay2⟩ := hc
  obtain ⟨c1, c2, c3, c4⟩ := get_bounding_box_corners_eq t screen config
  have e1 := floor_ss_217004269_eq _ config.r_shift config.ss_w_lg2
    (inInt32_min3 ax0 ax1 ax2) h1 hk
  have e2 := floor_ss_217004269_eq _ config.r_shift config.ss_w_lg2
    (inInt32_min3 ay0 ay1 ay2) h1 hk
  have e3 := floor_ss_217004269_eq _ config.r_shift config.ss_w_lg2
    (inInt32_max3 ax0 ax1 ax2) h1 hk
  have e4 := floor_ss_217004269_eq _ config.r_shift config.ss_w_lg2
    (inInt32_max3 ay0 ay1 ay2) h1 hk
  constructor
  · have hx : (S217004269.get_bounding_box t screen config).lower_left.x =
        (get_bounding_box t screen config).lower_left.x := by
      rw [c1]
      simp only [S217004269.get_bounding_box, min3_217004269, e1, max_def]
      split_ifs <;> omega
    have hy : (S217004269.get_bounding_box t screen config).lower_left.y =
        (get_bounding_box t screen config).lower_left.y := by
      rw [c2]
      simp only [S217004269.get_bounding_box, min3_217004269, e2, max_def]
      split_ifs <;> omega
    cases hL : (S217004269.get_bounding_box t screen config).lower_left
    cases hR : (get_bounding_box t screen config).lower_left
    rw [hL] at hx hy
    rw [hR] at hx hy
    simp only at hx hy
    rw [hx, hy]
  · have hx : (S217004269.get_bounding_box t screen config).upper_right.x =
        (get_bounding_box t screen config).upper_right.x := by
      rw [c3]
      simp only [S217004269.get_bounding_box, max3_217004269, e3, min_def]
      split_ifs <;> omega
    have hy : (S217004269.get_bounding_box t screen config).upper_right.y =
        (get_bounding_box t screen config).upper_right.y := by
      rw [c4]
      simp only [S217004269.get_bounding_box, max3_217004269, e4, min_def]
      split_ifs <;> omega
    cases hL : (S217004269.get_bounding_box t screen config).upper_right
    cases hR : (get_bounding_box t screen config).upper_right
    rw [hL] at hx hy
    rw [hR] at hx hy
    simp only at hx hy
    rw [hx, hy]

/-- Without overflow, no sample in the box of a triangle that
`get_bounding_box` rejects is covered. -/
theorem no_hit_in_culled_box (t : Triangle) (screen : Screen) (config : Config)
    (hd : 1 ≤ config.ss_i) (hcull : CullNoOverflow t)
    (hno : ∀ s ∈ box_samples (get_bounding_box t screen config) config.ss_i,
      SampleTestNoOverflow t (jittered_int config s))
    (hv : (get_bounding_box t screen config).valid = false) :
    (box_samples (get_bounding_box t screen config) config.ss_i).filter
      (is_hit t config) = [] := by
  rw [List.filter_eq_nil_iff]
  intro s hs
  obtain ⟨⟨m1, m2⟩, m3, m4⟩ := mem_box_samples _ _ hd s hs
  rw [get_bounding_box_valid_eq t screen config hcull] at hv
  have hA : 0 ≤ signed_area t := by
    by_contra hlt
    have hlt' : signed_area t < 0 := by omega
    have h3 : (get_bounding_box t screen config).lower_left.x ≤
        (get_bounding_box t screen config).upper_right.x := le_trans m1 m2
    have h4 : (get_bounding_box t screen config).lower_left.y ≤
        (get_bounding_box t screen config).upper_right.y := le_trans m3 m4
    simp [hlt', h3, h4] at hv
  have := not_covered_of_area_nonneg t _ (hno s hs) hA
  unfold is_hit
  rw [this]
  simp

/-- C21: for `int` coordinates, `ss_w_lg2 <= r_shift` with a shift amount of
at most 31, `ss_i >= 1` and no arithmetic overflow (loop counters, the cull's
differences, and `sample_test` at every jittered sample of the box),
`rasterize_triangle` of submission_216993263 (cull and early return) and
`rasterize_triangle` of submission_217004269 (no cull, `bbox.valid` never
read) both return, with the same hit count and the same sequence of
`process_fragment` calls. -/
theorem cull_is_short_circuit {ZBuff : Type}
    (pf : ZBuff → Sample → Sample → Fragment → ZBuff) (t : Triangle) (z : Option ZBuff)
    (screen : Screen) (config : Config) (hc : CoordsInInt32 t)
    (h1 : config.ss_w_lg2 ≤ config.r_shift) (hk : config.r_shift - config.ss_w_lg2 ≤ 31)
    (hd : 1 ≤ config.ss_i)
    (hw : screen.width + config.ss_i < 2 ^ 31) (hh : screen.height + config.ss_i < 2 ^ 31)
    (hcull : CullNoOverflow t)
    (hno : ∀ s ∈ box_samples (get_bounding_box t screen config) config.ss_i,
      SampleTestNoOverflow t (jittered_int config s)) :
    ∃ fuel0 : Nat, ∀ fuel : Nat, fuel0 ≤ fuel →
      ∃ st1 st2, rasterize_triangle pf fuel t z screen config = some st1 ∧
        S217004269.rasterize_triangle pf fuel t z screen config = some st2 ∧
        st1.hit_count = st2.hit_count ∧ st1.calls = st2.calls := by
  refine ⟨enough_fuel t screen config, fun fuel hf => ?_⟩
  obtain ⟨st1, r1, k1, c1, _⟩ :=
    rasterize_triangle_result pf fuel t z screen config hd hw hh hf
  obtain ⟨hll, hur⟩ := corners_217004269_eq t screen config hc h1 hk
  obtain ⟨b1, b2, b3, b4⟩ := get_bounding_box_corners_eq t screen config
  have hux : (get_bounding_box t screen config).upper_right.x ≤ screen.width := by
    rw [b3]; exact min_le_left _ _
  have huy : (get_bounding_box t screen config).upper_right.y ≤ screen.height := by
    rw [b4]; exact min_le_left _ _
  have hlx : 0 ≤ (get_bounding_box t screen config).lower_left.x := by
    rw [b1]; exact le_max_left _ _
  have hly : 0 ≤ (get_bounding_box t screen config).lower_left.y := by
    rw [b2]; exact le_max_left _ _
  have hfx := le_max_left
    (steps (get_bounding_box t screen config).lower_left.x
      (get_bounding_box t screen config).upper_right.x config.ss_i)
    (steps (get_bounding_box t screen config).lower_left.y
      (get_bounding_box t screen config).upper_right.y config.ss_i)
  have hfy := le_max_right
    (steps (get_bounding_box t screen config).lower_left.x
      (get_bounding_box t screen config).upper_right.x config.ss_i)
    (steps (get_bounding_box t screen config).lower_left.y
      (get_bounding_box t screen config).upper_right.y config.ss_i)
  unfold enough_fuel at hf
  have r2 : S217004269.rasterize_triangle pf fuel t z screen config =
      some (run_samples pf t config
        (box_samples (get_bounding_box t screen config) config.ss_i)
        { hit_count := 0, z := z, calls := [], tested := [] }) := by
    unfold S217004269.rasterize_triangle
    simp only [sample_test_217004269_eq]
    rw [loops_eq_run pf t config _ fuel _ hd (by rw [hll]; omega) (by rw [hll]; omega)
      (by rw [hur]; omega) (by rw [hur]; omega) (by rw [hll, hur]; omega)
      (by rw [hll, hur]; omega),
      box_samples_congr _ (get_bounding_box t screen config) _ hll hur]
  obtain ⟨k2, c2, _⟩ := run_samples_init pf t config
    (box_samples (get_bounding_box t screen config) config.ss_i) z
  refine ⟨st1, _, r1, r2, ?_, ?_⟩
  · rw [k1, k2]
    unfold visited_samples
    cases hv : (get_bounding_box t screen config).valid
    · rw [no_hit_in_culled_box t screen config hd hcull hno hv]
      simp
    · simp
  · rw [c1, c2]
    unfold visited_samples
    cases hv : (get_bounding_box t screen config).valid
    · rw [no_hit_in_culled_box t screen config hd hcull hno hv]
      simp
    · simp

/-- Witness of C21 at the back-facing triangle `(0,0), (2048,0), (0,2048)` with
`r_shift = 10`, `ss_w_lg2 = 0`, `ss_i = 1024` on a `4096 x 4096` screen:
submission_216993263 returns at the cull having tested nothing,
submission_217004269 tests the nine samples of the box, and both report no
hit and no call. -/
theorem cull_is_short_circuit_witness :
    (rasterize_triangle (fun (n : Nat) _ _ _ => n + 1) 4
      ⟨⟨0, 0, 0, 0, 0, 0⟩, ⟨2048, 0, 0, 0, 0, 0⟩, ⟨0, 2048, 0, 0, 0, 0⟩⟩ (some 0)
      ⟨4096, 4096⟩ ⟨10, 0, 1024⟩).map
        (fun st => (st.hit_count, st.calls.length, st.tested.length)) = some (0, 0, 0) ∧
    (S217004269.rasterize_triangle (fun (n : Nat) _ _ _ => n + 1) 4
      ⟨⟨0, 0, 0, 0, 0, 0⟩, ⟨2048, 0, 0, 0, 0, 0⟩, ⟨0, 2048, 0, 0, 0, 0⟩⟩ (some 0)
      ⟨4096, 4096⟩ ⟨10, 0, 1024⟩).map
        (fun st => (st.hit_count, st.calls.length, st.tested.length)) = some (0, 0, 9) ∧
    ∃ fuel0 : Nat, ∀ fuel : Nat, fuel0 ≤ fuel →
      ∃ st1 st2, rasterize_triangle (fun (n : Nat) _ _ _ => n + 1) fuel
          ⟨⟨0, 0, 0, 0, 0, 0⟩, ⟨2048, 0, 0, 0, 0, 0⟩, ⟨0, 2048, 0, 0, 0, 0⟩⟩ (some 0)
          ⟨4096, 4096⟩ ⟨10, 0, 1024⟩ = some st1 ∧
        S217004269.rasterize_triangle (fun (n : Nat) _ _ _ => n + 1) fuel
          ⟨⟨0, 0, 0, 0, 0, 0⟩, ⟨2048, 0, 0, 0, 0, 0⟩, ⟨0, 2048, 0, 0, 0, 0⟩⟩ (some 0)
          ⟨4096, 4096⟩ ⟨10, 0, 1024⟩ = some st2 ∧
        st1.hit_count = st2.hit_count ∧ st1.calls = st2.calls :=
  ⟨by decide, by decide,
    cull_is_short_circuit _ _ _ _ _ (by decide) (by decide) (by decide) (by decide)
      (by decide) (by decide) (by decide) (by decide)⟩

/-! ## Number of loop rounds -/

theorem steps_cast (lo hi d : Int) (hd : 1 ≤ d) :
    ((steps lo hi d : Nat) : Int) = Max.max 0 ((hi - lo) / d + 1) := by
  unfold steps
  split_ifs with h
  · have hq : 0 ≤ (hi - lo) / d := Int.ediv_nonneg (by omega) (by omega)
    push_cast
    rw [Int.toNat_of_nonneg hq, max_eq_right (by omega)]
  · have hq : (hi - lo) / d < 0 := Int.ediv_neg' (by omega) (by omega)
    rw [max_eq_left (by omega)]
    rfl

theorem box_samples_length_cast (bbox : BoundingBox) (d : Int) (hd : 1 ≤ d) :
    (((box_samples bbox d).length : Nat) : Int) = clamped_loop_bound bbox d := by
  rw [box_samples_length]
  push_cast
  rw [steps_cast _ _ _ hd, steps_cast _ _ _ hd]
  rfl

/-- The corners of a valid box are ordered on both axes. -/
theorem corners_ordered_of_valid (t : Triangle) (screen : Screen) (config : Config)
    (hv : (get_bounding_box t screen config).valid = true) :
    (get_bounding_box t screen config).lower_left.x ≤
      (get_bounding_box t screen config).upper_right.x ∧
    (get_bounding_box t screen config).lower_left.y ≤
      (get_bounding_box t screen config).upper_right.y := by
  simp only [get_bounding_box] at hv ⊢
  split_ifs at hv
  simp only [Bool.and_eq_true, decide_eq_true_eq] at hv
  exact hv

/-! ## Rounding in the other submissions -/

/-- C24: at `val = -5` with `r_shift = 10`, `ss_w_lg2 = 8` (grid step 4) the
remainder-based `floor_ss` of submission_217160821 returns `-4`, which is
above `val`; the greatest multiple of 4 that is `<= -5`, returned by the
shift-based `floor_ss`, is `-8`. -/
theorem floor_ss_217160821_truncates :
    S217160821.floor_ss (-5) 10 8 = -4 ∧ floor_ss (-5) 10 8 = -8 ∧
      ¬ S217160821.floor_ss (-5) 10 8 ≤ -5 := by
  decide

/-- C26 as stated fails: at `val = 2^30` with `r_shift = 10`, `ss_w_lg2 = 2`
the first shift `val << ss_w_lg2` wraps to 0, so the `floor_ss` of
submission_217052547 returns 0, while the shift-based one returns `2^30`. -/
theorem floor_ss_217052547_counterexample :
    InInt32 1073741824 ∧ S217052547.floor_ss 1073741824 10 2 = 0 ∧
      floor_ss 1073741824 10 2 = 1073741824 := by
  decide

/-- A representable multiple `val * 2^w` has a representable `val`. -/
theorem inInt32_of_mul_pow (val : Int) (w : Nat) (h : InInt32 (val * 2 ^ w)) :
    InInt32 val := by
  have hP : (1 : Int) ≤ 2 ^ w := one_le_pow₀ (by norm_num)
  obtain ⟨hlo, hhi⟩ := h
  constructor
  · rcases le_or_lt 0 val with hv | hv
    · have : (-2 : Int) ^ 31 < 0 := by norm_num
      linarith
    · nlinarith
  · rcases le_or_lt 0 val with hv | hv
    · nlinarith
    · have : (0 : Int) < 2 ^ 31 := by norm_num
      linarith

/-- C26 (amended): when `0 <= ss_w_lg2 <= r_shift <= 31` and the first shift
`val << ss_w_lg2` does not overflow, the `floor_ss` of submission_217052547
returns the same value as the shift-based `floor_ss`. -/
theorem floor_ss_217052547_eq (val r_shift ss_w_lg2 : Int)
    (h0 : 0 ≤ ss_w_lg2) (h1 : ss_w_lg2 ≤ r_shift) (hr : r_shift ≤ 31)
    (hv : InInt32 (val * 2 ^ ss_w_lg2.toNat)) :
    S217052547.floor_ss val r_shift ss_w_lg2 = floor_ss val r_shift ss_w_lg2 := by
  have hval : InInt32 val := inInt32_of_mul_pow val _ hv
  rw [floor_ss_eq_ediv_mul val r_shift ss_w_lg2 hval h1 (by omega)]
  unfold S217052547.floor_ss shl32 shr
  simp only
  have hrn : r_shift.toNat ≤ 31 := by omega
  have hsplit : r_shift.toNat = (r_shift - ss_w_lg2).toNat + ss_w_lg2.toNat := by omega
  have hW : (0 : Int) < 2 ^ ss_w_lg2.toNat := by positivity
  have hpow : (2 : Int) ^ r_shift.toNat =
      2 ^ (r_shift - ss_w_lg2).toNat * 2 ^ ss_w_lg2.toNat := by
    rw [hsplit, pow_add]
  rw [wrap32_eq_self hv, wrap32_eq_self (inInt32_ediv_mul_pow _ _ hrn hv)]
  have hq : val * 2 ^ ss_w_lg2.toNat / 2 ^ r_shift.toNat =
      val / 2 ^ (r_shift - ss_w_lg2).toNat := by
    rw [hpow]
    exact Int.mul_ediv_mul_of_pos_left val _ hW
  rw [hq, hpow, ← mul_assoc]
  exact Int.mul_ediv_cancel _ (ne_of_gt hW)

theorem floor_ss_217052547_eq_witness :
    S217052547.floor_ss (-5) 10 8 = floor_ss (-5) 10 8 ∧ floor_ss (-5) 10 8 = -8 :=
  ⟨floor_ss_217052547_eq (-5) 10 8 (by decide) (by decide) (by decide) (by decide),
    by decide⟩

/-! ## The three codings of the coverage test -/

/-- The early-return coding of submission_217160821 computes the same boolean
as `sample_test`, overflow or not: the three edge functions are the same
`int` expressions and a `return false` is the negation of a conjunct. -/
theorem sample_test_217160821_eq (t : Triangle) (s : Sample) :
    S217160821.sample_test t s = sample_test t s := by
  unfold S217160821.sample_test sample_test
  simp only
  by_cases h0 : wrap32 (wrap32 (wrap32 (t.v0.x - s.x) * wrap32 (t.v1.y - s.y)) -
      wrap32 (wrap32 (t.v1.x - s.x) * wrap32 (t.v0.y - s.y))) > 0
  · rw [if_pos h0]
    simp [not_le.mpr h0]
  · rw [if_neg h0]
    by_cases h1 : wrap32 (wrap32 (wrap32 (t.v1.x - s.x) * wrap32 (t.v2.y - s.y)) -
        wrap32 (wrap32 (t.v2.x - s.x) * wrap32 (t.v1.y - s.y))) ≥ 0
    · rw [if_pos h1]
      simp [not_lt.mpr h1]
    · rw [if_neg h1]
      by_cases h2 : wrap32 (wrap32 (wrap32 (t.v2.x - s.x) * wrap32 (t.v0.y - s.y)) -
          wrap32 (wrap32 (t.v0.x - s.x) * wrap32 (t.v2.y - s.y))) > 0
      · rw [if_pos h2]
        simp [not_le.mpr h2]
      · rw [if_neg h2]
        simp [not_lt.mp h0, not_le.mp h1, not_lt.mp h2]

/-- Without overflow the product-comparing coding of submission_216981761
computes the three comparisons of the edge functions with 0. -/
theorem sample_test_216981761_eq (t : Triangle) (s : Sample)
    (h : SampleTestNoOverflow t s) :
    S216981761.sample_test t s = sample_test t s := by
  rw [sample_test_eq_of_noOverflow t s h]
  obtain ⟨⟨a0, a1, a2, a3, a4, a5⟩, ⟨p0, p1, p2, p3, p4, p5⟩, -, -, -⟩ := h
  simp only [S216981761.sample_test, dist0, dist1, dist2, wrap32_eq_self a0,
    wrap32_eq_self a1, wrap32_eq_self a2, wrap32_eq_self a3, wrap32_eq_self a4,
    wrap32_eq_self a5, wrap32_eq_self p0, wrap32_eq_self p1, wrap32_eq_self p2,
    wrap32_eq_self p3, wrap32_eq_self p4, wrap32_eq_self p5, sub_nonpos, sub_neg]

/-- C27: without arithmetic overflow, `sample_test` of submission_216981761
(products compared with each other) and `sample_test` of submission_217160821
(early `return false` on `edgeTest > 0`, `>= 0`, `> 0`) return the same
boolean as `sample_test` of submission_216993263. -/
theorem sample_test_codings_agree (t : Triangle) (s : Sample)
    (h : SampleTestNoOverflow t s) :
    S216981761.sample_test t s = sample_test t s ∧
      S217160821.sample_test t s = sample_test t s :=
  ⟨sample_test_216981761_eq t s h, sample_test_217160821_eq t s⟩

theorem sample_test_codings_agree_witness :
    SampleTestNoOverflow
        ⟨⟨0, 0, 0, 0, 0, 0⟩, ⟨0, 2048, 0, 0, 0, 0⟩, ⟨2048, 0, 0, 0, 0, 0⟩⟩ ⟨512, 512⟩ ∧
      sample_test
        ⟨⟨0, 0, 0, 0, 0, 0⟩, ⟨0, 2048, 0, 0, 0, 0⟩, ⟨2048, 0, 0, 0, 0, 0⟩⟩ ⟨512, 512⟩ = true ∧
      S216981761.sample_test
        ⟨⟨0, 0, 0, 0, 0, 0⟩, ⟨0, 2048, 0, 0, 0, 0⟩, ⟨2048, 0, 0, 0, 0, 0⟩⟩ ⟨512, 512⟩ =
        sample_test
          ⟨⟨0, 0, 0, 0, 0, 0⟩, ⟨0, 2048, 0, 0, 0, 0⟩, ⟨2048, 0, 0, 0, 0, 0⟩⟩ ⟨512, 512⟩ ∧
      S217160821.sample_test
        ⟨⟨0, 0, 0, 0, 0, 0⟩, ⟨0, 2048, 0, 0, 0, 0⟩, ⟨2048, 0, 0, 0, 0, 0⟩⟩ ⟨512, 512⟩ =
        sample_test
          ⟨⟨0, 0, 0, 0, 0, 0⟩, ⟨0, 2048, 0, 0, 0, 0⟩, ⟨2048, 0, 0, 0, 0, 0⟩⟩ ⟨512, 512⟩ :=
  ⟨by decide, by decide, sample_test_codings_agree _ _ (by decide)⟩

/-! ## submission_216537555: an invalid box yields no fragment -/

theorem sample_test_216537555_eq : S216537555.sample_test = sample_test := rfl

/-- The clip of submission_216537555 puts the lower-left corner at or above 0
and the upper-right corner at or below the screen size. -/
theorem corners_216537555_clipped (t : Triangle) (screen : Screen) (config : Config) :
    0 ≤ (S216537555.get_bounding_box t screen config).lower_left.x ∧
    0 ≤ (S216537555.get_bounding_box t screen config).lower_left.y ∧
    (S216537555.get_bounding_box t screen config).upper_right.x ≤ screen.width ∧
    (S216537555.get_bounding_box t screen config).upper_right.y ≤ screen.height := by
  unfold S216537555.get_bounding_box
  simp only
  refine ⟨?_, ?_, ?_, ?_⟩ <;> split_ifs <;> omega

/-- Without overflow the `int` cull of submission_216537555 computes the signed
area: `valid` is false exactly when the clipped corners are out of order or
`A > 0`. -/
theorem valid_216537555_eq (t : Triangle) (screen : Screen) (config : Config)
    (hc : S216537555.CullNoOverflow t) :
    (S216537555.get_bounding_box t screen config).valid =
      ((decide ((S216537555.get_bounding_box t screen config).lower_left.x ≤
          (S216537555.get_bounding_box t screen config).upper_right.x) &&
        decide ((S216537555.get_bounding_box t screen config).lower_left.y ≤
          (S216537555.get_bounding_box t screen config).upper_right.y)) &&
        !decide (signed_area t > 0)) := by
  obtain ⟨⟨a0, a1, a2, a3⟩, ⟨p0, p1⟩, d⟩ := hc
  have hA : (t.v1.x - t.v0.x) * (t.v2.y - t.v1.y) - (t.v2.x - t.v1.x) * (t.v1.y - t.v0.y) =
      signed_area t := by
    unfold signed_area
    ring
  have d2 : InInt32 (signed_area t) := hA ▸ d
  simp only [S216537555.get_bounding_box, wrap32_eq_self d2, wrap32_eq_self a0, wrap32_eq_self a1,
    wrap32_eq_self a2, wrap32_eq_self a3, wrap32_eq_self p0, wrap32_eq_self p1,
    wrap32_eq_self d, hA]

/-- C28: in submission_216537555, with `ss_i >= 1` and no arithmetic overflow
(loop counters, cull, coverage test at the visited samples), when
`get_bounding_box` returns `valid = false` the loops of `rasterize_triangle`,
which never consult the flag, end with hit count 0 and no call of
`process_fragment`. -/
theorem rasterize_triangle_216537555_invalid {ZBuff : Type}
    (pf : ZBuff → Sample → Sample → Fragment → ZBuff) (t : Triangle) (z : Option ZBuff)
    (screen : Screen) (config : Config) (hd : 1 ≤ config.ss_i)
    (hw : screen.width + config.ss_i < 2 ^ 31) (hh : screen.height + config.ss_i < 2 ^ 31)
    (hcull : S216537555.CullNoOverflow t)
    (hno : ∀ s ∈ box_samples (S216537555.get_bounding_box t screen config) config.ss_i,
      SampleTestNoOverflow t (jittered_int config s))
    (hv : (S216537555.get_bounding_box t screen config).valid = false) :
    ∃ fuel0 : Nat, ∀ fuel : Nat, fuel0 ≤ fuel →
      ∃ st, S216537555.rasterize_triangle pf fuel t z screen config = some st ∧
        st.hit_count = 0 ∧ st.calls = [] := by
  obtain ⟨c1, c2, c3, c4⟩ := corners_216537555_clipped t screen config
  refine ⟨Max.max
    (steps (S216537555.get_bounding_box t screen config).lower_left.x
      (S216537555.get_bounding_box t screen config).upper_right.x config.ss_i)
    (steps (S216537555.get_bounding_box t screen config).lower_left.y
      (S216537555.get_bounding_box t screen config).upper_right.y config.ss_i) + 1, ?_⟩
  intro fuel hfuel
  have hfx : steps (S216537555.get_bounding_box t screen config).lower_left.x
      (S216537555.get_bounding_box t screen config).upper_right.x config.ss_i < fuel := by
    omega
  have hfy : steps (S216537555.get_bounding_box t screen config).lower_left.y
      (S216537555.get_bounding_box t screen config).upper_right.y config.ss_i < fuel := by
    omega
  have hrun : S216537555.rasterize_triangle pf fuel t z screen config =
      some (run_samples pf t config
        (box_samples (S216537555.get_bounding_box t screen config) config.ss_i)
        { hit_count := 0, z := z, calls := [], tested := [] }) := by
    unfold S216537555.rasterize_triangle
    rw [sample_test_216537555_eq]
    exact loops_eq_run pf t config _ fuel _ hd (by omega) (by omega) (by omega) (by omega)
      hfx hfy
  refine ⟨_, hrun, ?_⟩
  apply run_samples_no_hit
  intro s hs
  obtain ⟨⟨m1, m2⟩, m3, m4⟩ := mem_box_samples _ _ hd s hs
  rw [valid_216537555_eq t screen config hcull] at hv
  have hA : 0 ≤ signed_area t := by
    by_contra hlt
    have h1 : (S216537555.get_bounding_box t screen config).lower_left.x ≤
        (S216537555.get_bounding_box t screen config).upper_right.x := by omega
    have h2 : (S216537555.get_bounding_box t screen config).lower_left.y ≤
        (S216537555.get_bounding_box t screen config).upper_right.y := by omega
    have h3 : ¬ signed_area t > 0 := by omega
    simp [h1, h2, h3] at hv
  exact not_covered_of_area_nonneg t _ (hno s hs) hA

theorem rasterize_triangle_216537555_invalid_witness :
    (S216537555.get_bounding_box
      ⟨⟨0, 0, 0, 0, 0, 0⟩, ⟨2048, 0, 0, 0, 0, 0⟩, ⟨0, 2048, 0, 0, 0, 0⟩⟩
      ⟨4096, 4096⟩ ⟨10, 0, 1024⟩).valid = false ∧
    (S216537555.rasterize_triangle (fun (n : Nat) _ _ _ => n + 1) 4
      ⟨⟨0, 0, 0, 0, 0, 0⟩, ⟨2048, 0, 0, 0, 0, 0⟩, ⟨0, 2048, 0, 0, 0, 0⟩⟩ (some 0)
      ⟨4096, 4096⟩ ⟨10, 0, 1024⟩).map
        (fun st => (st.hit_count, st.calls.length, st.tested.length)) = some (0, 0, 9) ∧
    ∃ fuel0 : Nat, ∀ fuel : Nat, fuel0 ≤ fuel →
      ∃ st, S216537555.rasterize_triangle (fun (n : Nat) _ _ _ => n + 1) fuel
          ⟨⟨0, 0, 0, 0, 0, 0⟩, ⟨2048, 0, 0, 0, 0, 0⟩, ⟨0, 2048, 0, 0, 0, 0⟩⟩ (some 0)
          ⟨4096, 4096⟩ ⟨10, 0, 1024⟩ = some st ∧
        st.hit_count = 0 ∧ st.calls = [] :=
  ⟨by decide, by decide,
    rasterize_triangle_216537555_invalid _ _ _ _ _ (by decide) (by decide) (by decide)
      (by decide) (by decide) (by decide)⟩

/-! ## Departures of single submissions from the documented contract -/

/-- C29: submission_217019684 on the front-facing triangle `(0,0)`, `(0,500)`,
`(500,0)`, screen `4096 x 4096`, `r_shift = 10`, `ss_w_lg2 = 0`,
`ss_i = 1024`: the box is the single point `(0,0)` and `get_bounding_box`
returns `valid = false`, yet `rasterize_triangle` enters the loops, tests the
sample `(0,0)`, counts one hit and makes one call of `process_fragment`. -/
theorem rasterize_triangle_217019684_invalid_hit :
    signed_area ⟨⟨0, 0, 7, 1, 2, 3⟩, ⟨0, 500, 0, 0, 0, 0⟩, ⟨500, 0, 0, 0, 0, 0⟩⟩ < 0 ∧
    S217019684.get_bounding_box
        ⟨⟨0, 0, 7, 1, 2, 3⟩, ⟨0, 500, 0, 0, 0, 0⟩, ⟨500, 0, 0, 0, 0, 0⟩⟩
        ⟨4096, 4096⟩ ⟨10, 0, 1024⟩ =
      { lower_left := ⟨0, 0⟩, upper_right := ⟨0, 0⟩, valid := false } ∧
    (S217019684.rasterize_triangle (fun (n : Nat) _ _ _ => n + 1) 2
        ⟨⟨0, 0, 7, 1, 2, 3⟩, ⟨0, 500, 0, 0, 0, 0⟩, ⟨500, 0, 0, 0, 0, 0⟩⟩ (some 0)
        ⟨4096, 4096⟩ ⟨10, 0, 1024⟩).map (fun st => (st.hit_count, st.calls, st.z)) =
      some (1, [⟨⟨0, 0⟩, ⟨0, 0⟩, ⟨7, 1, 2, 3⟩⟩], some 1) := by
  decide

/-- C30: submission_216981761 on the triangle `(100,-3000)`, `(100,100)`,
`(6000,-3000)`, screen `4096 x 4096`, `r_shift = 10`, `ss_w_lg2 = 0`: the
clip tests `lower_left.x` and `upper_right.y` twice each and never touches
`lower_left.y` and `upper_right.x`, so the returned box has
`lower_left.y = -3072 < 0` and `upper_right.x = 5120 > screen.width`, and it
is reported valid. -/
theorem get_bounding_box_216981761_unclipped :
    S216981761.get_bounding_box
        ⟨⟨100, -3000, 0, 0, 0, 0⟩, ⟨100, 100, 0, 0, 0, 0⟩, ⟨6000, -3000, 0, 0, 0, 0⟩⟩
        ⟨4096, 4096⟩ ⟨10, 0, 1024⟩ =
      { lower_left := ⟨0, -3072⟩, upper_right := ⟨5120, 0⟩, valid := true } ∧
    ¬ (0 ≤ (S216981761.get_bounding_box
        ⟨⟨100, -3000, 0, 0, 0, 0⟩, ⟨100, 100, 0, 0, 0, 0⟩, ⟨6000, -3000, 0, 0, 0, 0⟩⟩
        ⟨4096, 4096⟩ ⟨10, 0, 1024⟩).lower_left.y) ∧
    ¬ ((S216981761.get_bounding_box
        ⟨⟨100, -3000, 0, 0, 0, 0⟩, ⟨100, 100, 0, 0, 0, 0⟩, ⟨6000, -3000, 0, 0, 0, 0⟩⟩
        ⟨4096, 4096⟩ ⟨10, 0, 1024⟩).upper_right.x ≤ 4096) ∧
    get_bounding_box
        ⟨⟨100, -3000, 0, 0, 0, 0⟩, ⟨100, 100, 0, 0, 0, 0⟩, ⟨6000, -3000, 0, 0, 0, 0⟩⟩
        ⟨4096, 4096⟩ ⟨10, 0, 1024⟩ =
      { lower_left := ⟨0, 0⟩, upper_right := ⟨4096, 0⟩, valid := true } := by
  decide

/-- C31: submission_216537555 on the collinear triangle `(0,0)`, `(1024,1024)`,
`(2048,2048)`, screen `4096 x 4096`, `r_shift = 10`, `ss_w_lg2 = 0`: the
signed area is 0 and no operation overflows, the cull tests `angle_lg > 0`
only, and `get_bounding_box` returns `valid = true`; the `get_bounding_box` of
submission_216993263 returns `valid = false` for the same input. -/
theorem get_bounding_box_216537555_degenerate :
    signed_area
      ⟨⟨0, 0, 0, 0, 0, 0⟩, ⟨1024, 1024, 0, 0, 0, 0⟩, ⟨2048, 2048, 0, 0, 0, 0⟩⟩ = 0 ∧
    S216537555.CullNoOverflow
      ⟨⟨0, 0, 0, 0, 0, 0⟩, ⟨1024, 1024, 0, 0, 0, 0⟩, ⟨2048, 2048, 0, 0, 0, 0⟩⟩ ∧
    (S216537555.get_bounding_box
      ⟨⟨0, 0, 0, 0, 0, 0⟩, ⟨1024, 1024, 0, 0, 0, 0⟩, ⟨2048, 2048, 0, 0, 0, 0⟩⟩
      ⟨4096, 4096⟩ ⟨10, 0, 1024⟩).valid = true ∧
    (get_bounding_box
      ⟨⟨0, 0, 0, 0, 0, 0⟩, ⟨1024, 1024, 0, 0, 0, 0⟩, ⟨2048, 2048, 0, 0, 0, 0⟩⟩
      ⟨4096, 4096⟩ ⟨10, 0, 1024⟩).valid = false := by
  decide

/-! ## Sign convention shared by the cull and the coverage test -/

theorem wrap32_zero : wrap32 0 = 0 := by decide

/-- The coverage test is the conjunction of the three sign tests on the values
of its locals. -/
theorem sample_test_eq_dists (t : Triangle) (s : Sample) :
    sample_test t s = (decide ((sample_test_dists t s).1 ≤ 0) &&
      decide ((sample_test_dists t s).2.1 < 0) && decide ((sample_test_dists t s).2.2 ≤ 0)) :=
  rfl

/-- The box of a triangle is valid only if the local `cross` is negative. -/
theorem cull_cross_neg_of_valid (t : Triangle) (screen : Screen) (config : Config)
    (hv : (get_bounding_box t screen config).valid = true) : cull_cross t < 0 := by
  by_contra hc
  have hc2 : cull_cross t ≥ 0 := by omega
  unfold cull_cross at hc2
  simp only [get_bounding_box, hc2, if_true] at hv
  exact Bool.false_ne_true hv

/-- C32: without overflow the three edge functions that `sample_test` computes
at any sample `s` sum to the value `cross` that `get_bounding_box` computes
for the cull, and that value is the signed area
`(v1.x-v0.x)*(v2.y-v0.y) - (v2.x-v0.x)*(v1.y-v0.y)`, whatever `s` is;
`sample_test` is the conjunction of the sign tests on the three edge functions
and a valid box has `cross < 0`. -/
theorem edge_functions_sum_to_area (t : Triangle) (s : Sample)
    (h : SampleTestNoOverflow t s) (hc : CullNoOverflow t) :
    (sample_test_dists t s).1 + (sample_test_dists t s).2.1 + (sample_test_dists t s).2.2 =
      cull_cross t ∧
    cull_cross t =
      (t.v1.x - t.v0.x) * (t.v2.y - t.v0.y) - (t.v2.x - t.v0.x) * (t.v1.y - t.v0.y) ∧
    sample_test t s = (decide ((sample_test_dists t s).1 ≤ 0) &&
      decide ((sample_test_dists t s).2.1 < 0) && decide ((sample_test_dists t s).2.2 ≤ 0)) ∧
    ∀ (screen : Screen) (config : Config),
      (get_bounding_box t screen config).valid = true → cull_cross t < 0 := by
  obtain ⟨⟨a0, a1, a2, a3, a4, a5⟩, ⟨p0, p1, p2, p3, p4, p5⟩, d0, d1, d2⟩ := h
  obtain ⟨c0, c1, c2, c3⟩ := hc
  unfold dist0 at d0
  unfold dist1 at d1
  unfold dist2 at d2
  have hcross : cull_cross t =
      (t.v1.x - t.v0.x) * (t.v2.y - t.v0.y) - (t.v2.x - t.v0.x) * (t.v1.y - t.v0.y) := by
    unfold cull_cross
    simp only [wrap32_eq_self c0, wrap32_eq_self c1, wrap32_eq_self c2, wrap32_eq_self c3]
    rw [wrap64_cross_exact c0 c1 c2 c3]
    ring
  refine ⟨?_, hcross, sample_test_eq_dists t s, fun screen config hv =>
    cull_cross_neg_of_valid t screen config hv⟩
  rw [hcross]
  simp only [sample_test_dists, wrap32_eq_self a0, wrap32_eq_self a1, wrap32_eq_self a2,
    wrap32_eq_self a3, wrap32_eq_self a4, wrap32_eq_self a5, wrap32_eq_self p0,
    wrap32_eq_self p1, wrap32_eq_self p2, wrap32_eq_self p3, wrap32_eq_self p4,
    wrap32_eq_self p5, wrap32_eq_self d0, wrap32_eq_self d1, wrap32_eq_self d2]
  ring

theorem edge_functions_sum_to_area_witness :
    sample_test_dists
        ⟨⟨0, 0, 0, 0, 0, 0⟩, ⟨0, 2048, 0, 0, 0, 0⟩, ⟨2048, 0, 0, 0, 0, 0⟩⟩ ⟨512, 512⟩ =
      (-1048576, -2097152, -1048576) ∧
    cull_cross ⟨⟨0, 0, 0, 0, 0, 0⟩, ⟨0, 2048, 0, 0, 0, 0⟩, ⟨2048, 0, 0, 0, 0, 0⟩⟩ = -4194304 ∧
    (sample_test_dists
        ⟨⟨0, 0, 0, 0, 0, 0⟩, ⟨0, 2048, 0, 0, 0, 0⟩, ⟨2048, 0, 0, 0, 0, 0⟩⟩ ⟨512, 512⟩).1 +
      (sample_test_dists
        ⟨⟨0, 0, 0, 0, 0, 0⟩, ⟨0, 2048, 0, 0, 0, 0⟩, ⟨2048, 0, 0, 0, 0, 0⟩⟩ ⟨512, 512⟩).2.1 +
      (sample_test_dists
        ⟨⟨0, 0, 0, 0, 0, 0⟩, ⟨0, 2048, 0, 0, 0, 0⟩, ⟨2048, 0, 0, 0, 0, 0⟩⟩ ⟨512, 512⟩).2.2 =
      cull_cross ⟨⟨0, 0, 0, 0, 0, 0⟩, ⟨0, 2048, 0, 0, 0, 0⟩, ⟨2048, 0, 0, 0, 0, 0⟩⟩ :=
  ⟨by decide, by decide,
    (edge_functions_sum_to_area
      ⟨⟨0, 0, 0, 0, 0, 0⟩, ⟨0, 2048, 0, 0, 0, 0⟩, ⟨2048, 0, 0, 0, 0, 0⟩⟩ ⟨512, 512⟩
      (by decide) (by decide)).1⟩

/-! ## Coverage of the triangle's own corners -/

/-- The coverage test at `v[1]` fails, overflow or not: edge function 1 is 0
there and its test is strict. -/
theorem sample_test_at_v1 (t : Triangle) : sample_test t t.v1.toSample = false := by
  simp [sample_test, Vertex.toSample, wrap32_zero]

/-- The coverage test at `v[2]` fails, overflow or not. -/
theorem sample_test_at_v2 (t : Triangle) : sample_test t t.v2.toSample = false := by
  simp [sample_test, Vertex.toSample, wrap32_zero]

/-- Without overflow the coverage test at `v[0]` of a front-facing triangle
succeeds: edge functions 0 and 2 are 0 and edge function 1 is the area. -/
theorem sample_test_at_v0 (t : Triangle) (hA : signed_area t < 0)
    (h : SampleTestNoOverflow t t.v0.toSample) : sample_test t t.v0.toSample = true := by
  rw [sample_test_eq_of_noOverflow t _ h]
  have hsum := dist_sum_eq_signed_area t t.v0.toSample
  have e0 : dist0 t t.v0.toSample = 0 := by
    simp [dist0, Vertex.toSample]
  have e2 : dist2 t t.v0.toSample = 0 := by
    simp [dist2, Vertex.toSample]
  have e1 : dist1 t t.v0.toSample < 0 := by omega
  simp [e0, e2, e1]

/-- C33 (amended): without overflow `sample_test` at the sample equal to `v0` is true for
every front-facing triangle (`A < 0`); for every triangle `sample_test` at the
sample equal to `v1` and at the sample equal to `v2` is false. So the vertex
that is covered is the one listed first: after rotating the vertex list to
`(v1, v2, v0)`, which keeps the winding, the old `v0` is no longer covered. -/
theorem vertex_coverage (t : Triangle) :
    (signed_area t < 0 → SampleTestNoOverflow t t.v0.toSample →
      sample_test t t.v0.toSample = true) ∧
    sample_test t t.v1.toSample = false ∧
    sample_test t t.v2.toSample = false ∧
    signed_area t.rotate = signed_area t ∧
    sample_test t.rotate t.v0.toSample = false :=
  ⟨sample_test_at_v0 t, sample_test_at_v1 t, sample_test_at_v2 t,
    by unfold signed_area Triangle.rotate; ring, sample_test_at_v2 t.rotate⟩

theorem vertex_coverage_witness :
    signed_area ⟨⟨0, 0, 0, 0, 0, 0⟩, ⟨0, 2048, 0, 0, 0, 0⟩, ⟨2048, 0, 0, 0, 0, 0⟩⟩ < 0 ∧
    sample_test ⟨⟨0, 0, 0, 0, 0, 0⟩, ⟨0, 2048, 0, 0, 0, 0⟩, ⟨2048, 0, 0, 0, 0, 0⟩⟩
      ⟨0, 0⟩ = true ∧
    sample_test ⟨⟨0, 0, 0, 0, 0, 0⟩, ⟨0, 2048, 0, 0, 0, 0⟩, ⟨2048, 0, 0, 0, 0, 0⟩⟩
      ⟨0, 2048⟩ = false ∧
    sample_test ⟨⟨0, 0, 0, 0, 0, 0⟩, ⟨0, 2048, 0, 0, 0, 0⟩, ⟨2048, 0, 0, 0, 0, 0⟩⟩
      ⟨2048, 0⟩ = false :=
  ⟨by decide,
    (vertex_coverage
      ⟨⟨0, 0, 0, 0, 0, 0⟩, ⟨0, 2048, 0, 0, 0, 0⟩, ⟨2048, 0, 0, 0, 0, 0⟩⟩).1
      (by decide) (by decide),
    (vertex_coverage
      ⟨⟨0, 0, 0, 0, 0, 0⟩, ⟨0, 2048, 0, 0, 0, 0⟩, ⟨2048, 0, 0, 0, 0, 0⟩⟩).2.1,
    (vertex_coverage
      ⟨⟨0, 0, 0, 0, 0, 0⟩, ⟨0, 2048, 0, 0, 0, 0⟩, ⟨2048, 0, 0, 0, 0, 0⟩⟩).2.2.1⟩

/-! ## Closed form of the hash and of the jitter -/

theorem xor_byte_mod (a b : Nat) (ha : a < 256) (hb : b < 256) : (a ^^^ b) % 256 = a ^^^ b :=
  Nat.mod_eq_of_lt (@Nat.xor_lt_two_pow a b 8 ha hb)

/-- The XOR fold of five values: the three middle ones cancel. -/
theorem xor_fold_cancel (a0 a1 a2 a3 a4 : Nat) :
    ((a0 ^^^ a1) ^^^ (a2 ^^^ a3)) ^^^ ((a1 ^^^ a2) ^^^ (a3 ^^^ a4)) = a0 ^^^ a4 := by
  apply Nat.eq_of_testBit_eq
  intro i
  simp only [Nat.testBit_xor]
  cases a0.testBit i <;> cases a1.testBit i <;> cases a2.testBit i <;>
    cases a3.testBit i <;> cases a4.testBit i <;> rfl

/-- The value `hash_40to8` stores for five bytes: the XOR of the first and the
last byte under the mask `0xFF >> shift`. -/
theorem hash_40to8_fold (arr40 : Fin 5 → Nat) (shift : Int) (hb : ∀ i, arr40 i < 256) :
    hash_40to8 arr40 shift = (arr40 0 ^^^ arr40 4) &&& (0xFF >>> shift.toNat) := by
  unfold hash_40to8
  simp only
  have x01 := @Nat.xor_lt_two_pow (arr40 0) (arr40 1) 8 (hb 0) (hb 1)
  have x12 := @Nat.xor_lt_two_pow (arr40 1) (arr40 2) 8 (hb 1) (hb 2)
  have x23 := @Nat.xor_lt_two_pow (arr40 2) (arr40 3) 8 (hb 2) (hb 3)
  have x34 := @Nat.xor_lt_two_pow (arr40 3) (arr40 4) 8 (hb 3) (hb 4)
  have x04 := @Nat.xor_lt_two_pow (arr40 0) (arr40 4) 8 (hb 0) (hb 4)
  rw [xor_byte_mod _ _ (hb 0) (hb 1), xor_byte_mod _ _ (hb 1) (hb 2),
    xor_byte_mod _ _ (hb 2) (hb 3), xor_byte_mod _ _ (hb 3) (hb 4),
    xor_byte_mod _ _ x01 x23, xor_byte_mod _ _ x12 x34,
    xor_byte_mod _ _ (@Nat.xor_lt_two_pow _ _ 8 x01 x23) (@Nat.xor_lt_two_pow _ _ 8 x12 x34),
    xor_fold_cancel]
  have hm : 255 >>> shift.toNat ≤ 255 := by
    rw [Nat.shiftRight_eq_div_pow]
    exact Nat.div_le_self _ _
  rw [Nat.mod_eq_of_lt (show 255 >>> shift.toNat < 65536 by omega)]
  have hle : (arr40 0 ^^^ arr40 4) &&& (255 >>> shift.toNat) ≤ 255 >>> shift.toNat :=
    Nat.and_le_right
  exact Nat.mod_eq_of_lt (by omega)

/-- C40: for five bytes `arr40` and `0 <= shift <= 8`, `hash_40to8` stores
`(arr40[0] XOR arr40[4]) AND (0xFF >> shift)`, a value below `2^(8 - shift)`;
two inputs with the same first and last byte give the same result, whatever
their middle bytes `arr40[1]`, `arr40[2]`, `arr40[3]` are. -/
theorem hash_40to8_two_bytes (arr40 : Fin 5 → Nat) (shift : Int)
    (hb : ∀ i, arr40 i < 256) (h0 : 0 ≤ shift) (h8 : shift ≤ 8) :
    hash_40to8 arr40 shift = (arr40 0 ^^^ arr40 4) &&& (0xFF >>> shift.toNat) ∧
    hash_40to8 arr40 shift < 2 ^ (8 - shift).toNat ∧
    ∀ other : Fin 5 → Nat, (∀ i, other i < 256) → other 0 = arr40 0 → other 4 = arr40 4 →
      hash_40to8 other shift = hash_40to8 arr40 shift := by
  refine ⟨hash_40to8_fold arr40 shift hb, ?_, ?_⟩
  · rw [hash_40to8_fold arr40 shift hb]
    refine lt_of_le_of_lt Nat.and_le_right ?_
    rw [Nat.shiftRight_eq_div_pow]
    apply Nat.div_lt_of_lt_mul
    rw [← pow_add]
    have : shift.toNat + (8 - shift).toNat = 8 := by omega
    rw [this]
    norm_num
  · intro other ho e0 e4
    rw [hash_40to8_fold other shift ho, hash_40to8_fold arr40 shift hb, e0, e4]

theorem hash_40to8_two_bytes_witness :
    hash_40to8 ![0x35, 0x11, 0x22, 0x33, 0xC6] 2 = 0x33 ∧
    hash_40to8 ![0x35, 0xAA, 0xBB, 0xCC, 0xC6] 2 = 0x33 ∧
    hash_40to8 ![0x35, 0x11, 0x22, 0x33, 0xC6] 2 =
      (0x35 ^^^ 0xC6) &&& (0xFF >>> 2) :=
  ⟨by decide, by decide,
    (hash_40to8_two_bytes ![0x35, 0x11, 0x22, 0x33, 0xC6] 2 (by decide) (by decide)
      (by decide)).1⟩

/-- A natural number below `2^27` has no bit at position 27 or above. -/
theorem testBit_false_of_lt_27 (X j : Nat) (hX : X < 2 ^ 27) (hj : 27 ≤ j) :
    X.testBit j = false :=
  Nat.testBit_lt_two_pow (lt_of_lt_of_le hX (Nat.pow_le_pow_right (by norm_num) hj))

/-- Byte 0 of the key `(Y << 20) | X` is the low byte of `X`. -/
theorem byteOf_key_zero (X Y : Nat) : byteOf (Y <<< 20 ||| X) 0 = X % 256 := by
  unfold byteOf
  apply Nat.eq_of_testBit_eq
  intro j
  have e : (256 : Nat) = 2 ^ 8 := by norm_num
  simp only [Fin.val_zero, mul_zero, Nat.shiftRight_zero, e, Nat.testBit_mod_two_pow,
    Nat.testBit_or, Nat.testBit_shiftLeft]
  by_cases hj : j < 8
  · have : ¬ j ≥ 20 := by omega
    simp [hj, this]
  · simp [hj]

/-- Byte 4 of the key `(Y << 20) | X`, `X < 2^27`, is the byte of `Y` at bit 12. -/
theorem byteOf_key_four (X Y : Nat) (hX : X < 2 ^ 27) :
    byteOf (Y <<< 20 ||| X) 4 = (Y >>> 12) % 256 := by
  unfold byteOf
  apply Nat.eq_of_testBit_eq
  intro j
  have e : (256 : Nat) = 2 ^ 8 := by norm_num
  have e4 : ((4 : Fin 5) : Nat) = 4 := rfl
  simp only [e4, e, Nat.testBit_mod_two_pow, Nat.testBit_shiftRight,
    Nat.testBit_or, Nat.testBit_shiftLeft]
  by_cases hj : j < 8
  · have h1 : 8 * 4 + j ≥ 20 := by omega
    have h2 : X.testBit (8 * 4 + j) = false := testBit_false_of_lt_27 X _ hX (by omega)
    have h3 : 8 * 4 + j - 20 = 12 + j := by omega
    simp [hj, h1, h2, h3]
  · simp [hj]

theorem byteOf_lt (key : Nat) (i : Fin 5) : byteOf key i < 256 :=
  Nat.mod_lt _ (by norm_num)

/-- The key built by `jitter_sample` from two non-negative `int` coordinates:
no wrap occurs and the key is `((b >> 4) << 20) | (a >> 4)`. -/
theorem jitter_key_eq (a b : Nat) (ha : a < 2 ^ 31) (hb : b < 2 ^ 31) :
    toU64 (wrap64 (shr (b : Int) 4 * 2 ^ 20)) ||| toU64 (shr (a : Int) 4) =
      (b >>> 4) <<< 20 ||| a >>> 4 := by
  have ha4 : shr (a : Int) 4 = ((a >>> 4 : Nat) : Int) := by
    unfold shr
    rw [Nat.shiftRight_eq_div_pow]
    push_cast
    rfl
  have hb4 : shr (b : Int) 4 = ((b >>> 4 : Nat) : Int) := by
    unfold shr
    rw [Nat.shiftRight_eq_div_pow]
    push_cast
    rfl
  have hB : b >>> 4 < 2 ^ 27 := by
    rw [Nat.shiftRight_eq_div_pow]
    omega
  have hmul : ((b >>> 4 : Nat) : Int) * (2 : Int) ^ 20 = (((b >>> 4) <<< 20 : Nat) : Int) := by
    rw [Nat.shiftLeft_eq]
    push_cast
    rfl
  have hBs : (b >>> 4) <<< 20 < 2 ^ 47 := by
    rw [Nat.shiftLeft_eq]
    omega
  have hu : ∀ n : Nat, toU64 (n : Int) = n % 2 ^ 64 := by
    intro n
    unfold toU64
    have : ((n : Int) % 2 ^ 64) = ((n % 2 ^ 64 : Nat) : Int) := by
      push_cast
      rfl
    rw [this, Int.toNat_ofNat]
  rw [ha4, hb4, hmul, @wrap64_eq_self _ ⟨by omega, by omega⟩, hu, hu,
    Nat.mod_eq_of_lt (by omega)]
  congr 1
  apply Nat.mod_eq_of_lt
  have : a >>> 4 ≤ a := by
    rw [Nat.shiftRight_eq_div_pow]
    exact Nat.div_le_self _ _
  omega

/-- The jitter of a sample with coordinates `0 <= a, b < 2^31`: on each axis
the XOR of one byte of each coordinate, under the mask `0xFF >> ss_w_lg2`. -/
theorem jitter_sample_bytes (a b : Nat) (ha : a < 2 ^ 31) (hb : b < 2 ^ 31) (w : Int) :
    jitter_sample ⟨(a : Int), (b : Int)⟩ w =
      ⟨((((a >>> 4) % 256 ^^^ (b >>> 16) % 256) &&& (0xFF >>> w.toNat) : Nat) : Int),
       ((((b >>> 4) % 256 ^^^ (a >>> 16) % 256) &&& (0xFF >>> w.toNat) : Nat) : Int)⟩ := by
  have hA : a >>> 4 < 2 ^ 27 := by
    rw [Nat.shiftRight_eq_div_pow]
    omega
  have hB : b >>> 4 < 2 ^ 27 := by
    rw [Nat.shiftRight_eq_div_pow]
    omega
  have sa : a >>> 4 >>> 12 = a >>> 16 := by rw [← Nat.shiftRight_add]
  have sb : b >>> 4 >>> 12 = b >>> 16 := by rw [← Nat.shiftRight_add]
  unfold jitter_sample
  simp only
  rw [jitter_key_eq a b ha hb, jitter_key_eq b a hb ha,
    hash_40to8_fold _ _ (byteOf_lt _), hash_40to8_fold _ _ (byteOf_lt _),
    byteOf_key_zero, byteOf_key_zero, byteOf_key_four _ _ hA, byteOf_key_four _ _ hB, sa, sb]

theorem xor_low_bytes (X Z : Nat) : X % 256 ^^^ Z % 256 = (X ^^^ Z) &&& 0xFF := by
  apply Nat.eq_of_testBit_eq
  intro j
  have e : (256 : Nat) = 2 ^ 8 := by norm_num
  have e2 : (0xFF : Nat) = 2 ^ 8 - 1 := by norm_num
  rw [e2, Nat.and_pow_two_sub_one_eq_mod]
  simp only [e, Nat.testBit_xor, Nat.testBit_mod_two_pow]
  by_cases hj : j < 8 <;> simp [hj]

/-- Flipping a bit outside the byte at bit `k` leaves that byte unchanged. -/
theorem byte_flip_outside (x i k : Nat) (h : i < k ∨ k + 8 ≤ i) :
    ((x ^^^ 2 ^ i) >>> k) % 256 = (x >>> k) % 256 := by
  apply Nat.eq_of_testBit_eq
  intro j
  have e : (256 : Nat) = 2 ^ 8 := by norm_num
  simp only [e, Nat.testBit_mod_two_pow, Nat.testBit_shiftRight, Nat.testBit_xor]
  by_cases hj : j < 8
  · have hne : i ≠ k + j := by omega
    simp [hj, Nat.testBit_two_pow_of_ne hne]
  · simp [hj]

/-- For `0 <= k <= 8` the mask `0xFF >> k` keeps the `8 - k` low bits. -/
theorem mask_eq_pow_sub_one (k : Nat) (hk : k ≤ 8) : 0xFF >>> k = 2 ^ (8 - k) - 1 := by
  interval_cases k <;> rfl

/-- The low bits kept by the two masks of the jitter: `AND 0xFF AND (0xFF >> k)`
is the remainder modulo `2^(8 - k)`. -/
theorem and_masks_eq_mod (x k : Nat) (hk : k ≤ 8) :
    x &&& 0xFF &&& (0xFF >>> k) = x % 2 ^ (8 - k) := by
  rw [mask_eq_pow_sub_one k hk, show (0xFF : Nat) = 2 ^ 8 - 1 by norm_num,
    Nat.and_pow_two_sub_one_eq_mod, Nat.and_pow_two_sub_one_eq_mod]
  exact Nat.mod_mod_of_dvd x (pow_dvd_pow 2 (Nat.sub_le 8 k))

/-- Closed form of the jitter for natural coordinates below `2^31`. -/
theorem jitter_sample_nat (a b : Nat) (ha : a < 2 ^ 31) (hb : b < 2 ^ 31) (w : Int) :
    jitter_sample ⟨(a : Int), (b : Int)⟩ w =
      ⟨(((a >>> 4 ^^^ b >>> 16) &&& 0xFF &&& (0xFF >>> w.toNat) : Nat) : Int),
       (((b >>> 4 ^^^ a >>> 16) &&& 0xFF &&& (0xFF >>> w.toNat) : Nat) : Int)⟩ := by
  rw [jitter_sample_bytes a b ha hb w, xor_low_bytes, xor_low_bytes]

/-- Flipping one of the bits `0..3`, `12..15`, `24..30` of a coordinate changes
no jitter component. -/
theorem jitter_sample_flip (a b : Nat) (ha : a < 2 ^ 31) (hb : b < 2 ^ 31) (w : Int)
    (i : Nat) (hi : unused_jitter_bit i) :
    jitter_sample ⟨((a ^^^ 2 ^ i : Nat) : Int), (b : Int)⟩ w =
      jitter_sample ⟨(a : Int), (b : Int)⟩ w ∧
    jitter_sample ⟨(a : Int), ((b ^^^ 2 ^ i : Nat) : Int)⟩ w =
      jitter_sample ⟨(a : Int), (b : Int)⟩ w := by
  unfold unused_jitter_bit at hi
  have hi31 : i < 31 := by omega
  have hp : 2 ^ i < 2 ^ 31 := Nat.pow_lt_pow_right (by norm_num) hi31
  have ha2 : a ^^^ 2 ^ i < 2 ^ 31 := Nat.xor_lt_two_pow ha hp
  have hb2 : b ^^^ 2 ^ i < 2 ^ 31 := Nat.xor_lt_two_pow hb hp
  have h4 : i < 4 ∨ 4 + 8 ≤ i := by omega
  have h16 : i < 16 ∨ 16 + 8 ≤ i := by omega
  constructor
  · rw [jitter_sample_bytes _ b ha2 hb w, jitter_sample_bytes a b ha hb w,
      byte_flip_outside a i 4 h4, byte_flip_outside a i 16 h16]
  · rw [jitter_sample_bytes a _ ha hb2 w, jitter_sample_bytes a b ha hb w,
      byte_flip_outside b i 4 h4, byte_flip_outside b i 16 h16]

/-! ## Invariants of the box and of the visited samples -/

/-- C36: if `get_bounding_box` returns `valid = true` then the box lies inside
the screen: `0 <= lower_left.x <= upper_right.x <= screen.width` and
`0 <= lower_left.y <= upper_right.y <= screen.height`. -/
theorem valid_box_inside_screen (t : Triangle) (screen : Screen) (config : Config)
    (hv : (get_bounding_box t screen config).valid = true) :
    (0 ≤ (get_bounding_box t screen config).lower_left.x ∧
      (get_bounding_box t screen config).lower_left.x ≤
        (get_bounding_box t screen config).upper_right.x ∧
      (get_bounding_box t screen config).upper_right.x ≤ screen.width) ∧
    (0 ≤ (get_bounding_box t screen config).lower_left.y ∧
      (get_bounding_box t screen config).lower_left.y ≤
        (get_bounding_box t screen config).upper_right.y ∧
      (get_bounding_box t screen config).upper_right.y ≤ screen.height) := by
  obtain ⟨o1, o2⟩ := corners_ordered_of_valid t screen config hv
  obtain ⟨c1, c2, c3, c4⟩ := get_bounding_box_corners_eq t screen config
  refine ⟨⟨?_, o1, ?_⟩, ?_, o2, ?_⟩
  · rw [c1]; exact le_max_left _ _
  · rw [c3]; exact min_le_left _ _
  · rw [c2]; exact le_max_left _ _
  · rw [c4]; exact min_le_left _ _

theorem valid_box_inside_screen_witness :
    get_bounding_box
        ⟨⟨-500, 100, 0, 0, 0, 0⟩, ⟨100, 9000, 0, 0, 0, 0⟩, ⟨9000, -700, 0, 0, 0, 0⟩⟩
        ⟨4096, 4096⟩ ⟨10, 0, 1024⟩ =
      { lower_left := ⟨0, 0⟩, upper_right := ⟨4096, 4096⟩, valid := true } ∧
    ((0 : Int) ≤ 0 ∧ (0 : Int) ≤ 4096 ∧ (4096 : Int) ≤ 4096) :=
  ⟨by decide,
    (valid_box_inside_screen
      ⟨⟨-500, 100, 0, 0, 0, 0⟩, ⟨100, 9000, 0, 0, 0, 0⟩, ⟨9000, -700, 0, 0, 0, 0⟩⟩
      ⟨4096, 4096⟩ ⟨10, 0, 1024⟩ (by decide)).1⟩

/-- The value of `floor_ss` is a multiple of `2^k`, `k` the shift amount as
`unsigned`. -/
theorem pow_dvd_floor_ss (val r_shift ss_w_lg2 : Int) :
    (2 : Int) ^ toUnsigned (r_shift - ss_w_lg2) ∣ floor_ss val r_shift ss_w_lg2 := by
  unfold floor_ss shl32
  exact pow_dvd_wrap32_mul _ _

/-- For a non-negative representable coordinate on the subsample grid, the
pixel address and the subsample index computed by the loop body recombine to
the coordinate. -/
theorem address_decomposition (sx : Int) (r w : Nat) (hwr : w ≤ r) (h0 : 0 ≤ sx)
    (h1 : sx < 2 ^ 31) (hdvd : (2 : Int) ^ (r - w) ∣ sx) :
    shl32 (shr sx r) r +
      wrap32 (Int.tdiv (wrap32 (sx - shl32 (shr sx r) r)) (2 ^ (r - w))) * 2 ^ (r - w) = sx := by
  obtain ⟨e, _, _⟩ := subsample_index_range sx r w hwr h0 h1
  rw [e]
  unfold shl32 shr
  have hP : (0 : Int) < 2 ^ r := by positivity
  have hq0 : 0 ≤ sx / 2 ^ r := Int.ediv_nonneg h0 hP.le
  have hqP : sx / 2 ^ r * 2 ^ r ≤ sx := Int.ediv_mul_le sx hP.ne'
  have hqP0 : 0 ≤ sx / 2 ^ r * 2 ^ r := mul_nonneg hq0 hP.le
  rw [@wrap32_eq_self (sx / 2 ^ r * 2 ^ r) ⟨by omega, by omega⟩]
  have hdr : (2 : Int) ^ (r - w) ∣ 2 ^ r := pow_dvd_pow 2 (Nat.sub_le r w)
  have hd2 : (2 : Int) ^ (r - w) ∣ sx - sx / 2 ^ r * 2 ^ r :=
    dvd_sub hdvd (Dvd.dvd.mul_left hdr _)
  rw [Int.ediv_mul_cancel hd2]
  ring

/-- With `ss_i = 2^(r_shift - ss_w_lg2)` every visited sample lies on the grid
of multiples of `ss_i`. -/
theorem visited_samples_aligned (t : Triangle) (screen : Screen) (config : Config)
    (h1 : config.ss_w_lg2 ≤ config.r_shift)
    (hss : config.ss_i = 2 ^ (config.r_shift - config.ss_w_lg2).toNat)
    (hw : screen.width + config.ss_i < 2 ^ 31)
    (s : Sample) (hs : s ∈ visited_samples t screen config) :
    config.ss_i ∣ s.x ∧ config.ss_i ∣ s.y := by
  have hd : 1 ≤ config.ss_i := by
    rw [hss]
    exact one_le_pow₀ (by norm_num)
  obtain ⟨⟨bx0, bx1⟩, _, _⟩ := visited_samples_bounds t screen config hd s hs
  obtain ⟨_, i, j, hx, hy, _, _⟩ := mem_visited_samples t screen config hd s hs
  obtain ⟨c1, c2, _, _⟩ := get_bounding_box_corners_eq t screen config
  have hlt : (2 : Int) ^ (config.r_shift - config.ss_w_lg2).toNat < 2 ^ 31 := by
    rw [← hss]
    omega
  have hk : (config.r_shift - config.ss_w_lg2).toNat < 31 := by
    by_contra hge
    have : (2 : Int) ^ 31 ≤ 2 ^ (config.r_shift - config.ss_w_lg2).toNat :=
      pow_le_pow_right₀ (by norm_num) (by omega)
    omega
  have hu : toUnsigned (config.r_shift - config.ss_w_lg2) =
      (config.r_shift - config.ss_w_lg2).toNat :=
    toUnsigned_eq_toNat (by omega) (by omega)
  have hf : ∀ val, config.ss_i ∣ Max.max 0 (floor_ss val config.r_shift config.ss_w_lg2) := by
    intro val
    rcases max_cases (0 : Int) (floor_ss val config.r_shift config.ss_w_lg2) with h | h
    · rw [h.1]
      exact dvd_zero _
    · rw [h.1, hss, ← hu]
      exact pow_dvd_floor_ss _ _ _
  constructor
  · rw [hx, c1]
    exact dvd_add (hf _) (dvd_mul_left _ _)
  · rw [hy, c2]
    exact dvd_add (hf _) (dvd_mul_left _ _)

theorem grid_pairwise (lo d : Int) (k : Nat) (hd : 1 ≤ d) :
    (grid lo d k).Pairwise (fun a b => a < b) := by
  unfold grid
  rw [List.pairwise_map]
  refine (List.pairwise_lt_range k).imp ?_
  intro a b hab
  have h1 : (a : Int) < (b : Int) := by exact_mod_cast hab
  have h2 : (a : Int) * d < (b : Int) * d := mul_lt_mul_of_pos_right h1 (by omega)
  omega

/-- The samples of a box come in strictly increasing lexicographic order. -/
theorem box_samples_pairwise (bbox : BoundingBox) (d : Int) (hd : 1 ≤ d) :
    (box_samples bbox d).Pairwise sample_lt := by
  unfold box_samples
  rw [List.pairwise_flatMap]
  constructor
  · intro sx _
    rw [List.pairwise_map]
    exact (grid_pairwise _ d _ hd).imp (fun h => Or.inr ⟨rfl, h⟩)
  · refine (grid_pairwise _ d _ hd).imp ?_
    intro a b hab x hx y hy
    obtain ⟨_, _, rfl⟩ := List.mem_map.mp hx
    obtain ⟨_, _, rfl⟩ := List.mem_map.mp hy
    exact Or.inl hab

theorem visited_samples_pairwise (t : Triangle) (screen : Screen) (config : Config)
    (hd : 1 ≤ config.ss_i) : (visited_samples t screen config).Pairwise sample_lt := by
  unfold visited_samples
  split_ifs
  · exact box_samples_pairwise _ _ hd
  · exact List.Pairwise.nil

/-- The pixel address and the subsample index of the call made for a visited
sample recombine to the sample. -/
theorem fragment_call_recombine (t : Triangle) (screen : Screen) (config : Config)
    (h0 : 0 ≤ config.ss_w_lg2) (h1 : config.ss_w_lg2 ≤ config.r_shift)
    (hss : config.ss_i = 2 ^ (config.r_shift - config.ss_w_lg2).toNat)
    (hw : screen.width + config.ss_i < 2 ^ 31) (hh : screen.height + config.ss_i < 2 ^ 31)
    (s : Sample) (hs : s ∈ visited_samples t screen config) :
    shl32 (fragment_call t config s).hit_location.x config.r_shift.toNat +
      (fragment_call t config s).subsample.x * config.ss_i = s.x ∧
    shl32 (fragment_call t config s).hit_location.y config.r_shift.toNat +
      (fragment_call t config s).subsample.y * config.ss_i = s.y := by
  have hd : 1 ≤ config.ss_i := by
    rw [hss]
    exact one_le_pow₀ (by norm_num)
  have hk : (config.r_shift - config.ss_w_lg2).toNat =
      config.r_shift.toNat - config.ss_w_lg2.toNat := by omega
  have hle : config.ss_w_lg2.toNat ≤ config.r_shift.toNat := by omega
  obtain ⟨⟨bx0, bx1⟩, by0, by1⟩ := visited_samples_bounds t screen config hd s hs
  obtain ⟨dx, dy⟩ := visited_samples_aligned t screen config h1 hss hw s hs
  rw [hss, hk] at dx dy
  have ax := address_decomposition s.x config.r_shift.toNat config.ss_w_lg2.toNat hle
    bx0 (by omega) dx
  have ay := address_decomposition s.y config.r_shift.toNat config.ss_w_lg2.toNat hle
    by0 (by omega) dy
  unfold fragment_call
  simp only
  rw [hss, hk]
  exact ⟨ax, ay⟩

/-- Counterexample to C4 as stated: the triangle `(-2^31,0)`, `(2^31-1,0)`,
`(0,5)` is back-facing (`A = 5 * (2^32 - 1) > 0`), but the `int` differences
`v1.x - v0.x` and `v2.x - v0.x` of the cull wrap to `-1` and `-2^31`, the local
`cross` is `-5`, and `get_bounding_box` returns the box `(0,0)`, `(4096,0)`
with `valid = true`. -/
theorem cull_overflow_counterexample :
    signed_area
      ⟨⟨-2147483648, 0, 0, 0, 0, 0⟩, ⟨2147483647, 0, 0, 0, 0, 0⟩, ⟨0, 5, 0, 0, 0, 0⟩⟩ =
        21474836475 ∧
    cull_cross
      ⟨⟨-2147483648, 0, 0, 0, 0, 0⟩, ⟨2147483647, 0, 0, 0, 0, 0⟩, ⟨0, 5, 0, 0, 0, 0⟩⟩ = -5 ∧
    get_bounding_box
      ⟨⟨-2147483648, 0, 0, 0, 0, 0⟩, ⟨2147483647, 0, 0, 0, 0, 0⟩, ⟨0, 5, 0, 0, 0, 0⟩⟩
      ⟨4096, 4096⟩ ⟨10, 0, 1024⟩ = ⟨⟨0, 0⟩, ⟨4096, 0⟩, true⟩ ∧
    ¬ ((get_bounding_box
        ⟨⟨-2147483648, 0, 0, 0, 0, 0⟩, ⟨2147483647, 0, 0, 0, 0, 0⟩, ⟨0, 5, 0, 0, 0, 0⟩⟩
        ⟨4096, 4096⟩ ⟨10, 0, 1024⟩).valid = true ↔
      signed_area
        ⟨⟨-2147483648, 0, 0, 0, 0, 0⟩, ⟨2147483647, 0, 0, 0, 0, 0⟩, ⟨0, 5, 0, 0, 0, 0⟩⟩ < 0 ∧
      (get_bounding_box
        ⟨⟨-2147483648, 0, 0, 0, 0, 0⟩, ⟨2147483647, 0, 0, 0, 0, 0⟩, ⟨0, 5, 0, 0, 0, 0⟩⟩
        ⟨4096, 4096⟩ ⟨10, 0, 1024⟩).lower_left.x ≤
      (get_bounding_box
        ⟨⟨-2147483648, 0, 0, 0, 0, 0⟩, ⟨2147483647, 0, 0, 0, 0, 0⟩, ⟨0, 5, 0, 0, 0, 0⟩⟩
        ⟨4096, 4096⟩ ⟨10, 0, 1024⟩).upper_right.x ∧
      (get_bounding_box
        ⟨⟨-2147483648, 0, 0, 0, 0, 0⟩, ⟨2147483647, 0, 0, 0, 0, 0⟩, ⟨0, 5, 0, 0, 0, 0⟩⟩
        ⟨4096, 4096⟩ ⟨10, 0, 1024⟩).lower_left.y ≤
      (get_bounding_box
        ⟨⟨-2147483648, 0, 0, 0, 0, 0⟩, ⟨2147483647, 0, 0, 0, 0, 0⟩, ⟨0, 5, 0, 0, 0, 0⟩⟩
        ⟨4096, 4096⟩ ⟨10, 0, 1024⟩).upper_right.y) := by
  decide

/-- Counterexample to C8 as stated: the triangle `(0,5)`, `(2^31-1,0)`,
`(-2^31,0)` is front-facing and valid, and so is its reversed winding
`(-2^31,0)`, `(2^31-1,0)`, `(0,5)`, whose cull differences wrap; each of the
two is the reversed winding of the other, so a valid triangle has a valid
reverse whichever of the two windings overflows. -/
theorem backface_overflow_counterexample :
    CullNoOverflow
      ⟨⟨0, 5, 0, 0, 0, 0⟩, ⟨2147483647, 0, 0, 0, 0, 0⟩, ⟨-2147483648, 0, 0, 0, 0, 0⟩⟩ ∧
    ¬ CullNoOverflow (Triangle.reverse
      ⟨⟨0, 5, 0, 0, 0, 0⟩, ⟨2147483647, 0, 0, 0, 0, 0⟩, ⟨-2147483648, 0, 0, 0, 0, 0⟩⟩) ∧
    (get_bounding_box
      ⟨⟨0, 5, 0, 0, 0, 0⟩, ⟨2147483647, 0, 0, 0, 0, 0⟩, ⟨-2147483648, 0, 0, 0, 0, 0⟩⟩
      ⟨4096, 4096⟩ ⟨10, 0, 1024⟩).valid = true ∧
    (get_bounding_box (Triangle.reverse
      ⟨⟨0, 5, 0, 0, 0, 0⟩, ⟨2147483647, 0, 0, 0, 0, 0⟩, ⟨-2147483648, 0, 0, 0, 0, 0⟩⟩)
      ⟨4096, 4096⟩ ⟨10, 0, 1024⟩).valid = true ∧
    Triangle.reverse (Triangle.reverse
      ⟨⟨0, 5, 0, 0, 0, 0⟩, ⟨2147483647, 0, 0, 0, 0, 0⟩, ⟨-2147483648, 0, 0, 0, 0, 0⟩⟩) =
      ⟨⟨0, 5, 0, 0, 0, 0⟩, ⟨2147483647, 0, 0, 0, 0, 0⟩, ⟨-2147483648, 0, 0, 0, 0, 0⟩⟩ := by
  decide

/-- Counterexample to C14 as stated: for the triangle `(0,0)`, `(0,2048)`,
`(2048,0)` on a `4194304 x 4096` screen with `r_shift = 10`, `ss_w_lg2 = 0` the
box is `(0,0)`, `(2048,2048)` and valid; at the grid point `p = (2097152, 0)`
inside the screen the products of `sample_test` wrap (`-2048 * 2097152 = -2^32`),
the three edge functions come out as `0`, `-4194304`, `0`, and `sample_test`
returns true although `p` is outside the box. -/
theorem containment_overflow_counterexample :
    get_bounding_box
      ⟨⟨0, 0, 0, 0, 0, 0⟩, ⟨0, 2048, 0, 0, 0, 0⟩, ⟨2048, 0, 0, 0, 0, 0⟩⟩
      ⟨4194304, 4096⟩ ⟨10, 0, 1024⟩ = ⟨⟨0, 0⟩, ⟨2048, 2048⟩, true⟩ ∧
    ((2 : Int) ^ 10 ∣ 2097152 ∧ (0 : Int) ≤ 2097152 ∧ (2097152 : Int) ≤ 4194304) ∧
    sample_test_dists
      ⟨⟨0, 0, 0, 0, 0, 0⟩, ⟨0, 2048, 0, 0, 0, 0⟩, ⟨2048, 0, 0, 0, 0, 0⟩⟩ ⟨2097152, 0⟩ =
      (0, -4194304, 0) ∧
    sample_test
      ⟨⟨0, 0, 0, 0, 0, 0⟩, ⟨0, 2048, 0, 0, 0, 0⟩, ⟨2048, 0, 0, 0, 0, 0⟩⟩ ⟨2097152, 0⟩ = true ∧
    ¬ ((2097152 : Int) ≤ (get_bounding_box
      ⟨⟨0, 0, 0, 0, 0, 0⟩, ⟨0, 2048, 0, 0, 0, 0⟩, ⟨2048, 0, 0, 0, 0, 0⟩⟩
      ⟨4194304, 4096⟩ ⟨10, 0, 1024⟩).upper_right.x) ∧
    ¬ SampleTestNoOverflow
      ⟨⟨0, 0, 0, 0, 0, 0⟩, ⟨0, 2048, 0, 0, 0, 0⟩, ⟨2048, 0, 0, 0, 0, 0⟩⟩ ⟨2097152, 0⟩ := by
  decide

/-- Counterexample to C33 as stated: the triangle `(0,0)`, `(0,65536)`,
`(40000,0)` is front-facing (`A = -2621440000`) with a valid box, but at the
sample equal to `v0` edge function 1 is `A` reduced to `int`, `1673527296 > 0`,
and `sample_test` returns false. -/
theorem vertex_coverage_counterexample :
    signed_area
      ⟨⟨0, 0, 0, 0, 0, 0⟩, ⟨0, 65536, 0, 0, 0, 0⟩, ⟨40000, 0, 0, 0, 0, 0⟩⟩ = -2621440000 ∧
    (get_bounding_box
      ⟨⟨0, 0, 0, 0, 0, 0⟩, ⟨0, 65536, 0, 0, 0, 0⟩, ⟨40000, 0, 0, 0, 0, 0⟩⟩
      ⟨131072, 131072⟩ ⟨10, 0, 1024⟩).valid = true ∧
    sample_test_dists
      ⟨⟨0, 0, 0, 0, 0, 0⟩, ⟨0, 65536, 0, 0, 0, 0⟩, ⟨40000, 0, 0, 0, 0, 0⟩⟩
      (Vertex.toSample ⟨0, 0, 0, 0, 0, 0⟩) = (0, 1673527296, 0) ∧
    sample_test
      ⟨⟨0, 0, 0, 0, 0, 0⟩, ⟨0, 65536, 0, 0, 0, 0⟩, ⟨40000, 0, 0, 0, 0, 0⟩⟩
      (Vertex.toSample ⟨0, 0, 0, 0, 0, 0⟩) = false := by
  decide

/-! ## Termination: the bound and its three limits -/

/-- With the upper-right corner at the `int` maximum the exit test of the outer
loop never fails: no amount of fuel lets the loop return. -/
theorem outer_loop_never_returns {ZBuff : Type}
    (pf : ZBuff → Sample → Sample → Fragment → ZBuff) (t : Triangle) (config : Config)
    (bbox : BoundingBox) (hux : bbox.upper_right.x = 2 ^ 31 - 1) (inner_fuel : Nat) :
    ∀ (fuel : Nat) (sx : Int) (st : RasterState ZBuff), InInt32 sx →
      outer_loop pf t config bbox inner_fuel fuel sx st = none := by
  intro fuel
  induction fuel with
  | zero =>
    intro sx st _
    rfl
  | succ n ih =>
    intro sx st hsx
    have hle : sx ≤ bbox.upper_right.x := by
      rw [hux]
      have := hsx.2
      omega
    unfold outer_loop
    simp only [hle, if_true]
    cases inner_loop pf t config bbox sx inner_fuel bbox.lower_left.y st with
    | none => rfl
    | some st1 => exact ih _ st1 (wrap32_inInt32 _)

/-- With the upper-right corner at the `int` maximum on the `y` axis the exit
test of the inner loop never fails. -/
theorem inner_loop_never_returns {ZBuff : Type}
    (pf : ZBuff → Sample → Sample → Fragment → ZBuff) (t : Triangle) (config : Config)
    (bbox : BoundingBox) (huy : bbox.upper_right.y = 2 ^ 31 - 1) (sx : Int) :
    ∀ (fuel : Nat) (sy : Int) (st : RasterState ZBuff), InInt32 sy →
      inner_loop pf t config bbox sx fuel sy st = none := by
  intro fuel
  induction fuel with
  | zero =>
    intro sy st _
    rfl
  | succ n ih =>
    intro sy st hsy
    have hle : sy ≤ bbox.upper_right.y := by
      rw [huy]
      have := hsy.2
      omega
    unfold inner_loop
    simp only [hle, if_true]
    exact ih _ _ (wrap32_inInt32 _)

theorem wrap32_sub_wrap32 (a b : Int) : wrap32 (wrap32 a - wrap32 b) = wrap32 (a - b) := by
  unfold wrap32
  omega

/-- The triangle `(-1,-2)`, `(-1,2^31-2)`, `(2^31-1,-2)` covers, in `int`
arithmetic, every sample with even coordinates `0 <= x, y <= 2^31 - 4`: the
three edge functions wrap to `-2^31`, `-2^31` and `0`. -/
theorem sample_test_even_grid (i j : Int) (hi0 : 0 ≤ i) (hi1 : i < 2 ^ 30 - 1) (hj0 : 0 ≤ j)
    (hj1 : j < 2 ^ 30 - 1) :
    sample_test
      ⟨⟨-1, -2, 0, 0, 0, 0⟩, ⟨-1, 2147483646, 0, 0, 0, 0⟩, ⟨2147483647, -2, 0, 0, 0, 0⟩⟩
      ⟨2 * i, 2 * j⟩ = true := by
  have a0 : wrap32 (-1 - 2 * i) = -1 - 2 * i := wrap32_eq_self ⟨by omega, by omega⟩
  have a1 : wrap32 (-2 - 2 * j) = -2 - 2 * j := wrap32_eq_self ⟨by omega, by omega⟩
  have a2 : wrap32 (2147483646 - 2 * j) = 2147483646 - 2 * j :=
    wrap32_eq_self ⟨by omega, by omega⟩
  have a3 : wrap32 (2147483647 - 2 * i) = 2147483647 - 2 * i :=
    wrap32_eq_self ⟨by omega, by omega⟩
  have d0 : wrap32 ((-1 - 2 * i) * (2147483646 - 2 * j) - (-1 - 2 * i) * (-2 - 2 * j)) =
      -2147483648 := by
    rw [show (-1 - 2 * i) * (2147483646 - 2 * j) - (-1 - 2 * i) * (-2 - 2 * j) =
      -2147483648 + (-i) * 2 ^ 32 by ring, wrap32_add_mul]
    decide
  have d1 : wrap32 ((-1 - 2 * i) * (-2 - 2 * j) -
      (2147483647 - 2 * i) * (2147483646 - 2 * j)) = -2147483648 := by
    rw [show (-1 - 2 * i) * (-2 - 2 * j) - (2147483647 - 2 * i) * (2147483646 - 2 * j) =
      -2147483648 + (i + j - 2 ^ 30 + 2) * 2 ^ 32 by ring, wrap32_add_mul]
    decide
  have d2 : wrap32 ((2147483647 - 2 * i) * (-2 - 2 * j) - (-1 - 2 * i) * (-2 - 2 * j)) =
      0 := by
    rw [show (2147483647 - 2 * i) * (-2 - 2 * j) - (-1 - 2 * i) * (-2 - 2 * j) =
      0 + (-1 - j) * 2 ^ 32 by ring, wrap32_add_mul]
    decide
  unfold sample_test
  simp only [a0, a1, a2, a3, wrap32_sub_wrap32, d0, d1, d2]
  decide


/-- With `ss_w_lg2 = 8` the mask of the hash is 0 and the jitter vanishes: the
position tested is the sample itself. -/
theorem jittered_int_of_full_mask (config : Config) (h8 : config.ss_w_lg2 = 8) (s : Sample)
    (hx : InInt32 s.x) (hy : InInt32 s.y) : jittered_int config s = s := by
  obtain ⟨⟨a0, _⟩, b0, _⟩ := jitter_sample_bounds s config.ss_w_lg2
  obtain ⟨m1, m2⟩ := jitter_sample_le_mask s config.ss_w_lg2
  rw [h8] at m1 m2 a0 b0
  have e1 : (jitter_sample s 8).x = 0 := le_antisymm (by simpa using m1) a0
  have e2 : (jitter_sample s 8).y = 0 := le_antisymm (by simpa using m2) b0
  unfold jittered_int shl32
  rw [h8, e1, e2]
  simp only [zero_mul, wrap32_zero, add_zero, wrap32_eq_self hx, wrap32_eq_self hy]

/-- The call of the third part of the counterexample to C22: every one of the
`65536 * 32768 = 2^31` visited samples is covered, and the `int` counter ends
at `-2^31`. -/
theorem hit_count_wraps {ZBuff : Type} (pf : ZBuff → Sample → Sample → Fragment → ZBuff)
    (z : Option ZBuff) (fuel : Nat) (hf : 65537 ≤ fuel) :
    ∃ st, rasterize_triangle pf fuel
        ⟨⟨-1, -2, 0, 0, 0, 0⟩, ⟨-1, 2147483646, 0, 0, 0, 0⟩, ⟨2147483647, -2, 0, 0, 0, 0⟩⟩
        z ⟨131070, 65534⟩ ⟨9, 8, 2⟩ = some st ∧
      st.tested.length = 2147483648 ∧ st.hit_count = -2147483648 := by
  have hbox : get_bounding_box
      ⟨⟨-1, -2, 0, 0, 0, 0⟩, ⟨-1, 2147483646, 0, 0, 0, 0⟩, ⟨2147483647, -2, 0, 0, 0, 0⟩⟩
      ⟨131070, 65534⟩ ⟨9, 8, 2⟩ = ⟨⟨0, 0⟩, ⟨131070, 65534⟩, true⟩ := by decide
  have hfuel : enough_fuel
      ⟨⟨-1, -2, 0, 0, 0, 0⟩, ⟨-1, 2147483646, 0, 0, 0, 0⟩, ⟨2147483647, -2, 0, 0, 0, 0⟩⟩
      ⟨131070, 65534⟩ ⟨9, 8, 2⟩ = 65537 := by
    unfold enough_fuel
    rw [hbox]
    decide
  obtain ⟨st, r, k, _, tst⟩ := rasterize_triangle_result pf fuel
    ⟨⟨-1, -2, 0, 0, 0, 0⟩, ⟨-1, 2147483646, 0, 0, 0, 0⟩, ⟨2147483647, -2, 0, 0, 0, 0⟩⟩
    z ⟨131070, 65534⟩ ⟨9, 8, 2⟩ (by decide) (by decide) (by decide) (by rw [hfuel]; exact hf)
  have hvis : visited_samples
      ⟨⟨-1, -2, 0, 0, 0, 0⟩, ⟨-1, 2147483646, 0, 0, 0, 0⟩, ⟨2147483647, -2, 0, 0, 0, 0⟩⟩
      ⟨131070, 65534⟩ ⟨9, 8, 2⟩ = box_samples ⟨⟨0, 0⟩, ⟨131070, 65534⟩, true⟩ 2 := by
    unfold visited_samples
    rw [hbox]
    exact if_pos rfl
  have hlen : (box_samples ⟨⟨0, 0⟩, ⟨131070, 65534⟩, true⟩ 2).length = 2147483648 := by
    rw [box_samples_length]
    decide
  have hall : ∀ s ∈ box_samples ⟨⟨0, 0⟩, ⟨131070, 65534⟩, true⟩ 2,
      is_hit
        ⟨⟨-1, -2, 0, 0, 0, 0⟩, ⟨-1, 2147483646, 0, 0, 0, 0⟩, ⟨2147483647, -2, 0, 0, 0, 0⟩⟩
        ⟨9, 8, 2⟩ s = true := by
    intro s hs
    obtain ⟨⟨x0, x1⟩, y0, y1⟩ := mem_box_samples _ 2 (by decide) s hs
    rw [box_samples_eq_map, List.mem_map] at hs
    obtain ⟨⟨i, j⟩, _, rfl⟩ := hs
    simp only at x0 x1 y0 y1
    unfold is_hit
    rw [jittered_int_of_full_mask _ rfl _ ⟨by simp only; omega, by simp only; omega⟩
      ⟨by simp only; omega, by simp only; omega⟩]
    have ex : (0 : Int) + (i : Int) * 2 = 2 * (i : Int) := by ring
    have ey : (0 : Int) + (j : Int) * 2 = 2 * (j : Int) := by ring
    rw [ex, ey]
    exact sample_test_even_grid _ _ (by omega) (by omega) (by omega) (by omega)
  refine ⟨st, r, ?_, ?_⟩
  · rw [tst, List.length_map, hvis, hlen]
  · rw [k, hvis, List.filter_eq_self.mpr hall, hlen]
    decide


/-- Counterexample to C22 as stated, in three parts.
(1) For the triangle `(-3000,100)`, `(-3000,3000)`, `(-5000,100)` on a
`4096 x 4096` screen with `ss_i = 1024` the clipped box is `(0,0)`,
`(-3072,2048)`, the claimed number is `(-2) * 3 = -6`, and the call returns hit
count 0, which is not between 0 and `-6`.
(2) For the triangle `(0,0)`, `(0,1)`, `(2^31-1,0)` on a `(2^31-1) x 1` screen
with `r_shift = ss_w_lg2 = 0`, `ss_i = 1` the box is valid with
`upper_right.x = 2^31 - 1`; the counter `sample.x` wraps at the `int` maximum
and the call returns for no amount of fuel.  The same holds on the `y` axis
for the triangle `(0,0)`, `(0,2^31-1)`, `(1,0)` on a `1 x (2^31-1)` screen.
(3) For the triangle `(-1,-2)`, `(-1,2^31-2)`, `(2^31-1,-2)` on a
`131070 x 65534` screen with `r_shift = 9`, `ss_w_lg2 = 8`, `ss_i = 2` the loop
counters stay in range and the claimed number is `65536 * 32768 = 2^31`; every
sample is covered and the `int` hit count returned is `-2^31`. -/
theorem termination_bound_counterexample :
    (get_bounding_box ⟨⟨-3000, 100, 0, 0, 0, 0⟩, ⟨-3000, 3000, 0, 0, 0, 0⟩,
        ⟨-5000, 100, 0, 0, 0, 0⟩⟩ ⟨4096, 4096⟩ ⟨10, 0, 1024⟩ =
          ⟨⟨0, 0⟩, ⟨-3072, 2048⟩, false⟩ ∧
      loop_bound (get_bounding_box ⟨⟨-3000, 100, 0, 0, 0, 0⟩, ⟨-3000, 3000, 0, 0, 0, 0⟩,
        ⟨-5000, 100, 0, 0, 0, 0⟩⟩ ⟨4096, 4096⟩ ⟨10, 0, 1024⟩) 1024 = -6 ∧
      (rasterize_triangle (fun (n : Nat) _ _ _ => n + 1) 0
        ⟨⟨-3000, 100, 0, 0, 0, 0⟩, ⟨-3000, 3000, 0, 0, 0, 0⟩, ⟨-5000, 100, 0, 0, 0, 0⟩⟩
        (some 0) ⟨4096, 4096⟩ ⟨10, 0, 1024⟩).map (fun st => st.hit_count) = some 0) ∧
    (get_bounding_box
        ⟨⟨0, 0, 0, 0, 0, 0⟩, ⟨0, 1, 0, 0, 0, 0⟩, ⟨2147483647, 0, 0, 0, 0, 0⟩⟩
        ⟨2147483647, 1⟩ ⟨0, 0, 1⟩ = ⟨⟨0, 0⟩, ⟨2147483647, 1⟩, true⟩ ∧
      (∀ fuel : Nat, rasterize_triangle (fun (n : Nat) _ _ _ => n + 1) fuel
        ⟨⟨0, 0, 0, 0, 0, 0⟩, ⟨0, 1, 0, 0, 0, 0⟩, ⟨2147483647, 0, 0, 0, 0, 0⟩⟩
        (some 0) ⟨2147483647, 1⟩ ⟨0, 0, 1⟩ = none) ∧
      get_bounding_box
        ⟨⟨0, 0, 0, 0, 0, 0⟩, ⟨0, 2147483647, 0, 0, 0, 0⟩, ⟨1, 0, 0, 0, 0, 0⟩⟩
        ⟨1, 2147483647⟩ ⟨0, 0, 1⟩ = ⟨⟨0, 0⟩, ⟨1, 2147483647⟩, true⟩ ∧
      ∀ fuel : Nat, rasterize_triangle (fun (n : Nat) _ _ _ => n + 1) fuel
        ⟨⟨0, 0, 0, 0, 0, 0⟩, ⟨0, 2147483647, 0, 0, 0, 0⟩, ⟨1, 0, 0, 0, 0, 0⟩⟩
        (some 0) ⟨1, 2147483647⟩ ⟨0, 0, 1⟩ = none) ∧
    (((131070 : Int) + 2 < 2 ^ 31 ∧ (65534 : Int) + 2 < 2 ^ 31) ∧
      loop_bound (get_bounding_box
        ⟨⟨-1, -2, 0, 0, 0, 0⟩, ⟨-1, 2147483646, 0, 0, 0, 0⟩, ⟨2147483647, -2, 0, 0, 0, 0⟩⟩
        ⟨131070, 65534⟩ ⟨9, 8, 2⟩) 2 = 2147483648 ∧
      ∀ fuel : Nat, 65537 ≤ fuel →
        ∃ st, rasterize_triangle (fun (n : Nat) _ _ _ => n + 1) fuel
            ⟨⟨-1, -2, 0, 0, 0, 0⟩, ⟨-1, 2147483646, 0, 0, 0, 0⟩,
              ⟨2147483647, -2, 0, 0, 0, 0⟩⟩
            (some 0) ⟨131070, 65534⟩ ⟨9, 8, 2⟩ = some st ∧
          st.tested.length = 2147483648 ∧ st.hit_count = -2147483648) := by
  refine ⟨⟨by decide, by decide, by decide⟩, ⟨by decide, fun fuel => ?_, by decide,
    fun fuel => ?_⟩, ⟨by decide, by decide⟩, by decide,
    fun fuel hf => hit_count_wraps _ _ fuel hf⟩
  · have hb : get_bounding_box
        ⟨⟨0, 0, 0, 0, 0, 0⟩, ⟨0, 1, 0, 0, 0, 0⟩, ⟨2147483647, 0, 0, 0, 0, 0⟩⟩
        ⟨2147483647, 1⟩ ⟨0, 0, 1⟩ = ⟨⟨0, 0⟩, ⟨2147483647, 1⟩, true⟩ := by decide
    unfold rasterize_triangle
    simp only [hb, Bool.not_true, Bool.false_eq_true, if_false]
    exact outer_loop_never_returns _ _ _ _ (by norm_num) fuel fuel 0 _ (by decide)
  · have hb : get_bounding_box
        ⟨⟨0, 0, 0, 0, 0, 0⟩, ⟨0, 2147483647, 0, 0, 0, 0⟩, ⟨1, 0, 0, 0, 0, 0⟩⟩
        ⟨1, 2147483647⟩ ⟨0, 0, 1⟩ = ⟨⟨0, 0⟩, ⟨1, 2147483647⟩, true⟩ := by decide
    unfold rasterize_triangle
    simp only [hb, Bool.not_true, Bool.false_eq_true, if_false]
    cases fuel with
    | zero => rfl
    | succ n =>
      unfold outer_loop
      simp only [show (0 : Int) ≤ 1 by decide, if_true]
      rw [inner_loop_never_returns _ _ _ _ (by norm_num) 0 (n + 1) 0 _ (by decide)]

/-- C22 (amended): for `ss_i >= 1` and loop counters inside the `int` range
(`screen.width + ss_i < 2^31`, `screen.height + ss_i < 2^31`),
`rasterize_triangle` returns; the double loop visits at most
`max(0, floor((ur.x - ll.x)/ss_i) + 1) * max(0, floor((ur.y - ll.y)/ss_i) + 1)`
samples, a number fixed by the clipped box (exactly the unclamped product when
the box is valid, none otherwise); the hit count is the number of covered
samples among them reduced to `int`, it is at most that number, and when that
number is below `2^31` it is between 0 and that number. -/
theorem rasterize_triangle_terminates {ZBuff : Type}
    (pf : ZBuff → Sample → Sample → Fragment → ZBuff) (t : Triangle) (z : Option ZBuff)
    (screen : Screen) (config : Config) (hd : 1 ≤ config.ss_i)
    (hw : screen.width + config.ss_i < 2 ^ 31) (hh : screen.height + config.ss_i < 2 ^ 31) :
    ∃ fuel0 : Nat, ∀ fuel : Nat, fuel0 ≤ fuel →
      ∃ st, rasterize_triangle pf fuel t z screen config = some st ∧
        ((st.tested.length : Nat) : Int) ≤
          clamped_loop_bound (get_bounding_box t screen config) config.ss_i ∧
        ((get_bounding_box t screen config).valid = true →
          ((st.tested.length : Nat) : Int) =
            loop_bound (get_bounding_box t screen config) config.ss_i) ∧
        ((get_bounding_box t screen config).valid = false → st.tested = []) ∧
        (∃ hits : Nat, hits ≤ st.tested.length ∧ st.hit_count = wrap32 (hits : Int)) ∧
        st.hit_count ≤ clamped_loop_bound (get_bounding_box t screen config) config.ss_i ∧
        (clamped_loop_bound (get_bounding_box t screen config) config.ss_i < 2 ^ 31 →
          0 ≤ st.hit_count) := by
  refine ⟨enough_fuel t screen config, fun fuel hf => ?_⟩
  obtain ⟨st, r, k, _, tst⟩ := rasterize_triangle_result pf fuel t z screen config hd hw hh hf
  have hlen : st.tested.length = (visited_samples t screen config).length := by
    rw [tst, List.length_map]
  have hcl := box_samples_length_cast (get_bounding_box t screen config) config.ss_i hd
  have hvis : (((visited_samples t screen config).length : Nat) : Int) ≤
      clamped_loop_bound (get_bounding_box t screen config) config.ss_i := by
    unfold visited_samples
    cases hv : (get_bounding_box t screen config).valid
    · simp only [Bool.false_eq_true, if_false, List.length_nil, Nat.cast_zero]
      rw [← hcl]
      exact Int.natCast_nonneg _
    · simp only [if_true]
      exact hcl.le
  have hfl : ((visited_samples t screen config).filter (is_hit t config)).length ≤
      (visited_samples t screen config).length := List.length_filter_le _ _
  have h1 : ((((visited_samples t screen config).filter (is_hit t config)).length : Nat) : Int)
      ≤ clamped_loop_bound (get_bounding_box t screen config) config.ss_i :=
    le_trans (by exact_mod_cast hfl) hvis
  refine ⟨st, r, by rw [hlen]; exact hvis, ?_, ?_, ⟨_, by rw [hlen]; exact hfl, k⟩, ?_, ?_⟩
  · intro hv
    obtain ⟨u1, u2⟩ := corners_ordered_of_valid t screen config hv
    rw [hlen]
    unfold visited_samples
    simp only [hv, if_true]
    rw [hcl]
    unfold clamped_loop_bound loop_bound
    have q1 : 0 ≤ ((get_bounding_box t screen config).upper_right.x -
        (get_bounding_box t screen config).lower_left.x) / config.ss_i :=
      Int.ediv_nonneg (by omega) (by omega)
    have q2 : 0 ≤ ((get_bounding_box t screen config).upper_right.y -
        (get_bounding_box t screen config).lower_left.y) / config.ss_i :=
      Int.ediv_nonneg (by omega) (by omega)
    rw [max_eq_right (by omega), max_eq_right (by omega)]
  · intro hv
    rw [tst]
    unfold visited_samples
    simp [hv]
  · rw [k]
    rcases lt_or_le (clamped_loop_bound (get_bounding_box t screen config) config.ss_i)
      (2 ^ 31) with hlt | hge
    · rw [wrap32_eq_self ⟨by omega, by omega⟩]
      exact h1
    · exact le_trans (wrap32_inInt32 _).2.le hge
  · intro hlt
    rw [k, wrap32_eq_self ⟨by omega, by omega⟩]
    exact Int.natCast_nonneg _

/-- Witness of the amended C22 at the triangle `(0,0), (0,2048), (2048,0)`
with `ss_i = 1024` on a `4096 x 4096` screen: nine samples, three hits. -/
theorem rasterize_triangle_terminates_witness :
    loop_bound (get_bounding_box
      ⟨⟨0, 0, 0, 0, 0, 0⟩, ⟨0, 2048, 0, 0, 0, 0⟩, ⟨2048, 0, 0, 0, 0, 0⟩⟩
      ⟨4096, 4096⟩ ⟨10, 0, 1024⟩) 1024 = 9 ∧
    (rasterize_triangle (fun (n : Nat) _ _ _ => n + 1) 4
      ⟨⟨0, 0, 0, 0, 0, 0⟩, ⟨0, 2048, 0, 0, 0, 0⟩, ⟨2048, 0, 0, 0, 0, 0⟩⟩ (some 0)
      ⟨4096, 4096⟩ ⟨10, 0, 1024⟩).map (fun st => (st.hit_count, st.tested.length)) =
        some (3, 9) ∧
    ∃ fuel0 : Nat, ∀ fuel : Nat, fuel0 ≤ fuel →
      ∃ st, rasterize_triangle (fun (n : Nat) _ _ _ => n + 1) fuel
          ⟨⟨0, 0, 0, 0, 0, 0⟩, ⟨0, 2048, 0, 0, 0, 0⟩, ⟨2048, 0, 0, 0, 0, 0⟩⟩ (some 0)
          ⟨4096, 4096⟩ ⟨10, 0, 1024⟩ = some st ∧
        ((st.tested.length : Nat) : Int) ≤ clamped_loop_bound (get_bounding_box
          ⟨⟨0, 0, 0, 0, 0, 0⟩, ⟨0, 2048, 0, 0, 0, 0⟩, ⟨2048, 0, 0, 0, 0, 0⟩⟩
          ⟨4096, 4096⟩ ⟨10, 0, 1024⟩) 1024 :=
  ⟨by decide, by decide,
    (rasterize_triangle_terminates (fun (n : Nat) _ _ _ => n + 1)
      ⟨⟨0, 0, 0, 0, 0, 0⟩, ⟨0, 2048, 0, 0, 0, 0⟩, ⟨2048, 0, 0, 0, 0, 0⟩⟩ (some 0)
      ⟨4096, 4096⟩ ⟨10, 0, 1024⟩ (by decide) (by decide) (by decide)).imp
      fun _ h fuel hf => (h fuel hf).imp fun _ hst => ⟨hst.1, hst.2.1⟩⟩

/-! ## The jitter in memory: dependence on the placement of the arrays -/

/-- When the second store leaves the five bytes of `arr40_1` alone (`arr40_2`
starts at least five bytes above `arr40_1`, or at least eight bytes below it),
the value computed in memory is `jitter_sample`, whatever the frame held. -/
theorem jitter_sample_frame_eq (addr1 addr2 : Nat) (mem : Nat → Nat) (s : Sample) (w : Int)
    (h : addr1 + 5 ≤ addr2 ∨ addr2 + 8 ≤ addr1) :
    jitter_sample_frame addr1 addr2 mem s w = jitter_sample s w := by
  unfold jitter_sample_frame jitter_sample
  simp only
  have e1 : ∀ k1 k2 : Nat, (fun i : Fin 5 =>
      store_long (store_long mem addr1 k1) addr2 k2 (addr1 + i.val)) = byteOf k1 := by
    intro k1 k2
    funext i
    have hi := i.isLt
    unfold store_long byteOf
    have c2 : ¬ (addr2 ≤ addr1 + i.val ∧ addr1 + i.val < addr2 + 8) := by omega
    have c1 : addr1 ≤ addr1 + i.val ∧ addr1 + i.val < addr1 + 8 := by omega
    simp only [c2, c1, if_false, if_true, and_self, Nat.add_sub_cancel_left]
  have e2 : ∀ k1 k2 : Nat, (fun i : Fin 5 =>
      store_long (store_long mem addr1 k1) addr2 k2 (addr2 + i.val)) = byteOf k2 := by
    intro k1 k2
    funext i
    have hi := i.isLt
    unfold store_long byteOf
    have c2 : addr2 ≤ addr2 + i.val ∧ addr2 + i.val < addr2 + 8 := by omega
    simp only [c2, if_true, and_self, Nat.add_sub_cancel_left]
  rw [e1, e2]

end Rasterizer
